import Mathlib

/-!
# online-mall: a verification development

A shallow embedding of the core routines of the `online-mall` backend
(pagination, coupon evaluation, category tree and category service, the
authentication middleware and the routes, the token service, the response
envelope, the address hooks, the product stock and product list, the rate
limiter, the phone validation and the account controllers) together with
theorems relating them to the natural-language specification.

Conventions of the embedding:

* Go `int` (64 bit) values are `Int`; where the source performs arithmetic on
  them the result is wrapped with `wrapInt64`.
* Go `uint64` identifiers are `Nat`.
* Go `float64` values are `F64`, an executable model of IEEE 754 binary64 with
  round-to-nearest-even.
* `time.Time` instants are `Int` nanoseconds counted from the zero value of
  `time.Time` (0001-01-01 00:00:00 UTC).
* The database is an explicit state value passed through the service calls.
* A `gin` handler is a function of the context that also receives what
  `c.Next()` does; a handler chain is run by the loop of `Context.Next`.
* Token strings are symbolic: the JWT library is modelled up to its
  serialisation and its HMAC.
-/

namespace OnlineMall

/-! ## Go library models -/

/-- Two's-complement wrap of an integer into the range of a Go `int` (64 bit). -/
def wrapInt64 (x : Int) : Int := (x + 2 ^ 63) % 2 ^ 64 - 2 ^ 63

/-- Model of `strconv.Atoi` with the error result discarded, as every caller in
the repository does (`v, _ := strconv.Atoi(s)`): an optional sign followed by
one or more decimal digits gives the value, clamped to the `int` range on
overflow; any other text gives `0`. -/
def Atoi (s : String) : Int :=
  let cs := s.toList
  let signed : Bool × List Char :=
    match cs with
    | '-' :: r => (true, r)
    | '+' :: r => (false, r)
    | _ => (false, cs)
  let ds := signed.2
  if ds.isEmpty || !ds.all Char.isDigit then 0
  else
    let n : Int := ds.foldl (fun a ch => a * 10 + ((ch.toNat : Int) - 48)) 0
    let v := if signed.1 then -n else n
    max (-(2 ^ 63)) (min v (2 ^ 63 - 1))

/-- The query string of a request: `gin.Context.GetQuery`. -/
abbrev Query := String → Option String

/-- Model of `gin.Context.DefaultQuery`: the value of the key when the key is
present in the query, the default otherwise. -/
def DefaultQuery (q : Query) (key defaultValue : String) : String :=
  match q key with
  | some v => v
  | none => defaultValue

/-! ### IEEE 754 binary64 (`float64`) -/

/-- A Go `float64`. A finite value `fin neg m e` denotes `(-1)^neg * m * 2^e`;
the values produced by the operations below are canonical: either
`2^52 ≤ m < 2^53` and `-1074 ≤ e ≤ 971` (normal), or `m < 2^52` and `e = -1074`
(subnormal and zero), so that structural equality is equality of bit
patterns (all NaNs being identified). -/
inductive F64 where
  | nan : F64
  | inf (neg : Bool) : F64
  | fin (neg : Bool) (m : Nat) (e : Int) : F64
deriving DecidableEq, Repr

namespace F64

/-- Floor of the binary logarithm of `n` (`0` for `n ≤ 1`), by repeated halving;
`ilog2 n n` always has enough fuel. -/
def ilog2 : Nat → Nat → Nat
  | 0, _ => 0
  | fuel + 1, n => if n < 2 then 0 else ilog2 fuel (n / 2) + 1

/-- Round the quotient `q` with remainder `r` of a division by `d` to the
nearest integer, ties to even. -/
def roundNearestEven (q r d : Nat) : Nat :=
  if 2 * r > d ∨ (2 * r = d ∧ q % 2 = 1) then q + 1 else q

/-- The binary64 value nearest to `(-1)^neg * num / den` (`den > 0`), ties to
even, with gradual underflow and overflow to infinity. -/
def round (neg : Bool) (num den : Nat) : F64 :=
  if num = 0 then fin neg 0 (-1074)
  else
    let k : Int := (ilog2 num num : Int) - (ilog2 den den : Int)
    let e0 : Int := k - 52
    let e1 : Int :=
      if num * 2 ^ (-e0).toNat < 2 ^ 52 * (den * 2 ^ e0.toNat) then e0 - 1 else e0
    let e : Int := max e1 (-1074)
    let n := num * 2 ^ (-e).toNat
    let d := den * 2 ^ e.toNat
    let m := roundNearestEven (n / d) (n % d) d
    let me : Nat × Int := if m = 2 ^ 53 then (2 ^ 52, e + 1) else (m, e)
    if me.2 > 971 then inf neg else fin neg me.1 me.2

/-- Conversion of a natural number constant. -/
def ofNat (n : Nat) : F64 := round false n 1

/-- The binary64 value of the decimal `n / 10^k`, as produced by parsing the
decimal text (for example `ofDecimal 8 1` is the `float64` written `0.8`). -/
def ofDecimal (n k : Nat) : F64 := round false n (10 ^ k)

/-- The constant `0` (positive zero). -/
def zero : F64 := fin false 0 (-1074)

/-- The constant `1`. -/
def one : F64 := fin false (2 ^ 52) (-52)

/-- The integer `(-1)^neg * m * 2^(e - e0)` for `e0 ≤ e`: a finite value
expressed in units of `2^e0`. -/
def scaled (neg : Bool) (m : Nat) (e e0 : Int) : Int :=
  (if neg then -1 else 1) * ((m * 2 ^ (e - e0).toNat : Nat) : Int)

/-- The binary64 value nearest to `n * 2^e0`; an exact zero takes the sign
`zeroNeg`. -/
def ofScaled (n : Int) (e0 : Int) (zeroNeg : Bool) : F64 :=
  if n = 0 then fin zeroNeg 0 (-1074)
  else round (decide (n < 0)) (n.natAbs * 2 ^ e0.toNat) (2 ^ (-e0).toNat)

/-- Unary minus. -/
def neg : F64 → F64
  | nan => nan
  | inf s => inf (!s)
  | fin s m e => fin (!s) m e

/-- Addition `a + b`. -/
def add : F64 → F64 → F64
  | nan, _ => nan
  | _, nan => nan
  | inf s, inf t => if s = t then inf s else nan
  | inf s, fin _ _ _ => inf s
  | fin _ _ _, inf t => inf t
  | fin s m e, fin t n f =>
    let e0 := min e f
    ofScaled (scaled s m e e0 + scaled t n f e0) e0 (s && t)

/-- Subtraction `a - b`. -/
def sub (a b : F64) : F64 := add a (neg b)

/-- Multiplication `a * b`. -/
def mul : F64 → F64 → F64
  | nan, _ => nan
  | _, nan => nan
  | inf s, inf t => inf (xor s t)
  | inf s, fin t n _ => if n = 0 then nan else inf (xor s t)
  | fin s m _, inf t => if m = 0 then nan else inf (xor s t)
  | fin s m e, fin t n f =>
    round (xor s t) (m * n * 2 ^ (e + f).toNat) (2 ^ (-(e + f)).toNat)

/-- Comparison `a < b`; false when either operand is NaN. -/
def lt : F64 → F64 → Bool
  | nan, _ => false
  | _, nan => false
  | inf s, inf t => s && !t
  | inf s, fin _ _ _ => s
  | fin _ _ _, inf t => !t
  | fin s m e, fin t n f =>
    let e0 := min e f
    decide (scaled s m e e0 < scaled t n f e0)

/-- Comparison `a == b`; false when either operand is NaN, true for `-0 == 0`. -/
def eq : F64 → F64 → Bool
  | nan, _ => false
  | _, nan => false
  | inf s, inf t => s == t
  | inf _, fin _ _ _ => false
  | fin _ _ _, inf _ => false
  | fin s m e, fin t n f =>
    let e0 := min e f
    decide (scaled s m e e0 = scaled t n f e0)

/-- Comparison `a <= b`. -/
def le (a b : F64) : Bool := lt a b || eq a b

/-- Comparison `a > b`. -/
def gt (a b : F64) : Bool := lt b a

/-- Comparison `a >= b`. -/
def ge (a b : F64) : Bool := le b a

end F64

/-! ### `time.Time` -/

/-- An instant: nanoseconds elapsed since 0001-01-01 00:00:00 UTC, which is the
zero value of `time.Time`. -/
abbrev Time := Int

/-- The instant `t` is before `u`: `t.Before(u)`. -/
def Time.Before (t u : Time) : Bool := decide (t < u)

/-- The instant `t` is after `u`: `t.After(u)`. -/
def Time.After (t u : Time) : Bool := decide (t > u)

/-- The zero value `time.Time{}`. -/
def Time.zero : Time := 0

/-- Leap years of the proleptic Gregorian calendar. -/
def isLeap (year : Nat) : Bool :=
  year % 4 = 0 && (year % 100 != 0 || year % 400 = 0)

/-- Number of days of a month (`1` = January) in a year: `time.daysIn`. -/
def daysIn (month year : Nat) : Nat :=
  if month = 2 then (if isLeap year then 29 else 28)
  else if month = 4 ∨ month = 6 ∨ month = 9 ∨ month = 11 then 30
  else 31

/-- Number of days of the year that precede the first day of a month. -/
def daysBefore (month year : Nat) : Nat :=
  ((List.range (month - 1)).map (fun i => daysIn (i + 1) year)).sum

/-- Number of days from 0001-01-01 to the first day of a year. -/
def daysSinceZero (year : Nat) : Int :=
  let y : Int := (year : Int) - 1
  365 * y + y / 4 - y / 100 + y / 400

/-- Model of `time.Date(year, month, day, hour, min, sec, nsec, time.UTC)` for
fields that are in range. -/
def Date (year month day hour min sec nsec : Nat) : Time :=
  let days : Int := daysSinceZero year + daysBefore month year + ((day : Int) - 1)
  (((days * 24 + hour) * 60 + min) * 60 + sec) * 1000000000 + nsec

/-- Value of a decimal digit character. -/
def digitVal (c : Char) : Nat := c.toNat - 48

/-- Model of `time.getnum`: a one- or two-digit number at the head of the text;
with `fixed` exactly two digits are required. -/
def getnum (s : List Char) (fixed : Bool) : Option (Nat × List Char) :=
  match s with
  | [] => none
  | c0 :: rest =>
    if !c0.isDigit then none
    else
      match rest with
      | [] => if fixed then none else some (digitVal c0, [])
      | c1 :: rest1 =>
        if c1.isDigit then some (digitVal c0 * 10 + digitVal c1, rest1)
        else if fixed then none
        else some (digitVal c0, rest)

/-- A literal character of the layout must match the text. -/
def skipChar (ch : Char) (s : List Char) : Option (List Char) :=
  match s with
  | [] => none
  | c :: rest => if c = ch then some rest else none

/-- A space of the layout (`time.skip`): non-empty text must start with a space,
and all leading spaces are consumed. -/
def skipSpace (s : List Char) : Option (List Char) :=
  match s with
  | [] => some []
  | c :: _ => if c = ' ' then some (s.dropWhile (fun x => x = ' ')) else none

/-- The layout element `2006`: exactly four digits. -/
def getyear (s : List Char) : Option (Nat × List Char) :=
  match s with
  | a :: b :: c :: d :: rest =>
    if a.isDigit && b.isDigit && c.isDigit && d.isDigit then
      some (((digitVal a * 10 + digitVal b) * 10 + digitVal c) * 10 + digitVal d, rest)
    else none
  | _ => none

/-- A fractional second that follows the seconds field although the layout has
none: a period or comma and digits, of which nine are significant. -/
def getfrac (s : List Char) : Nat × List Char :=
  match s with
  | p :: d :: rest =>
    if (p = '.' || p = ',') && d.isDigit then
      let ds := (d :: rest).takeWhile Char.isDigit
      let kept := ds.take 9
      let ns := kept.foldl (fun a ch => a * 10 + digitVal ch) 0
      (ns * 10 ^ (9 - kept.length), (d :: rest).dropWhile Char.isDigit)
    else (0, s)
  | _ => (0, s)

/-- Model of `time.Parse("2006-01-02 15:04:05", value)`, the only layout used in
the repository: `some t` for a successful parse, `none` for an error (in which
case `time.Parse` returns the zero `time.Time`). -/
def timeParse (value : String) : Option Time := do
  let (year, s) ← getyear value.toList
  let s ← skipChar '-' s
  let (month, s) ← getnum s true
  if month = 0 ∨ 12 < month then none
  let s ← skipChar '-' s
  let (day, s) ← getnum s true
  let s ← skipSpace s
  let (hour, s) ← getnum s false
  if 24 ≤ hour then none
  let s ← skipChar ':' s
  let (min, s) ← getnum s true
  if 60 ≤ min then none
  let s ← skipChar ':' s
  let (sec, s) ← getnum s true
  if 60 ≤ sec then none
  let (nsec, s) := getfrac s
  if !s.isEmpty then none
  if day < 1 ∨ daysIn month year < day then none
  some (Date year month day hour min sec nsec)


/-! ## Pagination helper (`api/controller/base.go`) -/

/-- Embedding of `BaseController.GetPagination`. -/
def GetPagination (c : Query) : Int × Int :=
  let page := Atoi (DefaultQuery c "page" "1")
  let pageSize := Atoi (DefaultQuery c "page_size" "10")
  let page := if page < 1 then 1 else page
  let pageSize := if pageSize < 1 ∨ pageSize > 100 then 10 else pageSize
  (page, pageSize)

/-- Embedding of `BaseController.GetOffset`. -/
def GetOffset (page pageSize : Int) : Int :=
  wrapInt64 ((page - 1) * pageSize)

/-! ## Coupon evaluator (`models/coupon.go`) -/

/-- Embedding of `models.Coupon` (the timestamps of `BaseModel` are omitted).
The field `Type` of the source is written `Type_`, `Type` being reserved. -/
structure Coupon where
  ID : Nat
  Name : String
  Type_ : Int
  Value : F64
  MinAmount : F64
  StartTime : String
  EndTime : String
  Stock : Int
  UsedCount : Int
  Status : Int
deriving DecidableEq, Repr

/-- Embedding of `Coupon.CheckIsValid`. The clock reading `time.Now()` is the
argument `now`, and `parse` stands for `time.Parse("2006-01-02 15:04:05", ·)`;
the source discards the parse error and keeps the returned instant, which is
the zero instant when the parse fails. -/
def Coupon.CheckIsValid (parse : String → Option Time) (now : Time) (c : Coupon) : Bool :=
  if c.Status ≠ 1 then false
  else if c.Stock > 0 ∧ c.UsedCount ≥ c.Stock then false
  else
    let startTime := (parse c.StartTime).getD Time.zero
    let endTime := (parse c.EndTime).getD Time.zero
    if now.Before startTime || now.After endTime then false
    else true

/-- Embedding of `Coupon.GetDiscountAmount`. -/
def Coupon.GetDiscountAmount (parse : String → Option Time) (now : Time) (c : Coupon)
    (totalAmount : F64) : F64 :=
  if !c.CheckIsValid parse now then F64.zero
  else if F64.lt totalAmount c.MinAmount then F64.zero
  else if c.Type_ = 1 then c.Value
  else if c.Type_ = 2 then
    if F64.ge c.Value F64.one || F64.le c.Value F64.zero then F64.zero
    else F64.mul totalAmount (F64.sub F64.one c.Value)
  else F64.zero

/-- A sample coupon of the given type, value and minimum amount: enabled, with
unbounded stock, and valid throughout the year 2024. -/
def sampleCoupon (type : Int) (value minAmount : F64) : Coupon :=
  { ID := 1, Name := "sample", Type_ := type, Value := value, MinAmount := minAmount,
    StartTime := "2024-01-01 00:00:00", EndTime := "2024-12-31 23:59:59",
    Stock := 0, UsedCount := 0, Status := 1 }

/-- The instant 2024-06-01 12:00:00 UTC. -/
def noon : Time := Date 2024 6 1 12 0 0 0

/-! ## Category tree (`repository/category_repository.go`) -/

/-- Embedding of `models.Category` (the timestamps of `BaseModel` are omitted).
The field `Sort` of the source is written `Sort_`, `Sort` being reserved. -/
structure Category where
  ID : Nat
  Name : String
  ParentID : Nat
  Level : Int
  Sort_ : Int
  Status : Int
deriving DecidableEq, Repr

/-- The loop `for _, category := range categories` of `buildTree`, on the part of
the list still to visit, with the slice `tree` built so far. `recurse id` is the
recursive call `r.buildTree(categories, id)`; its result `children` is
inspected only by an `if` with an empty body, so nothing of it reaches `tree`,
but the call has to return for the loop to go on. -/
def buildTreeLoop (recurse : Nat → Option (List Category)) (parentID : Nat) :
    List Category → List Category → Option (List Category)
  | [], tree => some tree
  | category :: rest, tree =>
    if category.ParentID = parentID then
      match recurse category.ID with
      | none => none
      | some _children => buildTreeLoop recurse parentID rest (tree ++ [category])
    else buildTreeLoop recurse parentID rest tree

/-- Embedding of `CategoryRepository.buildTree`. The first argument bounds the
recursion depth; `none` means that the bound was reached (the Go function has
no such bound and does not return on such inputs). -/
def buildTree : Nat → List Category → Nat → Option (List Category)
  | 0, _, _ => none
  | fuel + 1, categories, parentID =>
    buildTreeLoop (buildTree fuel categories) parentID categories []

/-- A category record with the given id and parent id. -/
def mkCategory (id parentID : Nat) : Category :=
  { ID := id, Name := "", ParentID := parentID, Level := 1, Sort_ := 0, Status := 1 }

/-- A category record with the given id, parent id and level. -/
def categoryAt (id parentID : Nat) (level : Int) : Category :=
  { ID := id, Name := "", ParentID := parentID, Level := level, Sort_ := 0, Status := 1 }

/-- The flat list of the specification's example: categories 1 (a root), 2 and
3 (children of 1) and 4 (whose parent 99 does not exist). -/
def exampleCategories : List Category :=
  [mkCategory 1 0, mkCategory 2 1, mkCategory 3 1, mkCategory 4 99]

/-- The parent link as the repository reads it: `ParentID = 0` marks a
top-level category, which has no parent; otherwise the parent is the category
whose `ID` is `ParentID`. -/
def IsChildOf (c p : Category) : Prop := c.ParentID ≠ 0 ∧ c.ParentID = p.ID

/-- An orphan of a list: a member whose non-zero `ParentID` is the `ID` of no
member. -/
def IsOrphan (categories : List Category) (c : Category) : Prop :=
  c ∈ categories ∧ c.ParentID ≠ 0 ∧ ∀ p ∈ categories, p.ID ≠ c.ParentID

/-- The category `c` is a descendant of `a` in the list: it is linked to `a` by
a non-empty chain of parent links through members of the list. -/
inductive DescendsFrom (categories : List Category) : Category → Category → Prop
  | child {c a : Category} :
      c ∈ categories → IsChildOf c a → DescendsFrom categories c a
  | step {c p a : Category} :
      c ∈ categories → IsChildOf c p → DescendsFrom categories p a →
      DescendsFrom categories c a

/-- The condition under which the stack of parent ids of nested `buildTree`
calls (innermost first) cannot grow for ever: every category whose `ID` is on
the stack has its `ParentID` deeper in the stack. -/
def ChainOK (categories : List Category) : List Nat → Prop
  | [] => True
  | id :: rest =>
    (∀ c ∈ categories, c.ID = id → c.ParentID ∈ rest) ∧ ChainOK categories rest

/-! ## Category repository and service
(`repository/category_repository.go`, `service/category_service.go`) -/

/-- The `categories` table: its rows that are not deleted, in insertion order,
and the value that the auto-increment primary key takes next. -/
structure CategoryTable where
  rows : List Category
  autoIncrement : Nat
deriving DecidableEq, Repr

/-- The errors returned by the category service and repository. -/
inductive CategoryError where
  /-- The error `errors.New` of `CreateCategory` and `UpdateCategory` for a parent
  id that is not found. -/
  | parentNotFound
  /-- The error of `UpdateCategory` for a category id that is not found. -/
  | categoryNotFound
  /-- The error of `UpdateCategory` for a category that is given as its own parent. -/
  | ownChild
  /-- A duplicate primary key reported by the database; `gorm.ErrDuplicatedKey` is
  also what `CategoryRepository.Delete` returns for a category that has
  sub-categories or products. -/
  | duplicateKey
  /-- The error of `DeleteCategory` for a deletion that the repository refused. -/
  | deleteFailed
deriving DecidableEq, Repr

namespace CategoryRepository

/-- Embedding of `CategoryRepository.GetByID`: the row with the given primary
key, `none` for the error `record not found`. -/
def GetByID (t : CategoryTable) (id : Nat) : Option Category :=
  t.rows.find? (fun c => decide (c.ID = id))

/-- Embedding of `CategoryRepository.Create` (`DB.Create`): a record whose `ID`
is zero receives the next auto-increment value, a record with a non-zero `ID`
is inserted under that key unless the key is taken. The record as written back
through the pointer is returned with the new table. The column defaults that
apply to a zero `Level` or `Status` are not modelled: the service replaces a
zero `Status`, and the level it computes is zero only below a parent of
level -1. -/
def Create (t : CategoryTable) (category : Category) :
    Except CategoryError (CategoryTable × Category) :=
  if category.ID = 0 then
    let stored := { category with ID := t.autoIncrement }
    .ok ({ rows := t.rows ++ [stored], autoIncrement := t.autoIncrement + 1 }, stored)
  else if t.rows.any (fun c => decide (c.ID = category.ID)) then
    .error CategoryError.duplicateKey
  else
    .ok ({ rows := t.rows ++ [category],
           autoIncrement := max t.autoIncrement (category.ID + 1) }, category)

/-- Embedding of `CategoryRepository.Update` (`DB.Save`): every column of the row
with the record's primary key is overwritten with the record; a record without
a primary key, or with one that matches no row, is inserted. -/
def Update (t : CategoryTable) (category : Category) :
    Except CategoryError (CategoryTable × Category) :=
  if category.ID = 0 then Create t category
  else if t.rows.any (fun c => decide (c.ID = category.ID)) then
    .ok ({ t with rows := t.rows.map (fun c => if c.ID = category.ID then category else c) },
         category)
  else Create t category

end CategoryRepository

namespace CategoryService

/-- Embedding of `CategoryService.CreateCategory`. -/
def CreateCategory (t : CategoryTable) (category : Category) :
    Except CategoryError (CategoryTable × Category) :=
  let leveled : Except CategoryError Category :=
    if category.ParentID > 0 then
      match CategoryRepository.GetByID t category.ParentID with
      | none => .error CategoryError.parentNotFound
      | some parent => .ok { category with Level := wrapInt64 (parent.Level + 1) }
    else .ok { category with Level := 1 }
  match leveled with
  | .error e => .error e
  | .ok category =>
    let category := if category.Status = 0 then { category with Status := 1 } else category
    CategoryRepository.Create t category

/-- Embedding of `CategoryService.UpdateCategory`. -/
def UpdateCategory (t : CategoryTable) (category : Category) :
    Except CategoryError (CategoryTable × Category) :=
  match CategoryRepository.GetByID t category.ID with
  | none => .error CategoryError.categoryNotFound
  | some _ =>
    let leveled : Except CategoryError Category :=
      if category.ParentID > 0 then
        match CategoryRepository.GetByID t category.ParentID with
        | none => .error CategoryError.parentNotFound
        | some parent =>
          if category.ID = parent.ID then .error CategoryError.ownChild
          else .ok { category with Level := wrapInt64 (parent.Level + 1) }
      else .ok { category with Level := 1 }
    match leveled with
    | .error e => .error e
    | .ok category => CategoryRepository.Update t category

end CategoryService

/-- The level rule for one row: `Level = 1` for a top-level category, and
`Level = parent.Level + 1` for a category whose parent is stored. -/
def levelOK (rows : List Category) (c : Category) : Bool :=
  if c.ParentID = 0 then decide (c.Level = 1)
  else
    match rows.find? (fun p => decide (p.ID = c.ParentID)) with
    | some parent => decide (c.Level = parent.Level + 1)
    | none => false

/-- The level invariant of the data model: every stored category satisfies the
level rule. -/
def LevelInvariant (rows : List Category) : Prop :=
  ∀ c ∈ rows, levelOK rows c = true

/-- Following the parent links upwards from the category `id`, a top-level
category is reached within `fuel` steps. -/
def reachesRoot (rows : List Category) : Nat → Nat → Bool
  | _, 0 => true
  | 0, _ + 1 => false
  | fuel + 1, id + 1 =>
    match rows.find? (fun p => decide (p.ID = id + 1)) with
    | some p => reachesRoot rows fuel p.ParentID
    | none => false

/-- The parent links of the stored categories form a forest: from every
category the chain of parents ends at a top-level category. A chain that ends
does so within as many steps as there are rows. -/
def IsForest (rows : List Category) : Prop :=
  ∀ c ∈ rows, reachesRoot rows rows.length c.ID = true

/-- A table with a top-level category 1, its child 2 and another top-level
category 3. -/
def exampleTable : CategoryTable :=
  { rows := [categoryAt 1 0 1, categoryAt 2 1 2, categoryAt 3 0 1],
    autoIncrement := 4 }

/-! ## Category deletion (`repository/category_repository.go`,
`service/category_service.go`) -/

/-- Embedding of `models.Product` (the timestamps of `BaseModel` and the
preloaded associations `Category` and `ProductSkus` are omitted). The field
`Sort` of the source is written `Sort_`. -/
structure Product where
  ID : Nat
  Name : String
  CategoryID : Nat
  Description : String
  Price : F64
  OriginalPrice : Option F64
  Stock : Int
  Sales : Int
  Images : String
  VideoURL : String
  Status : Int
  IsHot : Bool
  IsNew : Bool
  Sort_ : Int
deriving DecidableEq, Repr

/-- The two tables that the deletion of a category reads or writes: the
`categories` table and the rows of the `products` table that are not deleted. -/
structure Store where
  categories : CategoryTable
  products : List Product
deriving DecidableEq, Repr

/-- Embedding of `CategoryRepository.Delete`: inside one transaction, the number
of categories with `parent_id = id` and the number of products with
`category_id = id` are counted; if either is positive the transaction returns
`gorm.ErrDuplicatedKey`, otherwise the category row is deleted. The result is
the store after the transaction and the error returned (`none` for `nil`). -/
def CategoryRepository.Delete (s : Store) (id : Nat) : Store × Option CategoryError :=
  let count := (s.categories.rows.filter (fun c => decide (c.ParentID = id))).length
  if count > 0 then (s, some CategoryError.duplicateKey)
  else
    let productCount := (s.products.filter (fun p => decide (p.CategoryID = id))).length
    if productCount > 0 then (s, some CategoryError.duplicateKey)
    else
      ({ s with categories :=
          { s.categories with
            rows := s.categories.rows.filter (fun c => !decide (c.ID = id)) } }, none)

/-- Embedding of `CategoryService.DeleteCategory`. An error of the repository
whose text is not `record not found` is reported as a failed deletion. -/
def CategoryService.DeleteCategory (s : Store) (id : Nat) : Store × Option CategoryError :=
  match CategoryRepository.GetByID s.categories id with
  | none => (s, some CategoryError.categoryNotFound)
  | some _ =>
    match CategoryRepository.Delete s id with
    | (s1, some _) => (s1, some CategoryError.deleteFailed)
    | (s1, none) => (s1, none)

/-- The deletion of the category `id` is blocked: some category has it as
parent or some product belongs to it. -/
def DeleteBlocked (s : Store) (id : Nat) : Prop :=
  (∃ c ∈ s.categories.rows, c.ParentID = id) ∨ (∃ p ∈ s.products, p.CategoryID = id)

/-- A product of the given id in the given category. -/
def mkProduct (id categoryID : Nat) : Product :=
  { ID := id, Name := "", CategoryID := categoryID, Description := "",
    Price := F64.zero, OriginalPrice := none, Stock := 0, Sales := 0, Images := "",
    VideoURL := "", Status := 1, IsHot := false, IsNew := false, Sort_ := 0 }

/-- The example table of categories with one product in category 3. -/
def exampleStore : Store :=
  { categories := exampleTable, products := [mkProduct 1 3] }

/-! ## HTTP layer: a model of `gin`

A request is served by a chain of handlers that share one context. The model
keeps what the handlers of the repository read and write: the request
headers, the context keys, the handler index that `Next` and `Abort` move, and
the calls of `c.JSON`. Response headers, logging and the clock play no part
in the claims and are not modelled. -/

/-! ### Claims and token strings as values -/

/-- Embedding of `jwt.RegisteredClaims`; the dates are instants, `none` for a
claim that is absent. -/
structure RegisteredClaims where
  Issuer : String
  Subject : String
  Audience : List String
  ExpiresAt : Option Time
  NotBefore : Option Time
  IssuedAt : Option Time
  ID : String
deriving DecidableEq, Repr

/-- Embedding of `utils.JWTClaims`. -/
structure JWTClaims where
  UserID : Nat
  Username : String
  Role : String
  Registered : RegisteredClaims
deriving DecidableEq, Repr

/-- The signing method named in the header of a token. -/
inductive SigningMethod where
  | HS256
  | HS384
  | HS512
  | other (alg : String)
deriving DecidableEq, Repr

/-- The type assertion `token.Method.(*jwt.SigningMethodHMAC)` succeeds. -/
def SigningMethod.isHMAC : SigningMethod → Bool
  | SigningMethod.HS256 => true
  | SigningMethod.HS384 => true
  | SigningMethod.HS512 => true
  | SigningMethod.other _ => false

/-- A token string: either the serialisation of a header naming `method`, of
the claims `claims`, and of a signature made with the key `key`, or a text that
the parser of the library cannot split and decode. -/
inductive TokenString where
  | signed (method : SigningMethod) (claims : JWTClaims) (key : String)
  | malformed (text : String)
deriving DecidableEq, Repr

/-- A dynamically typed value (`any`): what a context key or a field of a
`gin.H` map holds. A Go `string` that holds a token is the value `token`. -/
inductive Any where
  | nil
  | bool (b : Bool)
  | int (i : Int)
  | uint64 (n : Nat)
  | string (s : String)
  | strings (l : List String)
  | uint (n : Nat)
  | time (t : Time)
  | token (t : TokenString)
deriving DecidableEq, Repr

/-- The map type `gin.H`, as the list of its entries. -/
abbrev H := List (String × Any)

/-- A field of a map whose fields are values, maps or lists of products
(`map[string]interface{}`). -/
inductive Value where
  | scalar (v : Any)
  | map (fields : H)
  | products (list : List Product)
deriving DecidableEq, Repr

/-- The `data` of a response envelope (`interface{}`). -/
inductive Data where
  | nil
  | value (v : Any)
  | object (fields : H)
  | record (fields : List (String × Value))
deriving DecidableEq, Repr

/-- Embedding of `utils.Response`, the response envelope; its JSON form has
the keys `code`, `message` and `data`. -/
structure Response where
  Code : Int
  Message : String
  Data : Data
deriving DecidableEq, Repr

/-- The body passed to `c.JSON`: a `gin.H` map or a response envelope. -/
inductive Body where
  | map (h : H)
  | response (r : Response)
deriving DecidableEq, Repr

/-- The keys of the JSON object that a body is serialised to. -/
def Body.keys : Body → List String
  | Body.map h => h.map (fun kv => kv.1)
  | Body.response _ => ["code", "message", "data"]

/-- The value of the field `code` of the JSON object of a body. -/
def Body.code : Body → Option Any
  | Body.map h => h.lookup "code"
  | Body.response r => some (Any.int r.Code)

/-- One call of `c.JSON(status, body)`. -/
structure Written where
  Status : Nat
  Body : Body
deriving DecidableEq, Repr

/-- The part of `http.Request` that the handlers read. -/
structure Request where
  Method : String
  Path : String
  Header : List (String × String)
deriving DecidableEq, Repr

/-- Embedding of `gin.Context`. -/
structure Context where
  Request : Request
  Keys : List (String × Any)
  index : Int
  Written : List Written
deriving DecidableEq, Repr

/-- The value of `abortIndex` in `gin`. -/
def abortIndex : Int := 63

namespace Context

/-- The context of a fresh request, as `Context.reset` leaves it. -/
def new (r : OnlineMall.Request) : Context :=
  { Request := r, Keys := [], index := -1, Written := [] }

/-- Method `c.GetHeader(key)`: the header value, or the empty string. -/
def GetHeader (c : Context) (key : String) : String :=
  (c.Request.Header.lookup key).getD ""

/-- Method `c.Set(key, value)`. -/
def Set (c : Context) (key : String) (value : Any) : Context :=
  { c with Keys := (key, value) :: c.Keys }

/-- Method `c.Get(key)`. -/
def Get (c : Context) (key : String) : Option Any :=
  c.Keys.lookup key

/-- Method `c.JSON(status, body)`. -/
def JSON (c : Context) (status : Nat) (body : Body) : Context :=
  { c with Written := c.Written ++ [{ Status := status, Body := body }] }

/-- Method `c.Abort()`. -/
def Abort (c : Context) : Context :=
  { c with index := abortIndex }

/-- Method `c.IsAborted()`. -/
def IsAborted (c : Context) : Bool :=
  decide (c.index ≥ abortIndex)

end Context

/-- A handler (`gin.HandlerFunc`). Its first argument is what `c.Next()` does
when the handler calls it; the handler maps the context it receives to the
context it leaves. -/
abbrev HandlerFunc := (Context → Context) → Context → Context

/-- The loop of `Context.Next`: `for c.index < len(c.handlers)` the handler at
`c.index` runs and the index is incremented. A handler that calls `c.Next()`
runs the same loop from the next index. `fuel` bounds the number of handler
calls; one more than the number of handlers is always enough. -/
def runHandlers (handlers : List HandlerFunc) : Nat → Context → Context
  | 0, c => c
  | fuel + 1, c =>
    match handlers.get? c.index.toNat with
    | none => c
    | some h =>
      let c1 := h (fun c2 => runHandlers handlers fuel { c2 with index := c2.index + 1 }) c
      runHandlers handlers fuel { c1 with index := c1.index + 1 }

/-- How the engine serves a request with the handler chain of its route: the
fresh context has index -1 and `c.Next()` is called once. -/
def ServeHTTP (handlers : List HandlerFunc) (r : Request) : Context :=
  runHandlers handlers (handlers.length + 1) { Context.new r with index := 0 }

/-- Model of `strings.SplitN(s, " ", 2)`: the text before the first space and the
text after it, or the whole text when it has no space. -/
def SplitN2 (s : String) : List String :=
  match s.toList.span (fun ch => ch != ' ') with
  | (pre, []) => [String.mk pre]
  | (pre, _ :: post) => [String.mk pre, String.mk post]

/-! ## Authentication middleware (`api/middleware/jwt.go`) -/

/-- The body `gin.H{"code": code, "message": message}` of the rejections written by
the middleware. -/
def rejection (code : Int) (message : String) : Body :=
  Body.map [("code", Any.int code), ("message", Any.string message)]

/-- Embedding of `JWTAuth`. `ValidateToken` stands for `utils.ValidateToken`, whose
error is carried as its text. -/
def JWTAuth (ValidateToken : String → Except String JWTClaims) : HandlerFunc :=
  fun next c =>
    let authHeader := c.GetHeader "Authorization"
    if authHeader = "" then
      (c.JSON 401 (rejection 401 "Authorization header is required")).Abort
    else
      match SplitN2 authHeader with
      | [scheme, tokenString] =>
        if scheme = "Bearer" then
          match ValidateToken tokenString with
          | .error err =>
            (c.JSON 401 (rejection 401 ("Invalid or expired token: " ++ err))).Abort
          | .ok claims =>
            next (((c.Set "user_id" (Any.uint64 claims.UserID)).Set "username"
              (Any.string claims.Username)).Set "role" (Any.string claims.Role))
        else
          (c.JSON 401 (rejection 401 "Authorization header format must be Bearer \x7btoken\x7d")).Abort
      | _ =>
        (c.JSON 401 (rejection 401 "Authorization header format must be Bearer \x7btoken\x7d")).Abort

/-- The type assertion `v.(uint64)` with the `ok` result discarded. -/
def Any.asUint64 : Any → Nat
  | Any.uint64 n => n
  | _ => 0

/-- The type assertion `v.(string)` with the `ok` result discarded. -/
def Any.asString : Any → String
  | Any.string s => s
  | _ => ""

/-- Embedding of `GetCurrentUser`: `(userID, username, role, ok)`. -/
def GetCurrentUser (c : Context) : Nat × String × String × Bool :=
  match c.Get "user_id", c.Get "username", c.Get "role" with
  | some userIDValue, some usernameValue, some roleValue =>
    (userIDValue.asUint64, usernameValue.asString, roleValue.asString, true)
  | _, _, _ => (0, "", "", false)

/-- Embedding of `RequireAdmin`. -/
def RequireAdmin : HandlerFunc :=
  fun next c =>
    let user := GetCurrentUser c
    if !user.2.2.2 then
      (c.JSON 401 (rejection 401 "User not authenticated")).Abort
    else if user.2.2.1 ≠ "admin" then
      (c.JSON 403 (rejection 403 "Admin privileges required")).Abort
    else next c

/-- Embedding of `OptionalAuth`. -/
def OptionalAuth (ValidateToken : String → Except String JWTClaims) : HandlerFunc :=
  fun next c =>
    let authHeader := c.GetHeader "Authorization"
    if authHeader = "" then next c
    else
      match SplitN2 authHeader with
      | [scheme, tokenString] =>
        if scheme ≠ "Bearer" then next c
        else
          match ValidateToken tokenString with
          | .error _ => next c
          | .ok claims =>
            next (((c.Set "user_id" (Any.uint64 claims.UserID)).Set "username"
              (Any.string claims.Username)).Set "role" (Any.string claims.Role))
      | _ => next c

/-- The context that `JWTAuth` and `OptionalAuth` hand on for the claims of a
valid token. -/
def withUser (c : Context) (claims : JWTClaims) : Context :=
  ((c.Set "user_id" (Any.uint64 claims.UserID)).Set "username"
    (Any.string claims.Username)).Set "role" (Any.string claims.Role)

/-- A request with the given method, path and `Authorization` header. -/
def mkRequest (method path authorization : String) : Request :=
  { Method := method, Path := path, Header := [("Authorization", authorization)] }

/-- Claims of the given user and role without registered claims. -/
def mkClaims (userID : Nat) (username role : String) : JWTClaims :=
  { UserID := userID, Username := username, Role := role,
    Registered := { Issuer := "", Subject := username, Audience := [], ExpiresAt := none,
                    NotBefore := none, IssuedAt := none, ID := "" } }

/-- A token validator that accepts the token `alice-token` for the user 7
`alice` of role `user` and the token `root-token` for the user 1 `root` of
role `admin`, and rejects every other token. -/
def sampleValidate (tokenString : String) : Except String JWTClaims :=
  if tokenString = "alice-token" then .ok (mkClaims 7 "alice" "user")
  else if tokenString = "root-token" then .ok (mkClaims 1 "root" "admin")
  else .error "token is malformed"

/-- A final handler for the examples: it answers 200 with the user id found in
the context (`nil` when there is none) and does not call `Next`. -/
def whoami : HandlerFunc :=
  fun _ c => c.JSON 200 (Body.map [("user_id", (c.Get "user_id").getD Any.nil)])

/-! ## Routes (`api/routes/routes.go`) and the other middleware
(`api/middleware/logger.go`) -/

/-- Embedding of `middleware.Logger`: the request is read, `c.Next()` is called
and a log line is printed; nothing of the context is changed. -/
def Logger : HandlerFunc := fun next c => next c

/-- Embedding of `middleware.Recovery`: `c.Next()` under a deferred `recover`.
The handlers of the model do not panic, so the deferred function does nothing. -/
def Recovery : HandlerFunc := fun next c => next c

/-- Embedding of `middleware.RequestID`; `requestID` is the value of
`generateRequestID()`, the clock reading in decimal. -/
def RequestID (requestID : String) : HandlerFunc :=
  fun next c => next (c.Set "request_id" (Any.string requestID))

/-- The handlers that `SetupRoutes` puts into handler chains. `GinLogger` and
`GinRecovery` are the two handlers that `gin.Default()` installs. -/
inductive Handler where
  | GinLogger
  | GinRecovery
  | Logger
  | CORS
  | Recovery
  | RequestID
  | JWTAuth
  | RequireAdmin
  | Controller (name : String)
deriving DecidableEq, Repr

/-- A registered route: method, full path and handler chain. -/
structure Route where
  Method : String
  Path : String
  Handlers : List Handler
deriving DecidableEq, Repr

/-- The handlers of the engine `r` after `gin.Default()` and the four calls of
`r.Use`; every group created afterwards inherits them. -/
def engineHandlers : List Handler :=
  [Handler.GinLogger, Handler.GinRecovery, Handler.Logger, Handler.CORS, Handler.Recovery,
   Handler.RequestID]

/-- Embedding of `SetupRoutes`: the routes that the function registers (the
static file routes apart), each with the handlers of its group followed by the
handlers given at registration. The groups `products` and `categories` add no
middleware; their admin sub-groups add `RequireAdmin`. -/
def SetupRoutes : List Route :=
  let api := engineHandlers
  let auth := api
  let user := api ++ [Handler.JWTAuth]
  let products := api
  let adminProducts := products ++ [Handler.RequireAdmin]
  let categories := api
  let adminCategories := categories ++ [Handler.RequireAdmin]
  [ { Method := "GET", Path := "/health",
      Handlers := engineHandlers ++ [Handler.Controller "healthCheck"] },
    { Method := "POST", Path := "/api/auth/login",
      Handlers := auth ++ [Handler.Controller "Login"] },
    { Method := "POST", Path := "/api/auth/register",
      Handlers := auth ++ [Handler.Controller "Register"] },
    { Method := "POST", Path := "/api/auth/refresh-token",
      Handlers := auth ++ [Handler.Controller "RefreshToken"] },
    { Method := "POST", Path := "/api/auth/logout",
      Handlers := auth ++ [Handler.JWTAuth, Handler.Controller "Logout"] },
    { Method := "GET", Path := "/api/users/profile",
      Handlers := user ++ [Handler.Controller "GetUserInfo"] },
    { Method := "PUT", Path := "/api/users/profile",
      Handlers := user ++ [Handler.Controller "UpdateUserInfo"] },
    { Method := "PUT", Path := "/api/users/password",
      Handlers := user ++ [Handler.Controller "UpdatePassword"] },
    { Method := "GET", Path := "/api/products",
      Handlers := products ++ [Handler.Controller "GetProducts"] },
    { Method := "GET", Path := "/api/products/:id",
      Handlers := products ++ [Handler.Controller "GetProduct"] },
    { Method := "GET", Path := "/api/products/:id/skus",
      Handlers := products ++ [Handler.Controller "GetProductSkus"] },
    { Method := "GET", Path := "/api/products/hot",
      Handlers := products ++ [Handler.Controller "GetHotProducts"] },
    { Method := "GET", Path := "/api/products/new",
      Handlers := products ++ [Handler.Controller "GetNewProducts"] },
    { Method := "POST", Path := "/api/products",
      Handlers := adminProducts ++ [Handler.Controller "CreateProduct"] },
    { Method := "PUT", Path := "/api/products/:id",
      Handlers := adminProducts ++ [Handler.Controller "UpdateProduct"] },
    { Method := "DELETE", Path := "/api/products/:id",
      Handlers := adminProducts ++ [Handler.Controller "DeleteProduct"] },
    { Method := "PUT", Path := "/api/products/:id/status",
      Handlers := adminProducts ++ [Handler.Controller "UpdateProductStatus"] },
    { Method := "GET", Path := "/api/categories",
      Handlers := categories ++ [Handler.Controller "GetCategories"] },
    { Method := "GET", Path := "/api/categories/tree",
      Handlers := categories ++ [Handler.Controller "GetCategoryTree"] },
    { Method := "GET", Path := "/api/categories/:id",
      Handlers := categories ++ [Handler.Controller "GetCategory"] },
    { Method := "GET", Path := "/api/categories/:id/children",
      Handlers := categories ++ [Handler.Controller "GetSubCategories"] },
    { Method := "POST", Path := "/api/categories",
      Handlers := adminCategories ++ [Handler.Controller "CreateCategory"] },
    { Method := "PUT", Path := "/api/categories/:id",
      Handlers := adminCategories ++ [Handler.Controller "UpdateCategory"] },
    { Method := "DELETE", Path := "/api/categories/:id",
      Handlers := adminCategories ++ [Handler.Controller "DeleteCategory"] },
    { Method := "PUT", Path := "/api/categories/:id/status",
      Handlers := adminCategories ++ [Handler.Controller "UpdateCategoryStatus"] } ]

/-- What the handler chains depend on without being fixed by the embedded
code: the token validation, the middleware `CORS` (which `SetupRoutes` installs
and which is defined outside the embedded packages), the request id, and the
controllers. -/
structure Env where
  ValidateToken : String → Except String JWTClaims
  CORS : HandlerFunc
  requestID : String
  controller : String → HandlerFunc

/-- The function behind a handler of a chain. The two handlers of `gin.Default()`
log and recover like `Logger` and `Recovery`. -/
def Handler.func (env : Env) : Handler → HandlerFunc
  | Handler.GinLogger => fun next c => next c
  | Handler.GinRecovery => fun next c => next c
  | Handler.Logger => OnlineMall.Logger
  | Handler.CORS => env.CORS
  | Handler.Recovery => OnlineMall.Recovery
  | Handler.RequestID => OnlineMall.RequestID env.requestID
  | Handler.JWTAuth => OnlineMall.JWTAuth env.ValidateToken
  | Handler.RequireAdmin => OnlineMall.RequireAdmin
  | Handler.Controller name => env.controller name

/-- Serving a request on a route. -/
def Serve (env : Env) (route : Route) (r : Request) : Context :=
  ServeHTTP (route.Handlers.map (Handler.func env)) r

/-- The admin-only routes: `POST`, `PUT` and `DELETE` under `/api/products` and
`/api/categories`. -/
def AdminOnly (route : Route) : Bool :=
  (route.Method = "POST" || route.Method = "PUT" || route.Method = "DELETE")
    && ("/api/products".toList.isPrefixOf route.Path.toList
        || "/api/categories".toList.isPrefixOf route.Path.toList)

/-- A controller for the examples: it answers 200 with its own name. -/
def namedController (name : String) : HandlerFunc :=
  fun _ c => c.JSON 200 (Body.map [("controller", Any.string name)])

/-- An environment for the examples: the sample token validator, a `CORS`
middleware that passes every request on, and controllers that answer with
their name. -/
def sampleEnv : Env :=
  { ValidateToken := sampleValidate, CORS := fun next c => next c,
    requestID := "1700000000000000000", controller := namedController }

/-! ## Response envelope (`utils/response.go`) -/

namespace utils

/-- Embedding of `utils.Success`. -/
def Success (c : Context) (data : Data) : Context :=
  c.JSON 200 (Body.response { Code := 200, Message := "success", Data := data })

/-- Embedding of `utils.Error`: the status passed to `c.JSON` is `http.StatusOK`. -/
def Error (c : Context) (code : Int) (message : String) : Context :=
  c.JSON 200 (Body.response { Code := code, Message := message, Data := Data.nil })

/-- Embedding of `utils.ParamError`. -/
def ParamError (c : Context) (message : String) : Context := Error c 400 message

/-- Embedding of `utils.BadRequest`. -/
def BadRequest (c : Context) (message : String) : Context := Error c 400 message

/-- Embedding of `utils.Unauthorized`. -/
def Unauthorized (c : Context) : Context := Error c 401 "未授权"

/-- Embedding of `utils.Forbidden`. -/
def Forbidden (c : Context) : Context := Error c 403 "禁止访问"

/-- Embedding of `utils.NotFound`. -/
def NotFound (c : Context) (message : String) : Context := Error c 404 message

/-- Embedding of `utils.ServerError`. -/
def ServerError (c : Context) : Context := Error c 500 "服务器内部错误"

/-- Embedding of `utils.TooManyRequests`. -/
def TooManyRequests (c : Context) : Context := Error c 429 "请求过于频繁，请稍后再试"

/-- Embedding of `utils.ValidateError`. -/
def ValidateError (c : Context) (errors : List String) : Context :=
  c.JSON 200 (Body.response
    { Code := 400, Message := "请求参数验证失败",
      Data := Data.object [("errors", Any.strings errors)] })

/-- Embedding of `utils.Created`. -/
def Created (c : Context) (data : Data) : Context :=
  c.JSON 201 (Body.response { Code := 201, Message := "created successfully", Data := data })

/-- Embedding of `utils.Updated`. -/
def Updated (c : Context) (data : Data) : Context :=
  c.JSON 200 (Body.response { Code := 200, Message := "updated successfully", Data := data })

/-- Embedding of `utils.Deleted`. -/
def Deleted (c : Context) : Context :=
  c.JSON 200 (Body.response { Code := 200, Message := "deleted successfully", Data := Data.nil })

end utils

/-- The response that a helper has just written: the last call of `c.JSON`. -/
def Context.lastWritten (c : Context) : Option OnlineMall.Written := c.Written.getLast?

/-- What a claim about a written response looks at: the HTTP status, the field
`code` of the body and the keys of the body. -/
def Written.summary (w : Written) : Nat × Option Any × List String :=
  (w.Status, w.Body.code, w.Body.keys)

/-- A context just after the reset, for the examples. -/
def freshContext : Context := Context.new (mkRequest "GET" "/api/products" "")

/-! ## Token service (`utils/jwt.go`)

The functions of `utils/jwt.go` are embedded over a symbolic model of the
library `github.com/golang-jwt/jwt/v5`: the compact serialisation and the
HMAC computation are not modelled. A token string is identified with what
the parser of the library recovers from it, and a signature verifies exactly
under the key that made it. -/

/-- Embedding of `config.JWTConfig`. -/
structure JWTConfig where
  Secret : String
  ExpireHours : Int
  Issuer : String
deriving DecidableEq, Repr

/-- The errors of `jwt.ParseWithClaims`. -/
inductive JwtError where
  /-- Error `jwt.ErrTokenMalformed`. -/
  | malformed
  /-- Error `jwt.ErrTokenUnverifiable`: the key function returned an error. -/
  | unverifiable (reason : String)
  /-- Error `jwt.ErrTokenSignatureInvalid`. -/
  | signatureInvalid
  /-- Error `jwt.ErrTokenInvalidClaims`, joined with `jwt.ErrTokenExpired` when `expired`
  and with `jwt.ErrTokenNotValidYet` when `notValidYet`. -/
  | invalidClaims (expired notValidYet : Bool)
deriving DecidableEq, Repr

/-- The errors of the functions of `utils/jwt.go`. The source formats the cause
into the text of a new error with `%v`. -/
inductive TokenError where
  /-- Error `fmt.Errorf("failed to parse token: %v", err)`. -/
  | parseFailed (cause : JwtError)
  /-- Error `errors.New("invalid token")`. -/
  | invalidToken
  /-- Error `fmt.Errorf("failed to generate token: %v", err)`. -/
  | generateFailed
deriving DecidableEq, Repr

/-- Embedding of `jwt.Token`, as far as `ParseToken` reads it. -/
structure Token where
  Method : SigningMethod
  Claims : JWTClaims
  Valid : Bool
deriving DecidableEq, Repr

namespace jwt

/-- Model of `jwt.NewNumericDate`: the instant truncated to a whole second
(`t.Truncate(jwt.TimePrecision)`). -/
def NewNumericDate (t : Time) : Time := t - t % 1000000000

/-- Model of `jwt.NewWithClaims(method, claims)` followed by `SignedString(key)`
for an HMAC method and a key of type `[]byte`, which never fails. -/
def SignedString (method : SigningMethod) (claims : JWTClaims) (key : String) :
    Except String TokenString :=
  .ok (TokenString.signed method claims key)

/-- Model of the validation of registered claims by the library at the instant
`now`, without leeway: the token is expired unless `now` is before `exp`, and
not yet valid when `now` is before `nbf`; `iat` is not checked. -/
def validateClaims (claims : JWTClaims) (now : Time) : Except JwtError Unit :=
  let expired :=
    match claims.Registered.ExpiresAt with
    | some exp => !(now.Before exp)
    | none => false
  let notValidYet :=
    match claims.Registered.NotBefore with
    | some nbf => now.Before nbf
    | none => false
  if expired || notValidYet then .error (JwtError.invalidClaims expired notValidYet)
  else .ok ()

/-- Model of `jwt.ParseWithClaims(tokenString, &JWTClaims{}, keyFunc)` at the
instant `now`: the token is decoded, the key function is asked for the key, the
signature is verified under that key, and the claims are validated. -/
def ParseWithClaims (tokenString : TokenString)
    (keyFunc : SigningMethod → Except String String) (now : Time) : Except JwtError Token :=
  match tokenString with
  | TokenString.malformed _ => .error JwtError.malformed
  | TokenString.signed method claims signingKey =>
    match keyFunc method with
    | .error reason => .error (JwtError.unverifiable reason)
    | .ok key =>
      if method.isHMAC && key = signingKey then
        match validateClaims claims now with
        | .error err => .error err
        | .ok _ => .ok { Method := method, Claims := claims, Valid := true }
      else .error JwtError.signatureInvalid

end jwt

/-- The number of nanoseconds in an hour: `time.Hour`. -/
def hour : Int := 3600000000000

namespace utils

/-- Embedding of `utils.GenerateToken`. `now` and `issuedNow` are the two
readings of the clock, for the expiry and for the issue date. -/
def GenerateToken (cfg : JWTConfig) (now issuedNow : Time)
    (userID : Nat) (username role : String) : Except TokenError TokenString :=
  let expireTime := now + wrapInt64 (wrapInt64 cfg.ExpireHours * hour)
  let claims : JWTClaims :=
    { UserID := userID, Username := username, Role := role,
      Registered :=
        { ExpiresAt := some (jwt.NewNumericDate expireTime),
          IssuedAt := some (jwt.NewNumericDate issuedNow),
          Issuer := cfg.Issuer, Subject := username,
          Audience := [], NotBefore := none, ID := "" } }
  match jwt.SignedString SigningMethod.HS256 claims cfg.Secret with
  | .error _ => .error TokenError.generateFailed
  | .ok tokenString => .ok tokenString

/-- Embedding of `utils.ParseToken`; `now` is the clock reading of the library. -/
def ParseToken (cfg : JWTConfig) (now : Time) (tokenString : TokenString) :
    Except TokenError JWTClaims :=
  match jwt.ParseWithClaims tokenString
      (fun method =>
        if method.isHMAC then .ok cfg.Secret else .error "unexpected signing method")
      now with
  | .error err => .error (TokenError.parseFailed err)
  | .ok token => if token.Valid then .ok token.Claims else .error TokenError.invalidToken

/-- Embedding of `utils.RefreshToken`; `now` is the clock reading while the old
token is parsed, `refreshNow` and `issuedNow` are those of `GenerateToken`. -/
def RefreshToken (cfg : JWTConfig) (now refreshNow issuedNow : Time)
    (tokenString : TokenString) : Except TokenError TokenString :=
  match ParseToken cfg now tokenString with
  | .error err => .error err
  | .ok claims => GenerateToken cfg refreshNow issuedNow claims.UserID claims.Username claims.Role

/-- Embedding of `utils.ValidateToken`. -/
def ValidateToken (cfg : JWTConfig) (now : Time) (tokenString : TokenString) :
    Except TokenError JWTClaims :=
  ParseToken cfg now tokenString

end utils

/-- The default configuration of the repository: a 24 hour TTL. -/
def defaultJWT : JWTConfig :=
  { Secret := "online-mall-jwt-secret-key-2024", ExpireHours := 24, Issuer := "online-mall" }

/-- The claims that `GenerateToken` issues at noon of 2024-06-01 for the user 7
`alice` of role `user` under the default configuration. -/
def aliceClaims : JWTClaims :=
  { UserID := 7, Username := "alice", Role := "user",
    Registered :=
      { ExpiresAt := some (Date 2024 6 2 12 0 0 0), IssuedAt := some noon,
        Issuer := "online-mall", Subject := "alice", Audience := [], NotBefore := none,
        ID := "" } }

/-- The token with these claims, signed under the default secret. -/
def aliceToken : TokenString :=
  TokenString.signed SigningMethod.HS256 aliceClaims "online-mall-jwt-secret-key-2024"

/-! ## Addresses (`models/address.go`) -/

/-- Embedding of `models.Address` (the timestamps of `BaseModel` are omitted). -/
structure Address where
  ID : Nat
  UserID : Nat
  Name : String
  Phone : String
  Province : String
  City : String
  District : String
  Detail : String
  Postcode : String
  Tag : String
  IsDefault : Bool
deriving DecidableEq, Repr

/-- The `addresses` table: its rows that are not deleted, in insertion order,
and the value that the auto-increment primary key takes next. -/
structure AddressTable where
  rows : List Address
  autoIncrement : Nat
deriving DecidableEq, Repr

/-- Embedding of `Address.BeforeCreate`: for an address that is a default
address, the statement
`tx.Model(&Address{}).Where("user_id = ?", a.UserID).Update("is_default", false)`
clears the flag of every stored address of the user; the hook returns `nil`. -/
def Address.BeforeCreate (a : Address) (t : AddressTable) : AddressTable :=
  let clear : Address → Address :=
    fun r => if r.UserID = a.UserID then { r with IsDefault := false } else r
  if a.IsDefault then { t with rows := t.rows.map clear }
  else t

/-- The error of the creation of an address. -/
inductive AddressError where
  /-- A duplicate primary key reported by the database. -/
  | duplicateKey
deriving DecidableEq, Repr

/-- The creation of an address (`DB.Create`): the hook `BeforeCreate` runs, then
the row is inserted, with the next auto-increment value as `ID` when the `ID`
of the record is zero. Hook and insertion are one transaction, so that a
duplicate primary key leaves the table as it was. -/
def Address.Create (a : Address) (t : AddressTable) :
    Except AddressError (AddressTable × Address) :=
  let t1 := a.BeforeCreate t
  if a.ID = 0 then
    let stored := { a with ID := t1.autoIncrement }
    .ok ({ rows := t1.rows ++ [stored], autoIncrement := t1.autoIncrement + 1 }, stored)
  else if t1.rows.any (fun r => decide (r.ID = a.ID)) then
    .error AddressError.duplicateKey
  else
    .ok ({ rows := t1.rows ++ [a], autoIncrement := max t1.autoIncrement (a.ID + 1) }, a)

/-- The default addresses of a user. -/
def defaultsOf (rows : List Address) (userID : Nat) : List Address :=
  rows.filter (fun r => decide (r.UserID = userID) && r.IsDefault)

/-- The addresses of a user. -/
def addressesOf (rows : List Address) (userID : Nat) : List Address :=
  rows.filter (fun r => decide (r.UserID = userID))

/-- An address record of the given id, user and default flag. -/
def mkAddress (id userID : Nat) (isDefault : Bool) : Address :=
  { ID := id, UserID := userID, Name := "", Phone := "", Province := "", City := "",
    District := "", Detail := "", Postcode := "", Tag := "", IsDefault := isDefault }

/-- A table in which user 1 has the default address 1 and the address 2, and
user 2 has the default address 3. -/
def exampleAddresses : AddressTable :=
  { rows := [mkAddress 1 1 true, mkAddress 2 1 false, mkAddress 3 2 true],
    autoIncrement := 4 }

/-! ## Product stock (`service/product_service.go`,
`repository/product_repository.go`) -/

/-- The errors of `ProductService.UpdateStock`. -/
inductive StockError where
  /-- The error `errors.New("商品不存在")`: the product does not exist. -/
  | productNotFound
  /-- The error `errors.New("库存不足")`: the stock is insufficient. -/
  | insufficientStock
  /-- The error of the database when `stock + ?` leaves the range of the column. -/
  | outOfRange
deriving DecidableEq, Repr

/-- Embedding of `ProductRepository.GetByID` on the rows of the `products` table
that are not deleted. -/
def ProductRepository.GetByID (products : List Product) (id : Nat) : Option Product :=
  products.find? (fun p => decide (p.ID = id))

/-- Embedding of `ProductRepository.UpdateStock`: the statement
`UPDATE products SET stock = stock + ? WHERE id = ?`. The column `stock` is a
signed 64 bit integer; the database evaluates the sum exactly and refuses the
statement when the sum of a matching row is out of the range of the column. A
statement that matches no row is not an error. -/
def ProductRepository.UpdateStock (products : List Product) (productID : Nat)
    (quantity : Int) : List Product × Option StockError :=
  let inRange : Int → Bool := fun v => decide (-(2 ^ 63) ≤ v) && decide (v < 2 ^ 63)
  if products.all (fun p => decide (p.ID ≠ productID) || inRange (p.Stock + quantity)) then
    (products.map (fun p =>
      if p.ID = productID then { p with Stock := p.Stock + quantity } else p), none)
  else (products, some StockError.outOfRange)

/-- Embedding of `ProductService.UpdateStock`. `quantity` is a Go `int`, so the
negation `-quantity` is computed in 64 bit two's complement. -/
def ProductService.UpdateStock (products : List Product) (productID : Nat)
    (quantity : Int) : List Product × Option StockError :=
  match ProductRepository.GetByID products productID with
  | none => (products, some StockError.productNotFound)
  | some product =>
    if quantity < 0 ∧ product.Stock < wrapInt64 (-quantity) then
      (products, some StockError.insufficientStock)
    else ProductRepository.UpdateStock products productID quantity

/-- The smallest value of a Go `int`. -/
def minInt : Int := -(2 ^ 63)

/-- A product of the given id with the given stock. -/
def productWithStock (id : Nat) (stock : Int) : Product :=
  { mkProduct id 1 with Stock := stock }

/-! ## Rate limiter (`api/middleware/validator.go`) -/

/-- The map `requests` of type `map[string]int` that the handler returned by
`RateLimiter` closes over: the count of every client address, zero for an
address that is not a key. -/
abbrev Requests := String → Int

/-- The statement `requests[ip]++` on a Go `int`. -/
def Requests.incr (requests : Requests) (ip : String) : Requests :=
  fun k => if k = ip then wrapInt64 (requests k + 1) else requests k

/-- The map `make(map[string]int)` that `RateLimiter` creates. -/
def Requests.empty : Requests := fun _ => 0

/-- Embedding of the handler returned by `RateLimiter`, with the map it closes
over passed in and out. `ClientIP` stands for `c.ClientIP()`. The handler reads
no clock. -/
def RateLimiter (ClientIP : Context → String) (requests : Requests)
    (next : Context → Context) (c : Context) : Requests × Context :=
  let ip := ClientIP c
  let requests := requests.incr ip
  if requests ip > 100 then
    (requests, (c.JSON 429 (rejection 429 "请求过于频繁，请稍后再试")).Abort)
  else (requests, next c)

/-- A request together with the instant at which it arrives. -/
structure Arrival where
  At : Time
  Request : Request
deriving DecidableEq, Repr

/-- The requests of a list served one after the other by one handler of
`RateLimiter`: the map after the last request and the context that each request
leaves. -/
def RateLimiter.serve (ClientIP : Context → String) (next : Context → Context) :
    Requests → List Arrival → Requests × List Context
  | requests, [] => (requests, [])
  | requests, a :: rest =>
    let r := RateLimiter ClientIP requests next (Context.new a.Request)
    let rs := RateLimiter.serve ClientIP next r.1 rest
    (rs.1, r.2 :: rs.2)

/-- The status of the response of a served request, `none` when the chain wrote
no response. -/
def Context.status (c : Context) : Option Nat := c.lastWritten.map (fun w => w.Status)

/-- The client address of the examples: the header `X-Forwarded-For`. -/
def headerClientIP (c : Context) : String := c.GetHeader "X-Forwarded-For"

/-- A request of the client `ip` arriving at the instant `t`. -/
def arrivalFrom (ip : String) (t : Time) : Arrival :=
  { At := t,
    Request := { Method := "GET", Path := "/api/products", Header := [("X-Forwarded-For", ip)] } }

/-- The number of arrivals of a list that come from the client `ip` and lie in
the minute that ends at the instant `t`. -/
def arrivalsWithinMinute (ClientIP : Context → String) (arrivals : List Arrival)
    (ip : String) (t : Time) : Nat :=
  (arrivals.filter (fun a =>
    decide (ClientIP (Context.new a.Request) = ip) && decide (t - 60000000000 < a.At)
      && decide (a.At ≤ t))).length

/-- A final handler for the examples: it answers 200. -/
def answerOK (c : Context) : Context := c.JSON 200 (Body.map [("status", Any.string "ok")])

/-- The trace of the example: 101 requests of the client `10.0.0.1` at noon, then,
two hours later, one more request of that client and one request of the client
`10.0.0.2`. -/
def burstTrace : List Arrival :=
  List.replicate 101 (arrivalFrom "10.0.0.1" noon)
    ++ [arrivalFrom "10.0.0.1" (noon + 2 * hour), arrivalFrom "10.0.0.2" (noon + 2 * hour)]

/-! ## Phone validation (`api/middleware/validator.go`) -/

/-- The slice `prefixes` of `validateChinesePhone`. -/
def carrierPrefixes : List String :=
  ["130", "131", "132", "133", "134", "135", "136", "137", "138", "139",
   "145", "147", "149",
   "150", "151", "152", "153", "155", "156", "157", "158", "159",
   "165", "166", "167",
   "170", "171", "172", "173", "174", "175", "176", "177", "178",
   "180", "181", "182", "183", "184", "185", "186", "187", "188", "189",
   "191", "198", "199"]

/-- Model of `strings.HasPrefix`. -/
def HasPrefix (s pre : String) : Bool := pre.toList.isPrefixOf s.toList

/-- Embedding of `validateChinesePhone`. `len(phone)` is the number of bytes of
the text; `phone[0]` is its first byte, which is the byte of `1` exactly when the
first character is `1`. -/
def validateChinesePhone (phone : String) : Bool :=
  if phone.utf8ByteSize ≠ 11 then false
  else if phone.toList.head? ≠ some '1' then false
  else carrierPrefixes.any (fun pre => HasPrefix phone pre)

/-- The text consists of decimal digits only. -/
def allDigits (s : String) : Bool := s.toList.all Char.isDigit

/-- The query `page=92233720368547760&page_size=100`. -/
def hugePageQuery : Query := fun key =>
  if key = "page" then some "92233720368547760"
  else if key = "page_size" then some "100"
  else none

/-! ## Category tree: what the result is -/

/-- The sibling group of the parent id `p` in the words of the specification:
the sub-list of the categories whose `ParentID` is `p`, in their original
relative order. -/
def siblingsOf (categories : List Category) (p : Nat) : List Category :=
  categories.filter (fun c => decide (c.ParentID = p))

/-- The order `sort ASC, id ASC` of the query of `GetTree`. -/
def sortIDLe (a b : Category) : Prop :=
  a.Sort_ < b.Sort_ ∨ (a.Sort_ = b.Sort_ ∧ a.ID ≤ b.ID)

instance : DecidableRel sortIDLe := fun a b => by
  unfold sortIDLe
  exact inferInstance

/-- Embedding of `CategoryRepository.GetTree`: the rows of the table ordered by
`sort ASC, id ASC` are passed to `buildTree` with the parent id 0. The first
argument bounds the recursion depth of `buildTree`. -/
def CategoryRepository.GetTree (fuel : Nat) (t : CategoryTable) : Option (List Category) :=
  buildTree fuel (t.rows.insertionSort sortIDLe) 0

/-- A list in which the categories 2 and 3, unreachable from the root, are each
the parent of the other. -/
def cyclicCategories : List Category :=
  [mkCategory 1 0, mkCategory 2 3, mkCategory 3 2]

/-! ## User accounts (`models/user.go`, `api/controller/auth.go`) -/

/-- Embedding of `models.User` (the deletion mark of `BaseModel` is omitted). -/
structure User where
  ID : Nat
  CreatedAt : Time
  UpdatedAt : Time
  Username : String
  Password : String
  Phone : String
  Email : String
  Nickname : String
  Avatar : String
  Status : Int
  LastLoginAt : Option Time
deriving DecidableEq, Repr

/-- The `users` table: its rows that are not deleted, in the order of their
ids, and the value that the auto-increment primary key takes next. -/
structure UserTable where
  rows : List User
  autoIncrement : Nat
deriving DecidableEq, Repr

/-- The error values that the queries of the controllers return or are
compared with. -/
inductive DBError where
  /-- The value `gorm.ErrRecordNotFound`, which `First` returns when no row matches. -/
  | gormRecordNotFound
  /-- The value `models.ErrRecordNotFound` of `models/errors.go`, a value of its own
  made by `errors.New`. -/
  | modelsRecordNotFound
  /-- A duplicate entry for a unique index. -/
  | duplicateEntry
  /-- The error returned by a hook. -/
  | hookFailed
deriving DecidableEq, Repr

/-- The variable `models.ErrRecordNotFound`. -/
def models.ErrRecordNotFound : DBError := DBError.modelsRecordNotFound

namespace UserTable

/-- The query `First` with a condition: the matching row of the least id, or
`gorm.ErrRecordNotFound`. Texts are compared by equality. -/
def First (t : UserTable) (cond : User → Bool) : Except DBError User :=
  match t.rows.find? cond with
  | some user => .ok user
  | none => .error DBError.gormRecordNotFound

/-- The query `Count` with a condition. -/
def Count (t : UserTable) (cond : User → Bool) : Int :=
  ((t.rows.filter cond).length : Int)

/-- An update of the columns of the row with the given id; no row may match. -/
def Update (t : UserTable) (id : Nat) (set : User → User) : UserTable :=
  let apply : User → User := fun u => if u.ID = id then set u else u
  { t with rows := t.rows.map apply }

end UserTable

/-- Embedding of `User.BeforeCreate`: a password that is not empty is replaced
by its hash; `GenerateFromPassword` stands for `bcrypt.GenerateFromPassword` with
the default cost, `none` for its error. -/
def User.BeforeCreate (GenerateFromPassword : String → Option String) (u : User) :
    Option User :=
  if u.Password ≠ "" then
    match GenerateFromPassword u.Password with
    | none => none
    | some hashedPassword => some { u with Password := hashedPassword }
  else some u

/-- The creation of a user (`DB.Create`) at the instant `now`: the hook
`BeforeCreate` runs, then the row is inserted with the next auto-increment
value as `ID`, unless a stored row has the same `username`, `phone` or `email`
(the three unique indexes of the table). -/
def UserTable.Create (GenerateFromPassword : String → Option String) (now : Time)
    (t : UserTable) (user : User) : Except DBError (UserTable × User) :=
  match user.BeforeCreate GenerateFromPassword with
  | none => .error DBError.hookFailed
  | some u =>
    if t.rows.any (fun r =>
        decide (r.Username = u.Username) || decide (r.Phone = u.Phone)
          || decide (r.Email = u.Email)) then
      .error DBError.duplicateEntry
    else
      let stored := { u with ID := t.autoIncrement, CreatedAt := now, UpdatedAt := now }
      .ok ({ rows := t.rows ++ [stored], autoIncrement := t.autoIncrement + 1 }, stored)

/-- The type assertion `v.(uint)` with the `ok` result discarded. -/
def Any.asUint : Any → Nat
  | Any.uint n => n
  | _ => 0

/-- Model of `gin.Context.GetUint`: the value of the key when the key is set to a
value of the Go type `uint`, and `0` otherwise, in particular when the value has
another type such as `uint64`. -/
def Context.GetUint (c : Context) (key : String) : Nat :=
  match c.Get key with
  | some val => if val ≠ Any.nil then val.asUint else 0
  | none => 0

/-- Model of `strings.TrimPrefix`. -/
def TrimPrefix (s pre : String) : String :=
  if HasPrefix s pre then String.mk (s.toList.drop pre.length) else s

/-- The body of a login request (`LoginRequest`). -/
structure LoginRequest where
  Username : String
  Password : String
deriving DecidableEq, Repr

/-- The body of a registration request (`RegisterRequest`). -/
structure RegisterRequest where
  Username : String
  Password : String
  Phone : String
  Email : String
  Nickname : String
deriving DecidableEq, Repr

/-- The body of a profile update (the anonymous struct of `UpdateUserInfo`). -/
structure ProfileRequest where
  Nickname : String
  Phone : String
  Email : String
  Avatar : String
deriving DecidableEq, Repr

/-- The body of a password update (the anonymous struct of `UpdatePassword`). -/
structure PasswordRequest where
  OldPassword : String
  NewPassword : String
deriving DecidableEq, Repr

/-- What the controllers of `auth.go` use from outside the embedded code: the
JWT configuration, the successive readings of the clock during a request, the
decoding of the text of a token by the library, `c.ShouldBindJSON` for each body
type (`none` for a body that does not bind or validate), and the two functions
of `bcrypt`. -/
structure AuthEnv where
  cfg : JWTConfig
  clock : Nat → Time
  decode : String → TokenString
  bindLogin : Context → Option LoginRequest
  bindRegister : Context → Option RegisterRequest
  bindProfile : Context → Option ProfileRequest
  bindPassword : Context → Option PasswordRequest
  GenerateFromPassword : String → Option String
  CompareHashAndPassword : String → String → Bool

namespace controller

/-- The map `userInfo` of `Login` and `Register`. -/
def sessionUserInfo (user : User) : H :=
  [("id", Any.uint64 user.ID), ("username", Any.string user.Username),
   ("nickname", Any.string user.Nickname), ("phone", Any.string user.Phone),
   ("email", Any.string user.Email), ("avatar", Any.string user.Avatar),
   ("role", Any.string "user")]

/-- The value of an optional instant (`*time.Time`). -/
def optionalTime : Option Time → Any
  | some t => Any.time t
  | none => Any.nil

/-- The map `userInfo` of `GetUserInfo` and `UpdateUserInfo`; its last key is
`created_at` for the former and `updated_at` for the latter. -/
def profileUserInfo (user : User) (lastKey : String) (lastValue : Time) : H :=
  [("id", Any.uint64 user.ID), ("username", Any.string user.Username),
   ("nickname", Any.string user.Nickname), ("phone", Any.string user.Phone),
   ("email", Any.string user.Email), ("avatar", Any.string user.Avatar),
   ("status", Any.int user.Status), ("last_login_at", optionalTime user.LastLoginAt),
   (lastKey, Any.time lastValue)]

/-- The data `map[string]interface{}{"token": token, "user": userInfo}`. -/
def sessionData (token : TokenString) (user : User) : Data :=
  Data.record [("token", Value.scalar (Any.token token)),
               ("user", Value.map (sessionUserInfo user))]

/-- Embedding of `controller.Login`: the table of users after the request and
the context that the handler leaves. -/
def Login (env : AuthEnv) (db : UserTable) (c : Context) : UserTable × Context :=
  match env.bindLogin c with
  | none => (db, utils.ParamError c "请求参数格式错误")
  | some req =>
    match db.First (fun u => decide (u.Username = req.Username)
        || decide (u.Phone = req.Username) || decide (u.Email = req.Username)) with
    | .error err =>
      if err = models.ErrRecordNotFound then (db, utils.ParamError c "用户名或密码错误")
      else (db, utils.ServerError c)
    | .ok user =>
      if user.Status ≠ 1 then (db, utils.ParamError c "账号已被禁用")
      else if !env.CompareHashAndPassword user.Password req.Password then
        (db, utils.ParamError c "用户名或密码错误")
      else
        match utils.GenerateToken env.cfg (env.clock 0) (env.clock 1)
            user.ID user.Username "user" with
        | .error _ => (db, utils.ServerError c)
        | .ok token =>
          let now := env.clock 2
          let updated := env.clock 3
          let db1 := db.Update user.ID
            (fun u => { u with LastLoginAt := some now, UpdatedAt := updated })
          (db1, utils.Success c (sessionData token user))

/-- Embedding of `controller.Register`. -/
def Register (env : AuthEnv) (db : UserTable) (c : Context) : UserTable × Context :=
  match env.bindRegister c with
  | none => (db, utils.ParamError c "请求参数格式错误")
  | some req =>
    if db.Count (fun u => decide (u.Username = req.Username)) > 0 then
      (db, utils.ParamError c "用户名已存在")
    else if req.Phone ≠ "" ∧ db.Count (fun u => decide (u.Phone = req.Phone)) > 0 then
      (db, utils.ParamError c "手机号已被注册")
    else if req.Email ≠ "" ∧ db.Count (fun u => decide (u.Email = req.Email)) > 0 then
      (db, utils.ParamError c "邮箱已被注册")
    else
      let user : User :=
        { ID := 0, CreatedAt := Time.zero, UpdatedAt := Time.zero,
          Username := req.Username, Password := req.Password, Phone := req.Phone,
          Email := req.Email, Nickname := req.Nickname, Avatar := "", Status := 1,
          LastLoginAt := none }
      match db.Create env.GenerateFromPassword (env.clock 0) user with
      | .error _ => (db, utils.ServerError c)
      | .ok (db1, user) =>
        match utils.GenerateToken env.cfg (env.clock 1) (env.clock 2)
            user.ID user.Username "user" with
        | .error _ => (db1, utils.ServerError c)
        | .ok token => (db1, utils.Created c (sessionData token user))

/-- Embedding of `controller.RefreshToken`. The text after the prefix `Bearer `
is what `utils.ParseToken` receives; `env.decode` is the token that the library
reads from it. -/
def RefreshToken (env : AuthEnv) (db : UserTable) (c : Context) : UserTable × Context :=
  let tokenString := c.GetHeader "Authorization"
  if tokenString = "" then (db, utils.Unauthorized c)
  else
    match utils.ParseToken env.cfg (env.clock 0)
        (env.decode (TrimPrefix tokenString "Bearer ")) with
    | .error _ => (db, utils.Unauthorized c)
    | .ok claims =>
      match utils.GenerateToken env.cfg (env.clock 1) (env.clock 2)
          claims.UserID claims.Username claims.Role with
      | .error _ => (db, utils.ServerError c)
      | .ok newToken =>
        (db, utils.Success c (Data.record [("token", Value.scalar (Any.token newToken))]))

/-- Embedding of `controller.GetUserInfo`. -/
def GetUserInfo (_env : AuthEnv) (db : UserTable) (c : Context) : UserTable × Context :=
  let userID := c.GetUint "user_id"
  if userID = 0 then (db, utils.Unauthorized c)
  else
    match db.First (fun u => decide (u.ID = userID)) with
    | .error err =>
      if err = models.ErrRecordNotFound then (db, utils.NotFound c "用户不存在")
      else (db, utils.ServerError c)
    | .ok user =>
      (db, utils.Success c (Data.object (profileUserInfo user "created_at" user.CreatedAt)))

/-- Embedding of `controller.UpdateUserInfo`. -/
def UpdateUserInfo (env : AuthEnv) (db : UserTable) (c : Context) : UserTable × Context :=
  let userID := c.GetUint "user_id"
  if userID = 0 then (db, utils.Unauthorized c)
  else
    match env.bindProfile c with
    | none => (db, utils.ParamError c "请求参数格式错误")
    | some req =>
      if req.Phone ≠ "" ∧ db.Count (fun u =>
          decide (u.Phone = req.Phone) && decide (u.ID ≠ userID)) > 0 then
        (db, utils.ParamError c "手机号已被使用")
      else if req.Email ≠ "" ∧ db.Count (fun u =>
          decide (u.Email = req.Email) && decide (u.ID ≠ userID)) > 0 then
        (db, utils.ParamError c "邮箱已被使用")
      else
        let updated := env.clock 0
        let set : User → User := fun u =>
          { u with
            Nickname := if req.Nickname ≠ "" then req.Nickname else u.Nickname,
            Phone := if req.Phone ≠ "" then req.Phone else u.Phone,
            Email := if req.Email ≠ "" then req.Email else u.Email,
            Avatar := if req.Avatar ≠ "" then req.Avatar else u.Avatar,
            UpdatedAt := updated }
        let db1 :=
          if req.Nickname ≠ "" ∨ req.Phone ≠ "" ∨ req.Email ≠ "" ∨ req.Avatar ≠ "" then
            db.Update userID set
          else db
        match db1.First (fun u => decide (u.ID = userID)) with
        | .error _ => (db1, utils.ServerError c)
        | .ok user =>
          (db1, utils.Updated c
            (Data.object (profileUserInfo user "updated_at" user.UpdatedAt)))

/-- Embedding of `controller.UpdatePassword`. The hook `BeforeUpdate` of the
user changes the record in memory only and is left out. -/
def UpdatePassword (env : AuthEnv) (db : UserTable) (c : Context) : UserTable × Context :=
  let userID := c.GetUint "user_id"
  if userID = 0 then (db, utils.Unauthorized c)
  else
    match env.bindPassword c with
    | none => (db, utils.ParamError c "请求参数格式错误")
    | some req =>
      match db.First (fun u => decide (u.ID = userID)) with
      | .error _ => (db, utils.ServerError c)
      | .ok user =>
        if !env.CompareHashAndPassword user.Password req.OldPassword then
          (db, utils.ParamError c "旧密码错误")
        else
          match env.GenerateFromPassword req.NewPassword with
          | none => (db, utils.ServerError c)
          | some hashedPassword =>
            let updated := env.clock 0
            let db1 := db.Update user.ID
              (fun u => { u with Password := hashedPassword, UpdatedAt := updated })
            (db1, utils.Success c (Data.object [("message", Any.string "密码更新成功")]))

end controller

/-- The token carried by the response that a handler has just written: the
field `token` of the data of the envelope. -/
def Context.issuedToken (c : Context) : Option TokenString :=
  match c.lastWritten with
  | none => none
  | some w =>
    match w.Body with
    | Body.map _ => none
    | Body.response r =>
      match r.Data with
      | Data.record fields =>
        match fields.lookup "token" with
        | some (Value.scalar (Any.token t)) => some t
        | _ => none
      | _ => none

/-- The text of an error of `utils.ValidateToken` (`err.Error()`). -/
def TokenError.text : TokenError → String
  | TokenError.parseFailed JwtError.malformed => "failed to parse token: token is malformed"
  | TokenError.parseFailed (JwtError.unverifiable reason) =>
    "failed to parse token: token is unverifiable: " ++ reason
  | TokenError.parseFailed JwtError.signatureInvalid =>
    "failed to parse token: token signature is invalid"
  | TokenError.parseFailed (JwtError.invalidClaims _ _) =>
    "failed to parse token: token has invalid claims"
  | TokenError.invalidToken => "invalid token"
  | TokenError.generateFailed => "failed to generate token"

/-- The environment of the handler chains in which the token validation is
`utils.ValidateToken` on the decoded text and the controllers of `auth.go` run on
the table `db`; the other controllers answer with their name. -/
def accountEnv (env : AuthEnv) (db : UserTable) : Env :=
  { ValidateToken := fun tokenString =>
      match utils.ValidateToken env.cfg (env.clock 0) (env.decode tokenString) with
      | .ok claims => .ok claims
      | .error err => .error err.text,
    CORS := fun next c => next c,
    requestID := "1700000000000000000",
    controller := fun name _ c =>
      if name = "Login" then (controller.Login env db c).2
      else if name = "Register" then (controller.Register env db c).2
      else if name = "RefreshToken" then (controller.RefreshToken env db c).2
      else if name = "GetUserInfo" then (controller.GetUserInfo env db c).2
      else if name = "UpdateUserInfo" then (controller.UpdateUserInfo env db c).2
      else if name = "UpdatePassword" then (controller.UpdatePassword env db c).2
      else namedController name (fun c1 => c1) c }

/-- The user 7 `alice`, registered at noon of 2024-06-01, whose password is
`wonderland`. -/
def alice : User :=
  { ID := 7, CreatedAt := noon, UpdatedAt := noon, Username := "alice",
    Password := "hash:wonderland", Phone := "+8613800000000", Email := "alice@example.com",
    Nickname := "Alice", Avatar := "", Status := 1, LastLoginAt := none }

/-- A table of users that holds `alice`. -/
def sampleUsers : UserTable := { rows := [alice], autoIncrement := 8 }

/-- An environment for the examples: the default configuration, a clock that
stands at noon of 2024-06-01, a decoder that reads the text `alice-token` as the
token of `alice` and any other text as malformed, request bodies that carry the
credentials of `alice`, and a hash that prefixes the password. -/
def sampleAuthEnv : AuthEnv :=
  { cfg := defaultJWT,
    clock := fun _ => noon,
    decode := fun s => if s = "alice-token" then aliceToken else TokenString.malformed s,
    bindLogin := fun _ => some { Username := "alice", Password := "wonderland" },
    bindRegister := fun _ =>
      some { Username := "bob", Password := "builder1", Phone := "+8613900000000",
             Email := "bob@example.com", Nickname := "Bob" },
    bindProfile := fun _ => some { Nickname := "Al", Phone := "", Email := "", Avatar := "" },
    bindPassword := fun _ => some { OldPassword := "wonderland", NewPassword := "lookingglass" },
    GenerateFromPassword := fun password => some ("hash:" ++ password),
    CompareHashAndPassword := fun hashed password => hashed = "hash:" ++ password }

/-- The routes of the group `/api/users`. -/
def profileRoutes : List Route :=
  SetupRoutes.filter (fun r => HasPrefix r.Path "/api/users/")

/-- The token that a request presents to `controller.RefreshToken`: what the
library reads from the text of the header `Authorization` after the prefix
`Bearer `. -/
def presentedToken (decode : String → TokenString) (c : Context) : TokenString :=
  decode (TrimPrefix (c.GetHeader "Authorization") "Bearer ")

/-- The tokens obtainable through the HTTP API under the configuration `cfg`:
the tokens carried by a response of `Login`, of `Register`, or of `RefreshToken`,
where the token presented to `RefreshToken` is either a token obtained before or
a token that its sender made without the secret of the server, so that it is
not signed under that secret. The table of users, the request, the clock and
the request bodies are arbitrary at every step. -/
inductive Issued (cfg : JWTConfig) (decode : String → TokenString) : TokenString → Prop
  | login (env : AuthEnv) (db : UserTable) (c : Context) (t : TokenString) :
      env.cfg = cfg → env.decode = decode →
      (controller.Login env db c).2.issuedToken = some t → Issued cfg decode t
  | register (env : AuthEnv) (db : UserTable) (c : Context) (t : TokenString) :
      env.cfg = cfg → env.decode = decode →
      (controller.Register env db c).2.issuedToken = some t → Issued cfg decode t
  | refresh (env : AuthEnv) (db : UserTable) (c : Context) (t : TokenString) :
      env.cfg = cfg → env.decode = decode →
      Issued cfg decode (presentedToken decode c) →
      (controller.RefreshToken env db c).2.issuedToken = some t → Issued cfg decode t
  | refreshForged (env : AuthEnv) (db : UserTable) (c : Context) (t : TokenString) :
      env.cfg = cfg → env.decode = decode →
      (∀ method claims, presentedToken decode c ≠ TokenString.signed method claims cfg.Secret) →
      (controller.RefreshToken env db c).2.issuedToken = some t → Issued cfg decode t

/-- A login request (the body is what `sampleAuthEnv` binds). -/
def loginContext : Context := Context.new (mkRequest "POST" "/api/auth/login" "")

/-- A refresh request that presents the token of `alice`. -/
def refreshContext : Context :=
  Context.new (mkRequest "POST" "/api/auth/refresh-token" "Bearer alice-token")

/-! ## Coupon evaluator over exact arithmetic -/

/-- The arithmetic that `GetDiscountAmount` uses: the constants `0` and `1`,
subtraction, multiplication and three comparisons. -/
structure Arith (α : Type) where
  zero : α
  one : α
  sub : α → α → α
  mul : α → α → α
  lt : α → α → Bool
  le : α → α → Bool
  ge : α → α → Bool

/-- The arithmetic of `float64`. -/
def float64 : Arith F64 :=
  { zero := F64.zero, one := F64.one, sub := F64.sub, mul := F64.mul,
    lt := F64.lt, le := F64.le, ge := F64.ge }

/-- Exact arithmetic on rational numbers. -/
def exact : Arith ℚ :=
  { zero := 0, one := 1, sub := fun a b => a - b, mul := fun a b => a * b,
    lt := fun a b => decide (a < b), le := fun a b => decide (a ≤ b),
    ge := fun a b => decide (a ≥ b) }

/-- The body of `Coupon.GetDiscountAmount` over an arithmetic: `valid` is the
result of `c.CheckIsValid()`, `type`, `value` and `minAmount` are the fields of the
coupon. With the arithmetic `float64` this is `Coupon.GetDiscountAmount`; with the
arithmetic `exact` it is the same computation without rounding. -/
def GetDiscountAmountOver {α : Type} (A : Arith α) (valid : Bool) (type : Int)
    (value minAmount totalAmount : α) : α :=
  if !valid then A.zero
  else if A.lt totalAmount minAmount then A.zero
  else if type = 1 then value
  else if type = 2 then
    if A.ge value A.one || A.le value A.zero then A.zero
    else A.mul totalAmount (A.sub A.one value)
  else A.zero

/-! ## Product list (`api/controller/product.go`, `service/product_service.go`,
`repository/product_repository.go`) -/

/-- Model of `strconv.ParseInt(s, 10, 64)`: an optional sign followed by one or more
decimal digits whose value is in the range of `int64`; `none` for an error. -/
def ParseInt (s : String) : Option Int :=
  let cs := s.toList
  let signed : Bool × List Char :=
    match cs with
    | '-' :: r => (true, r)
    | '+' :: r => (false, r)
    | _ => (false, cs)
  let ds := signed.2
  if ds.isEmpty || !ds.all Char.isDigit then none
  else
    let n : Int := ds.foldl (fun a ch => a * 10 + ((ch.toNat : Int) - 48)) 0
    let v := if signed.1 then -n else n
    if v < -(2 ^ 63) ∨ 2 ^ 63 ≤ v then none else some v

/-- Model of `strconv.ParseUint(s, 10, 64)`; `none` for an error. -/
def ParseUint (s : String) : Option Nat :=
  let ds := s.toList
  if ds.isEmpty || !ds.all Char.isDigit then none
  else
    let n : Nat := ds.foldl (fun a ch => a * 10 + (ch.toNat - 48)) 0
    if 2 ^ 64 ≤ n then none else some n

/-- Model of `strconv.ParseBool`; `none` for an error. -/
def ParseBool (s : String) : Option Bool :=
  if s ∈ ["1", "t", "T", "TRUE", "true", "True"] then some true
  else if s ∈ ["0", "f", "F", "FALSE", "false", "False"] then some false
  else none

/-- How the form binding of `gin` sets a field of type `int`: a key that is
absent leaves the zero value, an empty text is read as `0`, and the text is
parsed by `strconv.ParseInt`. -/
def formInt (q : Query) (key : String) : Option Int :=
  match q key with
  | none => some 0
  | some v => ParseInt (if v = "" then "0" else v)

/-- The form binding of a field of type `uint64`. -/
def formUint (q : Query) (key : String) : Option Nat :=
  match q key with
  | none => some 0
  | some v => ParseUint (if v = "" then "0" else v)

/-- The form binding of a field of type `bool`. -/
def formBool (q : Query) (key : String) : Option Bool :=
  match q key with
  | none => some false
  | some v => ParseBool (if v = "" then "false" else v)

/-- Embedding of `controller.ProductQuery`, the query that `GetProducts` binds. -/
structure controller.ProductQuery where
  Page : Int
  PageSize : Int
  CategoryID : Nat
  Keyword : String
  Sort_ : String
  IsHot : Bool
  IsNew : Bool
deriving DecidableEq, Repr

/-- Embedding of `models.ProductQuery`. -/
structure models.ProductQuery where
  Page : Int
  PageSize : Int
  CategoryID : Nat
  Keyword : String
  Sort_ : String
  Status : Int
  IsHot : Bool
  IsNew : Bool
deriving DecidableEq, Repr

/-- Model of `c.ShouldBindQuery(&query)` for `controller.ProductQuery`: the fields
are set from the query string, then validated by their `binding` tags
(`omitempty,min=1` for `page`, `omitempty,min=1,max=100` for `page_size`,
`omitempty,oneof=sales price_desc price_asc` for `sort`); with `omitempty` a zero
value is not validated. `none` stands for an error. -/
def controller.bindProductQuery (q : Query) : Option controller.ProductQuery := do
  let page ← formInt q "page"
  let pageSize ← formInt q "page_size"
  let categoryID ← formUint q "category_id"
  let keyword := (q "keyword").getD ""
  let sort := (q "sort").getD ""
  let isHot ← formBool q "is_hot"
  let isNew ← formBool q "is_new"
  if page ≠ 0 ∧ page < 1 then none
  if pageSize ≠ 0 ∧ (pageSize < 1 ∨ 100 < pageSize) then none
  if sort ≠ "" ∧ sort ∉ ["sales", "price_desc", "price_asc"] then none
  some { Page := page, PageSize := pageSize, CategoryID := categoryID, Keyword := keyword,
         Sort_ := sort, IsHot := isHot, IsNew := isNew }

/-- What the queries of the product list leave to the database engine: the
match `name LIKE %keyword%` and the ordering of rows by an `ORDER BY` clause. -/
structure SQL where
  like : String → String → Bool
  orderBy : String → List Product → List Product

/-- The result of `GetProducts`: the page of products, the total, and the query
as the function leaves it (the function receives a pointer and writes the
defaults of `Page` and `PageSize` through it). -/
structure ProductPage where
  products : List Product
  total : Int
  query : models.ProductQuery
  offset : Int

/-- Embedding of `ProductRepository.GetProducts` on the rows of the `products`
table that are not deleted. The field `offset` of the result is the value of
the local variable `offset`; `Offset` adds no clause for a value that is not
positive, and `Limit(query.PageSize)` bounds the number of rows. -/
def ProductRepository.GetProducts (sql : SQL) (products : List Product)
    (query : models.ProductQuery) : ProductPage :=
  let rows := products
  let rows :=
    if query.CategoryID > 0 then rows.filter (fun p => decide (p.CategoryID = query.CategoryID))
    else rows
  let rows :=
    if query.Keyword ≠ "" then rows.filter (fun p => sql.like p.Name query.Keyword) else rows
  let rows :=
    if query.Status > 0 then rows.filter (fun p => decide (p.Status = query.Status)) else rows
  let rows := if query.IsHot then rows.filter (fun p => p.IsHot) else rows
  let rows := if query.IsNew then rows.filter (fun p => p.IsNew) else rows
  let rows := if query.Status = 0 then rows.filter (fun p => decide (p.Status = 1)) else rows
  let total : Int := rows.length
  let query := if query.Page ≤ 0 then { query with Page := 1 } else query
  let query := if query.PageSize ≤ 0 then { query with PageSize := 10 } else query
  let offset := wrapInt64 ((query.Page - 1) * query.PageSize)
  let clause :=
    if query.Sort_ = "sales" then "sales DESC"
    else if query.Sort_ = "price_desc" then "price DESC"
    else if query.Sort_ = "price_asc" then "price ASC"
    else "sort DESC, id DESC"
  let rows := sql.orderBy clause rows
  { products := (rows.drop offset.toNat).take query.PageSize.toNat,
    total := total, query := query, offset := offset }

/-- Embedding of `ProductService.GetProducts`. -/
def ProductService.GetProducts (sql : SQL) (products : List Product)
    (query : models.ProductQuery) : ProductPage :=
  let query := if query.Page ≤ 0 then { query with Page := 1 } else query
  let query := if query.PageSize ≤ 0 then { query with PageSize := 10 } else query
  ProductRepository.GetProducts sql products query

/-- The value `productQuery` that `controller.GetProducts` builds from the query it
bound; the field `Status` is left at its zero value. -/
def controller.ProductQuery.toModel (query : controller.ProductQuery) : models.ProductQuery :=
  { Page := query.Page, PageSize := query.PageSize, CategoryID := query.CategoryID,
    Keyword := query.Keyword, Sort_ := query.Sort_, Status := 0, IsHot := query.IsHot,
    IsNew := query.IsNew }

/-- Embedding of `controller.GetProducts`; `q` is the query string of the
request. The data of the response holds `query.Page` and `query.PageSize`, the
fields of the query that the controller bound, not those of `productQuery`. -/
def controller.GetProducts (sql : SQL) (products : List Product) (q : Query)
    (c : Context) : Context :=
  match controller.bindProductQuery q with
  | none => utils.ParamError c "请求参数格式错误"
  | some query =>
    let productQuery : models.ProductQuery := query.toModel
    let page := ProductService.GetProducts sql products productQuery
    utils.Success c (Data.record
      [("list", Value.products page.products), ("total", Value.scalar (Any.int page.total)),
       ("page", Value.scalar (Any.int query.Page)),
       ("page_size", Value.scalar (Any.int query.PageSize))])

/-- The fields `page` and `page_size` of the data of the response that a handler
has just written. -/
def Context.echoedPage (c : Context) : Option (Value × Value) :=
  match c.lastWritten with
  | none => none
  | some w =>
    match w.Body with
    | Body.map _ => none
    | Body.response r =>
      match r.Data with
      | Data.record fields =>
        match fields.lookup "page", fields.lookup "page_size" with
        | some page, some pageSize => some (page, pageSize)
        | _, _ => none
      | _ => none

/-- A database engine for the examples: the keyword matches every name and the
rows keep their order. -/
def sampleSQL : SQL := { like := fun _ _ => true, orderBy := fun _ rows => rows }

/-- The query string without parameters. -/
def emptyQuery : Query := fun _ => none

/-- The query `page=3&page_size=20`. -/
def thirdPageQuery : Query := fun key =>
  if key = "page" then some "3"
  else if key = "page_size" then some "20"
  else none

/-! ## Theorems -/

/-- C1: for every query whose `page` and `page_size` parameters parse to the
integers `page` and `pageSize`, `GetPagination` returns `(p, s)` with `p = 1`
if `page < 1` and `p = page` otherwise, and `s = 10` if `pageSize < 1` or
`pageSize > 100` and `s = pageSize` otherwise; hence `p ≥ 1`, `1 ≤ s ≤ 100`,
and a fully invalid pair yields `(1, 10)`. -/
theorem GetPagination_normalizes (c : Query) (page pageSize : Int)
    (hp : Atoi (DefaultQuery c "page" "1") = page)
    (hs : Atoi (DefaultQuery c "page_size" "10") = pageSize) :
    GetPagination c =
        (if page < 1 then 1 else page,
         if pageSize < 1 ∨ pageSize > 100 then 10 else pageSize)
      ∧ 1 ≤ (GetPagination c).1
      ∧ 1 ≤ (GetPagination c).2 ∧ (GetPagination c).2 ≤ 100
      ∧ ((page < 1 ∧ (pageSize < 1 ∨ pageSize > 100)) → GetPagination c = (1, 10)) := by
  subst hp hs
  have hval : GetPagination c =
      (if Atoi (DefaultQuery c "page" "1") < 1 then 1
        else Atoi (DefaultQuery c "page" "1"),
       if Atoi (DefaultQuery c "page_size" "10") < 1 ∨
            Atoi (DefaultQuery c "page_size" "10") > 100 then 10
        else Atoi (DefaultQuery c "page_size" "10")) := rfl
  refine ⟨hval, ?_, ?_, ?_, ?_⟩
  · rw [hval]; dsimp only; split <;> omega
  · rw [hval]; dsimp only; split <;> omega
  · rw [hval]; dsimp only; split <;> omega
  · rintro ⟨h1, h2⟩
    rw [hval, if_pos h1, if_pos h2]

/-- Witness for C1: the query `page=0&page_size=0` is normalised to `(1, 10)`. -/
theorem GetPagination_normalizes_witness :
    GetPagination (fun _ => some "0") = (1, 10) :=
  (GetPagination_normalizes (fun _ => some "0") 0 0 (by decide) (by decide)).2.2.2.2
    ⟨by decide, Or.inl (by decide)⟩

/-! ### Order lemmas for `F64` -/

/-- Comparison `a < b` excludes `b <= a`, also in the presence of NaN and infinities. -/
theorem F64.le_false_of_lt (a b : F64) (h : F64.lt a b = true) : F64.le b a = false := by
  cases a <;> cases b <;> simp_all [F64.lt, F64.le, F64.eq]
  rename_i s m e t n f
  rw [min_comm f e]
  omega

/-- Comparison `a >= b` excludes `a < b`. -/
theorem F64.lt_false_of_ge (a b : F64) (h : F64.ge a b = true) : F64.lt a b = false := by
  cases hlt : F64.lt a b
  · rfl
  · have := F64.le_false_of_lt a b hlt
    simp [F64.ge, this] at h

/-! ### Sanity checks of the `float64` model -/

/-- The constant `1` is the conversion of the integer 1. -/
theorem F64.one_eq_ofNat : F64.one = F64.ofNat 1 := by
  set_option maxRecDepth 4000 in decide

/-- The constant `0` is the conversion of the integer 0. -/
theorem F64.zero_eq_ofNat : F64.zero = F64.ofNat 0 := by decide

/-- The `float64` written `0.8` has the bit pattern `0x3FE999999999999A`, that is
`0x1999999999999A * 2^-53`. -/
theorem F64.ofDecimal_eight_tenths :
    F64.ofDecimal 8 1 = F64.fin false 0x1999999999999A (-53) := by
  set_option maxRecDepth 4000 in decide

/-- The familiar `0.1 + 0.2 = 0.30000000000000004`, which differs from `0.3`. -/
theorem F64.add_tenth_fifth :
    F64.add (F64.ofDecimal 1 1) (F64.ofDecimal 2 1) = F64.fin false 5404319552844596 (-54)
      ∧ F64.ofDecimal 30000000000000004 17 = F64.fin false 5404319552844596 (-54)
      ∧ F64.ofDecimal 3 1 = F64.fin false 5404319552844595 (-54) := by
  refine ⟨?_, ?_, ?_⟩ <;> set_option maxRecDepth 4000 in decide

/-! ### Coupon evaluator -/

/-- C2: `GetDiscountAmount` returns `0` whenever the coupon is not valid or the
order total is below the minimum amount, whatever the type and value are. -/
theorem GetDiscountAmount_zero_of_invalid_or_below_min
    (parse : String → Option Time) (now : Time) (c : Coupon) (totalAmount : F64)
    (h : c.CheckIsValid parse now = false ∨ F64.lt totalAmount c.MinAmount = true) :
    c.GetDiscountAmount parse now totalAmount = F64.zero := by
  unfold Coupon.GetDiscountAmount
  rcases h with h | h
  · simp [h]
  · split
    · rfl
    · simp [h]

/-- Witness for C2: a fixed coupon of value 15 with minimum amount 100 gives no
discount on a total of 50, and an expired one gives none on a total of 100. -/
theorem GetDiscountAmount_zero_of_invalid_or_below_min_witness :
    (sampleCoupon 1 (F64.ofNat 15) (F64.ofNat 100)).GetDiscountAmount timeParse noon
        (F64.ofNat 50) = F64.zero
      ∧ (sampleCoupon 1 (F64.ofNat 15) F64.zero).GetDiscountAmount timeParse
        (Date 2025 6 1 12 0 0 0) (F64.ofNat 100) = F64.zero :=
  ⟨GetDiscountAmount_zero_of_invalid_or_below_min timeParse noon
      (sampleCoupon 1 (F64.ofNat 15) (F64.ofNat 100)) (F64.ofNat 50) (Or.inr (by decide)),
   GetDiscountAmount_zero_of_invalid_or_below_min timeParse (Date 2025 6 1 12 0 0 0)
      (sampleCoupon 1 (F64.ofNat 15) F64.zero) (F64.ofNat 100) (Or.inl (by decide))⟩

/-- C3 (refuted as stated): the percentage coupon with rate `0.8` applied to a
total of `100` does not yield exactly `20`: in `float64` arithmetic
`100 * (1 - 0.8)` is `19.999999999999996`, which is less than `20`. -/
theorem GetDiscountAmount_percentage_not_exactly_20 :
    (sampleCoupon 2 (F64.ofDecimal 8 1) F64.zero).CheckIsValid timeParse noon = true
      ∧ F64.ge (F64.ofNat 100) (sampleCoupon 2 (F64.ofDecimal 8 1) F64.zero).MinAmount = true
      ∧ (sampleCoupon 2 (F64.ofDecimal 8 1) F64.zero).GetDiscountAmount timeParse noon
          (F64.ofNat 100) ≠ F64.ofNat 20
      ∧ F64.eq ((sampleCoupon 2 (F64.ofDecimal 8 1) F64.zero).GetDiscountAmount timeParse noon
          (F64.ofNat 100)) (F64.ofNat 20) = false
      ∧ F64.lt ((sampleCoupon 2 (F64.ofDecimal 8 1) F64.zero).GetDiscountAmount timeParse noon
          (F64.ofNat 100)) (F64.ofNat 20) = true := by
  set_option maxRecDepth 4000 in set_option exponentiation.threshold 4096 in decide

/-- C3 (amended): for every valid percentage coupon (`Type = 2`) and every total
`≥ MinAmount`, `GetDiscountAmount` returns the `float64` product
`total * (1 - Value)` when `0 < Value < 1` and returns `0` when `Value ≥ 1` or
`Value ≤ 0`; for a coupon whose type is neither 1 nor 2 it returns `0`. In
particular rate `0.8` and total `100` yields the `float64` value
`19.999999999999996` (the `float64` next below `20`). -/
theorem GetDiscountAmount_percentage
    (parse : String → Option Time) (now : Time) (c : Coupon) (totalAmount : F64) :
    (c.CheckIsValid parse now = true → c.Type_ = 2 →
      F64.ge totalAmount c.MinAmount = true →
        (F64.lt F64.zero c.Value = true → F64.lt c.Value F64.one = true →
          c.GetDiscountAmount parse now totalAmount
            = F64.mul totalAmount (F64.sub F64.one c.Value))
        ∧ (F64.ge c.Value F64.one = true ∨ F64.le c.Value F64.zero = true →
          c.GetDiscountAmount parse now totalAmount = F64.zero))
      ∧ (c.Type_ ≠ 1 → c.Type_ ≠ 2 → c.GetDiscountAmount parse now totalAmount = F64.zero)
      ∧ (sampleCoupon 2 (F64.ofDecimal 8 1) F64.zero).GetDiscountAmount timeParse noon
          (F64.ofNat 100) = F64.ofDecimal 19999999999999996 15
      ∧ F64.ofDecimal 19999999999999996 15 = F64.fin false (2 ^ 52 * 5 / 4 - 1) (-48)
      ∧ F64.ofNat 20 = F64.fin false (2 ^ 52 * 5 / 4) (-48) := by
  refine ⟨?_, ?_, ?_, ?_, ?_⟩
  · intro hvalid htype hmin
    have hlt : F64.lt totalAmount c.MinAmount = false := F64.lt_false_of_ge _ _ hmin
    constructor
    · intro h0 h1
      have hge1 : F64.ge c.Value F64.one = false := F64.le_false_of_lt _ _ h1
      have hle0 : F64.le c.Value F64.zero = false := F64.le_false_of_lt _ _ h0
      simp [Coupon.GetDiscountAmount, hvalid, htype, hlt, hge1, hle0]
    · intro h
      have hor : (F64.ge c.Value F64.one || F64.le c.Value F64.zero) = true := by
        rcases h with h | h <;> simp [h]
      simp [Coupon.GetDiscountAmount, hvalid, htype, hlt, hor]
  · intro h1 h2
    unfold Coupon.GetDiscountAmount
    split
    · rfl
    · split
      · rfl
      · simp [h1, h2]
  · set_option maxRecDepth 4000 in set_option exponentiation.threshold 4096 in decide
  · set_option maxRecDepth 4000 in set_option exponentiation.threshold 4096 in decide
  · set_option maxRecDepth 4000 in set_option exponentiation.threshold 4096 in decide

/-- Witness for C3 (amended): the sample coupon with rate `0.8` is valid at
noon of 2024-06-01, the total `100` reaches its minimum amount, and
`0 < 0.8 < 1`, so the discount is the `float64` product `100 * (1 - 0.8)`. -/
theorem GetDiscountAmount_percentage_witness :
    (sampleCoupon 2 (F64.ofDecimal 8 1) F64.zero).GetDiscountAmount timeParse noon
        (F64.ofNat 100)
      = F64.mul (F64.ofNat 100) (F64.sub F64.one (F64.ofDecimal 8 1)) :=
  ((GetDiscountAmount_percentage timeParse noon
      (sampleCoupon 2 (F64.ofDecimal 8 1) F64.zero) (F64.ofNat 100)).1
    (by decide) (by decide) (by set_option maxRecDepth 4000 in set_option exponentiation.threshold 4096 in decide)).1
    (by set_option maxRecDepth 4000 in set_option exponentiation.threshold 4096 in decide)
    (by set_option maxRecDepth 4000 in set_option exponentiation.threshold 4096 in decide)

/-- C4: for every valid fixed-amount coupon (`Type = 1`) and every total
`≥ MinAmount`, `GetDiscountAmount` returns exactly the coupon's `Value`,
independently of the total. -/
theorem GetDiscountAmount_fixed
    (parse : String → Option Time) (now : Time) (c : Coupon) (totalAmount : F64)
    (hvalid : c.CheckIsValid parse now = true) (htype : c.Type_ = 1)
    (hmin : F64.ge totalAmount c.MinAmount = true) :
    c.GetDiscountAmount parse now totalAmount = c.Value := by
  have hlt : F64.lt totalAmount c.MinAmount = false := F64.lt_false_of_ge _ _ hmin
  simp [Coupon.GetDiscountAmount, hvalid, htype, hlt]

/-- Witness for C4: a fixed coupon of value `15` on a total of `100` yields `15`. -/
theorem GetDiscountAmount_fixed_witness :
    (sampleCoupon 1 (F64.ofNat 15) F64.zero).GetDiscountAmount timeParse noon (F64.ofNat 100)
      = F64.ofNat 15 :=
  GetDiscountAmount_fixed timeParse noon (sampleCoupon 1 (F64.ofNat 15) F64.zero)
    (F64.ofNat 100) (by decide) (by decide) (by set_option maxRecDepth 4000 in set_option exponentiation.threshold 4096 in decide)

/-- C5: for every coupon whose `StartTime` and `EndTime` parse to the instants
`s` and `e`, and every current time `now`, `CheckIsValid` is true if and only
if `Status = 1`, and not (`Stock > 0` and `UsedCount ≥ Stock`), and
`s ≤ now ≤ e` (both ends inclusive); a coupon with `Stock = 0` is never
rejected by the stock check. -/
theorem CheckIsValid_iff
    (parse : String → Option Time) (now : Time) (c : Coupon) (s e : Time)
    (hs : parse c.StartTime = some s) (he : parse c.EndTime = some e) :
    (c.CheckIsValid parse now = true ↔
        c.Status = 1 ∧ ¬ (c.Stock > 0 ∧ c.UsedCount ≥ c.Stock) ∧ s ≤ now ∧ now ≤ e)
      ∧ (c.Stock = 0 →
          (c.CheckIsValid parse now = true ↔ c.Status = 1 ∧ s ≤ now ∧ now ≤ e)) := by
  have key : c.CheckIsValid parse now = true ↔
      c.Status = 1 ∧ ¬ (c.Stock > 0 ∧ c.UsedCount ≥ c.Stock) ∧ s ≤ now ∧ now ≤ e := by
    unfold Coupon.CheckIsValid
    by_cases h1 : c.Status = 1
    · by_cases h2 : c.Stock > 0 ∧ c.UsedCount ≥ c.Stock
      · simp [h1, h2]
      · simp only [h1, h2, hs, he, Option.getD_some, Time.Before, Time.After]
        simp
    · simp [h1]
  refine ⟨key, ?_⟩
  intro h0
  rw [key]
  constructor
  · rintro ⟨a, _, b⟩
    exact ⟨a, b⟩
  · rintro ⟨a, b⟩
    exact ⟨a, by omega, b⟩

/-- Witness for C5: the sample coupon is valid at the first and at the last
instant of its window. -/
theorem CheckIsValid_iff_witness :
    (sampleCoupon 1 (F64.ofNat 15) F64.zero).CheckIsValid timeParse
        (Date 2024 1 1 0 0 0 0) = true
      ∧ (sampleCoupon 1 (F64.ofNat 15) F64.zero).CheckIsValid timeParse
        (Date 2024 12 31 23 59 59 0) = true :=
  ⟨((CheckIsValid_iff timeParse (Date 2024 1 1 0 0 0 0)
      (sampleCoupon 1 (F64.ofNat 15) F64.zero) (Date 2024 1 1 0 0 0 0)
      (Date 2024 12 31 23 59 59 0) (by decide) (by decide)).1).2 (by decide),
   ((CheckIsValid_iff timeParse (Date 2024 12 31 23 59 59 0)
      (sampleCoupon 1 (F64.ofNat 15) F64.zero) (Date 2024 1 1 0 0 0 0)
      (Date 2024 12 31 23 59 59 0) (by decide) (by decide)).1).2 (by decide)⟩

/-- C6 (refuted as stated): a coupon whose `StartTime` does not parse is not
always invalid. With an unparsable start, an end in 2099, status 1 and
unbounded stock, `CheckIsValid` is true at noon of 2024-06-01 and a fixed
coupon of value 15 yields a discount of 15 rather than 0. -/
theorem CheckIsValid_unparsable_start_accepted :
    timeParse "soon" = none
      ∧ Coupon.CheckIsValid timeParse noon
          { ID := 1, Name := "c", Type_ := 1, Value := F64.ofNat 15, MinAmount := F64.zero,
            StartTime := "soon", EndTime := "2099-12-31 23:59:59",
            Stock := 0, UsedCount := 0, Status := 1 } = true
      ∧ Coupon.GetDiscountAmount timeParse noon
          { ID := 1, Name := "c", Type_ := 1, Value := F64.ofNat 15, MinAmount := F64.zero,
            StartTime := "soon", EndTime := "2099-12-31 23:59:59",
            Stock := 0, UsedCount := 0, Status := 1 } (F64.ofNat 100) = F64.ofNat 15
      ∧ F64.ofNat 15 ≠ F64.zero := by
  set_option maxRecDepth 4000 in set_option exponentiation.threshold 4096 in decide

/-- C6 (amended): at every current time after the zero instant
0001-01-01 00:00:00 UTC, a coupon whose `EndTime` does not parse is invalid
(and hence `GetDiscountAmount` returns 0), whatever the other fields are; a
coupon whose `StartTime` does not parse while its `EndTime` parses to `e` is
treated as starting at the zero instant: it is valid if and only if
`Status = 1`, the stock is not exhausted, and `now ≤ e`. -/
theorem CheckIsValid_unparsable
    (parse : String → Option Time) (now : Time) (c : Coupon) (hnow : Time.zero < now) :
    (parse c.EndTime = none →
        c.CheckIsValid parse now = false
          ∧ ∀ totalAmount, c.GetDiscountAmount parse now totalAmount = F64.zero)
      ∧ (parse c.StartTime = none → ∀ e, parse c.EndTime = some e →
          (c.CheckIsValid parse now = true ↔
            c.Status = 1 ∧ ¬ (c.Stock > 0 ∧ c.UsedCount ≥ c.Stock) ∧ now ≤ e)) := by
  constructor
  · intro hend
    have hinv : c.CheckIsValid parse now = false := by
      unfold Coupon.CheckIsValid
      have h0 : (0 : Int) < now := hnow
      have hafter : now.After Time.zero = true := by
        simpa [Time.After, Time.zero] using h0
      simp [hend, hafter]
    refine ⟨hinv, fun totalAmount => ?_⟩
    simp [Coupon.GetDiscountAmount, hinv]
  · intro hstart e he
    have hbefore : now.Before Time.zero = false := by
      have h0 : (0 : Int) < now := hnow
      have hn : ¬ now < (0 : Int) := not_lt.mpr (le_of_lt h0)
      simpa [Time.Before, Time.zero] using hn
    unfold Coupon.CheckIsValid
    by_cases h1 : c.Status = 1
    · by_cases h2 : c.Stock > 0 ∧ c.UsedCount ≥ c.Stock
      · simp [h1, h2]
      · simp only [h1, h2, hstart, he, Option.getD_some, Option.getD_none, hbefore,
          Time.After]
        simp
    · simp [h1]

/-- Witness for C6 (amended): a coupon whose `EndTime` is not a date is invalid
at noon of 2024-06-01. -/
theorem CheckIsValid_unparsable_witness :
    Coupon.CheckIsValid timeParse noon
        { ID := 1, Name := "c", Type_ := 1, Value := F64.ofNat 15, MinAmount := F64.zero,
          StartTime := "2024-01-01 00:00:00", EndTime := "never",
          Stock := 0, UsedCount := 0, Status := 1 } = false :=
  ((CheckIsValid_unparsable timeParse noon
      { ID := 1, Name := "c", Type_ := 1, Value := F64.ofNat 15, MinAmount := F64.zero,
        StartTime := "2024-01-01 00:00:00", EndTime := "never",
        Stock := 0, UsedCount := 0, Status := 1 } (by decide)).1 (by decide)).1

/-! ### Category tree -/

/-- When the loop of `buildTree` returns, it has appended to `tree` exactly the
visited categories whose `ParentID` is `parentID`, in their order. -/
theorem buildTreeLoop_eq (recurse : Nat → Option (List Category)) (parentID : Nat)
    (l acc tree : List Category)
    (h : buildTreeLoop recurse parentID l acc = some tree) :
    tree = acc ++ l.filter (fun c => decide (c.ParentID = parentID)) := by
  induction l generalizing acc with
  | nil =>
    simp [buildTreeLoop] at h
    simp [h]
  | cons c rest ih =>
    unfold buildTreeLoop at h
    by_cases hc : c.ParentID = parentID
    · rw [if_pos hc] at h
      cases hr : recurse c.ID with
      | none => simp [hr] at h
      | some children =>
        simp only [hr] at h
        have := ih _ h
        simp [this, List.filter_cons, hc]
    · rw [if_neg hc] at h
      have := ih _ h
      simp [this, List.filter_cons, hc]

/-- When `buildTree` returns, its result is the sub-list of the categories whose
`ParentID` is `parentID`, in their order. -/
theorem buildTree_eq_filter (fuel : Nat) (categories : List Category) (parentID : Nat)
    (tree : List Category) (h : buildTree fuel categories parentID = some tree) :
    tree = categories.filter (fun c => decide (c.ParentID = parentID)) := by
  cases fuel with
  | zero => simp [buildTree] at h
  | succ n =>
    simp only [buildTree] at h
    simpa using buildTreeLoop_eq _ _ _ _ _ h

/-- The loop of `buildTree` returns when every recursive call it makes returns. -/
theorem buildTreeLoop_of_recurse (recurse : Nat → Option (List Category)) (parentID : Nat)
    (l acc : List Category)
    (h : ∀ c ∈ l, c.ParentID = parentID → (recurse c.ID).isSome = true) :
    buildTreeLoop recurse parentID l acc
      = some (acc ++ l.filter (fun c => decide (c.ParentID = parentID))) := by
  induction l generalizing acc with
  | nil => simp [buildTreeLoop]
  | cons c rest ih =>
    have hrest : ∀ d ∈ rest, d.ParentID = parentID → (recurse d.ID).isSome = true :=
      fun d hd => h d (List.mem_cons_of_mem _ hd)
    unfold buildTreeLoop
    by_cases hc : c.ParentID = parentID
    · rw [if_pos hc]
      have hsome := h c (List.mem_cons_self _ _) hc
      obtain ⟨children, hchildren⟩ := Option.isSome_iff_exists.mp hsome
      simp only [hchildren]
      rw [ih _ hrest]
      simp [List.filter_cons, hc]
    · rw [if_neg hc, ih _ hrest]
      simp [List.filter_cons, hc]

/-- Under `ChainOK`, a category whose `ID` is on the stack has its `ParentID`
strictly deeper in the stack. -/
theorem ChainOK.parent_mem {categories : List Category} {id : Nat} {rest : List Nat}
    (h : ChainOK categories (id :: rest)) {c : Category} (hc : c ∈ categories)
    (hid : c.ID ∈ id :: rest) : c.ParentID ∈ rest := by
  induction rest generalizing id with
  | nil =>
    have : c.ID = id := by simpa using hid
    exact h.1 c hc this
  | cons y rest ih =>
    rcases List.mem_cons.mp hid with hhead | htail
    · exact h.1 c hc hhead
    · exact List.mem_cons_of_mem _ (ih h.2 htail)

/-- With pairwise distinct `ID`s, a call of `buildTree` whose stack of parent ids
satisfies `ChainOK` returns as soon as the depth left covers the ids that are
not on the stack. -/
theorem buildTree_of_chain (categories : List Category)
    (hnodup : (categories.map (fun c => c.ID)).Nodup)
    (fuel : Nat) (parentID : Nat) (rest : List Nat)
    (hpath : (parentID :: rest).Nodup)
    (hsub : (parentID :: rest) ⊆ 0 :: categories.map (fun c => c.ID))
    (hchain : ChainOK categories (parentID :: rest))
    (hfuel : categories.length + 2 ≤ fuel + (parentID :: rest).length) :
    buildTree fuel categories parentID
      = some (categories.filter (fun c => decide (c.ParentID = parentID))) := by
  induction fuel generalizing parentID rest with
  | zero =>
    have hlen : (parentID :: rest).length ≤ (0 :: categories.map (fun c => c.ID)).length :=
      (List.subperm_of_subset hpath hsub).length_le
    simp only [List.length_cons, List.length_map] at hlen hfuel
    omega
  | succ n ih =>
    simp only [buildTree]
    rw [buildTreeLoop_of_recurse]
    · simp
    · intro c hc hparent
      have hnotin : c.ID ∉ parentID :: rest := by
        intro hin
        have hmem := hchain.parent_mem hc hin
        rw [hparent] at hmem
        exact (List.nodup_cons.mp hpath).1 hmem
      have hchain2 : ChainOK categories (c.ID :: parentID :: rest) := by
        refine ⟨?_, hchain⟩
        intro d hd hdid
        have hdc : d = c := List.inj_on_of_nodup_map hnodup hd hc hdid
        rw [hdc, hparent]
        exact List.mem_cons_self _ _
      have hsub2 : (c.ID :: parentID :: rest) ⊆ 0 :: categories.map (fun c => c.ID) := by
        intro x hx
        rcases List.mem_cons.mp hx with rfl | hx
        · exact List.mem_cons_of_mem _ (List.mem_map.mpr ⟨c, hc, rfl⟩)
        · exact hsub hx
      rw [ih c.ID (parentID :: rest) (List.nodup_cons.mpr ⟨hnotin, hpath⟩) hsub2 hchain2
        (by simp only [List.length_cons] at hfuel ⊢; omega)]
      rfl

/-- For a list whose `ID`s are pairwise distinct and non-zero, `buildTree(list, 0)`
returns within a recursion depth of one more than the length of the list. -/
theorem buildTree_terminates (categories : List Category)
    (hnodup : (categories.map (fun c => c.ID)).Nodup)
    (hnonzero : ∀ c ∈ categories, c.ID ≠ 0)
    (fuel : Nat) (hfuel : categories.length + 1 ≤ fuel) :
    buildTree fuel categories 0
      = some (categories.filter (fun c => decide (c.ParentID = 0))) := by
  apply buildTree_of_chain categories hnodup fuel 0 []
  · simp
  · simp
  · exact ⟨fun c hc h0 => absurd h0 (hnonzero c hc), trivial⟩
  · simp only [List.length_cons, List.length_nil]
    omega

/-- A descendant has a parent, so its `ParentID` is not zero. -/
theorem DescendsFrom.parent_ne_zero {categories : List Category} {c a : Category}
    (h : DescendsFrom categories c a) : c.ParentID ≠ 0 := by
  cases h with
  | child _ hc => exact hc.1
  | step _ hc _ => exact hc.1

/-- C7 (evaluation at the specification's example): on the list
`[1 (parent 0), 2 (parent 1), 3 (parent 1), 4 (parent 99)]`, `buildTree(list, 0)`
returns the single record of category 1; categories 2 and 3 are not in the
result, whatever the recursion depth, and no record of the result carries them,
`Category` having no field for children. -/
theorem buildTree_example_returns_root_only :
    buildTree 3 exampleCategories 0 = some [mkCategory 1 0]
      ∧ (∀ fuel tree, buildTree fuel exampleCategories 0 = some tree →
          tree = [mkCategory 1 0]
            ∧ mkCategory 2 1 ∉ tree ∧ mkCategory 3 1 ∉ tree ∧ mkCategory 4 99 ∉ tree) := by
  refine ⟨by decide, ?_⟩
  intro fuel tree h
  have ht := buildTree_eq_filter _ _ _ _ h
  have hf : exampleCategories.filter (fun c => decide (c.ParentID = 0)) = [mkCategory 1 0] := by
    decide
  rw [hf] at ht
  subst ht
  decide

/-- C8: for every flat category list, an orphan (a category whose non-zero
`ParentID` is the `ID` of no category of the list) and every descendant of an
orphan never appear in the result of `buildTree(list, 0)`: no call that returns
has them in its result, and when the `ID`s of the list are pairwise distinct
and non-zero the call does return (a recursion depth of one more than the
length of the list suffices) with a result that has neither. -/
theorem buildTree_excludes_orphans (categories : List Category) (orphan c : Category)
    (horphan : IsOrphan categories orphan)
    (hc : c = orphan ∨ DescendsFrom categories c orphan) :
    (∀ fuel tree, buildTree fuel categories 0 = some tree → c ∉ tree)
      ∧ ((categories.map (fun d => d.ID)).Nodup → (∀ d ∈ categories, d.ID ≠ 0) →
          ∀ fuel, categories.length + 1 ≤ fuel →
            ∃ tree, buildTree fuel categories 0 = some tree ∧ c ∉ tree) := by
  have hne : c.ParentID ≠ 0 := by
    rcases hc with rfl | hd
    · exact horphan.2.1
    · exact hd.parent_ne_zero
  have hsafe : ∀ fuel tree, buildTree fuel categories 0 = some tree → c ∉ tree := by
    intro fuel tree hres hmem
    rw [buildTree_eq_filter _ _ _ _ hres, List.mem_filter] at hmem
    exact hne (by simpa using hmem.2)
  refine ⟨hsafe, ?_⟩
  intro hnodup hnonzero fuel hfuel
  exact ⟨_, buildTree_terminates categories hnodup hnonzero fuel hfuel,
    hsafe fuel _ (buildTree_terminates categories hnodup hnonzero fuel hfuel)⟩

/-- Witness for C8: in the list `[1 (parent 0), 2 (parent 1), 4 (parent 99),
5 (parent 4)]` category 4 is an orphan and category 5 descends from it; neither
is in the result `[1]` of `buildTree`. -/
theorem buildTree_excludes_orphans_witness :
    buildTree 5 [mkCategory 1 0, mkCategory 2 1, mkCategory 4 99, mkCategory 5 4] 0
        = some [mkCategory 1 0]
      ∧ mkCategory 4 99 ∉ [mkCategory 1 0] ∧ mkCategory 5 4 ∉ [mkCategory 1 0] :=
  have hres : buildTree 5 [mkCategory 1 0, mkCategory 2 1, mkCategory 4 99, mkCategory 5 4] 0
      = some [mkCategory 1 0] := by decide
  have horphan : IsOrphan [mkCategory 1 0, mkCategory 2 1, mkCategory 4 99, mkCategory 5 4]
      (mkCategory 4 99) := ⟨by decide, by decide, by decide⟩
  ⟨hres,
   (buildTree_excludes_orphans _ (mkCategory 4 99) (mkCategory 4 99) horphan
     (Or.inl rfl)).1 5 _ hres,
   (buildTree_excludes_orphans _ (mkCategory 4 99) (mkCategory 5 4) horphan
     (Or.inr (DescendsFrom.child (by decide) ⟨by decide, by decide⟩))).1 5 _ hres⟩

/-! ### Category service -/

/-- A lookup that succeeds in a list succeeds with the same result in every
extension of the list. -/
theorem find?_append_of_some {α : Type} (p : α → Bool) (l extra : List α) (x : α)
    (h : l.find? p = some x) : (l ++ extra).find? p = some x := by
  rw [List.find?_append, h]
  rfl

/-- Wrapping leaves the values of the `int` range unchanged. -/
theorem wrapInt64_of_range (x : Int) (hlo : -(2 ^ 63) ≤ x) (hhi : x < 2 ^ 63) :
    wrapInt64 x = x := by
  unfold wrapInt64
  omega

/-- A successful `Create` appends the stored record, which keeps the parent id
and level of the record passed in. -/
theorem CategoryRepository.Create_ok (t t' : CategoryTable) (category stored : Category)
    (h : CategoryRepository.Create t category = .ok (t', stored)) :
    t'.rows = t.rows ++ [stored] ∧ stored.ParentID = category.ParentID
      ∧ stored.Level = category.Level := by
  unfold CategoryRepository.Create at h
  split at h
  · simp only [Except.ok.injEq, Prod.mk.injEq] at h
    obtain ⟨rfl, rfl⟩ := h
    exact ⟨rfl, rfl, rfl⟩
  · split at h
    · simp at h
    · simp only [Except.ok.injEq, Prod.mk.injEq] at h
      obtain ⟨rfl, rfl⟩ := h
      exact ⟨rfl, rfl, rfl⟩

/-- A successful `CreateCategory` appends one record, at level 1 when it is
top-level and one level below its stored parent otherwise. -/
theorem CategoryService.CreateCategory_ok (t t' : CategoryTable) (category stored : Category)
    (h : CategoryService.CreateCategory t category = .ok (t', stored)) :
    t'.rows = t.rows ++ [stored]
      ∧ stored.ParentID = category.ParentID
      ∧ (category.ParentID = 0 → stored.Level = 1)
      ∧ (category.ParentID ≠ 0 → ∃ parent,
          t.rows.find? (fun p => decide (p.ID = category.ParentID)) = some parent
            ∧ stored.Level = wrapInt64 (parent.Level + 1)) := by
  unfold CategoryService.CreateCategory at h
  by_cases hp : category.ParentID > 0
  · have hne : category.ParentID ≠ 0 := by omega
    cases hfind : CategoryRepository.GetByID t category.ParentID with
    | none => simp [hp, hfind] at h
    | some parent =>
      simp only [hp, hfind, if_true] at h
      obtain ⟨h1, h2, h3⟩ := CategoryRepository.Create_ok _ _ _ _ h
      refine ⟨h1, ?_, fun h0 => absurd h0 hne, fun _ => ⟨parent, hfind, ?_⟩⟩
      · rw [h2]; split <;> rfl
      · rw [h3]; split <;> rfl
  · have h0 : category.ParentID = 0 := by omega
    simp only [hp, if_false] at h
    obtain ⟨h1, h2, h3⟩ := CategoryRepository.Create_ok _ _ _ _ h
    refine ⟨h1, ?_, fun _ => ?_, fun hne => absurd h0 hne⟩
    · rw [h2]; split <;> rfl
    · rw [h3]; split <;> rfl

/-- The level rule of a row survives the insertion of further rows. -/
theorem levelOK_append (rows extra : List Category) (c : Category)
    (h : levelOK rows c = true) : levelOK (rows ++ extra) c = true := by
  unfold levelOK at h ⊢
  by_cases h0 : c.ParentID = 0
  · simpa [h0] using h
  · simp only [h0, if_false] at h ⊢
    cases hfind : rows.find? (fun p => decide (p.ID = c.ParentID)) with
    | none => simp [hfind] at h
    | some parent =>
      rw [find?_append_of_some _ _ _ _ hfind]
      simpa [hfind] using h

/-- Function `CreateCategory` preserves the level invariant (for levels below the largest
`int`, so that `parent.Level + 1` does not wrap). -/
theorem CategoryService.CreateCategory_preserves_LevelInvariant
    (t t' : CategoryTable) (category stored : Category)
    (hinv : LevelInvariant t.rows)
    (hrange : ∀ c ∈ t.rows, -(2 ^ 63) ≤ c.Level ∧ c.Level < 2 ^ 63 - 1)
    (h : CategoryService.CreateCategory t category = .ok (t', stored)) :
    LevelInvariant t'.rows := by
  obtain ⟨hrows, hparent, hroot, hchild⟩ := CategoryService.CreateCategory_ok _ _ _ _ h
  rw [hrows]
  intro c hc
  rcases List.mem_append.mp hc with hold | hnew
  · exact levelOK_append _ _ _ (hinv c hold)
  · have hcs : c = stored := by simpa using hnew
    subst hcs
    unfold levelOK
    by_cases h0 : category.ParentID = 0
    · simp [hparent, h0, hroot h0]
    · obtain ⟨parent, hfind, hlevel⟩ := hchild h0
      have hmem := List.mem_of_find?_eq_some hfind
      have hr := hrange parent hmem
      rw [wrapInt64_of_range _ (by omega) (by omega)] at hlevel
      rw [hparent]
      simp only [h0, if_false]
      rw [find?_append_of_some _ _ _ _ hfind]
      simpa using hlevel

/-- A chain of parents that ends at a top-level category still does so after the
insertion of further rows. -/
theorem reachesRoot_append (rows extra : List Category) (fuel id : Nat)
    (h : reachesRoot rows fuel id = true) : reachesRoot (rows ++ extra) fuel id = true := by
  induction fuel generalizing id with
  | zero =>
    cases id with
    | zero => simp [reachesRoot]
    | succ n => simp [reachesRoot] at h
  | succ f ih =>
    cases id with
    | zero => simp [reachesRoot]
    | succ n =>
      simp only [reachesRoot] at h ⊢
      cases hfind : rows.find? (fun p => decide (p.ID = n + 1)) with
      | none => simp [hfind] at h
      | some p =>
        rw [find?_append_of_some _ _ _ _ hfind]
        simp only [hfind] at h
        exact ih _ h

/-- More steps never hurt. -/
theorem reachesRoot_succ (rows : List Category) (fuel id : Nat)
    (h : reachesRoot rows fuel id = true) : reachesRoot rows (fuel + 1) id = true := by
  induction fuel generalizing id with
  | zero =>
    cases id with
    | zero => simp [reachesRoot]
    | succ n => simp [reachesRoot] at h
  | succ f ih =>
    cases id with
    | zero => simp [reachesRoot]
    | succ n =>
      rw [reachesRoot] at h ⊢
      cases hfind : rows.find? (fun p => decide (p.ID = n + 1)) with
      | none => simp [hfind] at h
      | some p =>
        simp only [hfind] at h ⊢
        exact ih _ h

/-- The parent id 0 is the root. -/
theorem reachesRoot_zero (rows : List Category) (fuel : Nat) :
    reachesRoot rows fuel 0 = true := by
  cases fuel <;> simp [reachesRoot]

/-- One step of the climb from a non-zero id. -/
theorem reachesRoot_step (rows : List Category) (fuel id : Nat) (hid : id ≠ 0) :
    reachesRoot rows (fuel + 1) id =
      match rows.find? (fun p => decide (p.ID = id)) with
      | some p => reachesRoot rows fuel p.ParentID
      | none => false := by
  cases id with
  | zero => exact absurd rfl hid
  | succ n => simp only [reachesRoot]

/-- Function `CreateCategory` keeps the parent links a forest. -/
theorem CategoryService.CreateCategory_preserves_IsForest
    (t t' : CategoryTable) (category stored : Category)
    (hforest : IsForest t.rows)
    (h : CategoryService.CreateCategory t category = .ok (t', stored)) :
    IsForest t'.rows := by
  obtain ⟨hrows, hparent, hroot, hchild⟩ := CategoryService.CreateCategory_ok _ _ _ _ h
  rw [hrows]
  have hlen : (t.rows ++ [stored]).length = t.rows.length + 1 := by simp
  have lift : ∀ id, reachesRoot t.rows t.rows.length id = true →
      reachesRoot (t.rows ++ [stored]) (t.rows.length + 1) id = true :=
    fun id hid => reachesRoot_succ _ _ _ (reachesRoot_append _ _ _ _ hid)
  intro c hc
  rw [hlen]
  rcases List.mem_append.mp hc with hold | hnew
  · exact lift _ (hforest c hold)
  · have hcs : c = stored := by simpa using hnew
    subst hcs
    by_cases hid : c.ID = 0
    · rw [hid]; exact reachesRoot_zero _ _
    · cases hfind : t.rows.find? (fun p => decide (p.ID = c.ID)) with
      | some p =>
        have hp := hforest p (List.mem_of_find?_eq_some hfind)
        have hpid : p.ID = c.ID := by simpa using List.find?_some hfind
        rw [hpid] at hp
        exact lift _ hp
      | none =>
        rw [reachesRoot_step _ _ _ hid, List.find?_append, hfind]
        have hself : [c].find? (fun p => decide (p.ID = c.ID)) = some c := by simp
        simp only [Option.or, hself]
        by_cases h0 : category.ParentID = 0
        · rw [hparent, h0]; exact reachesRoot_zero _ _
        · obtain ⟨parent, hpfind, _⟩ := hchild h0
          have hp := hforest parent (List.mem_of_find?_eq_some hpfind)
          have hpid : parent.ID = category.ParentID := by simpa using List.find?_some hpfind
          rw [hparent, ← hpid]
          exact reachesRoot_append _ _ _ _ hp

/-- Function `UpdateCategory` fails when the new parent is the category itself. -/
theorem CategoryService.UpdateCategory_rejects_own_parent
    (t : CategoryTable) (category : Category)
    (hpos : category.ParentID > 0) (hself : category.ParentID = category.ID)
    (r : CategoryTable × Category) :
    CategoryService.UpdateCategory t category ≠ .ok r := by
  unfold CategoryService.UpdateCategory
  cases hfind : CategoryRepository.GetByID t category.ID with
  | none => simp
  | some c =>
    have hcid : c.ID = category.ID := by
      unfold CategoryRepository.GetByID at hfind
      simpa using List.find?_some hfind
    have hpos2 : 0 < category.ID := hself ▸ hpos
    simp [hpos2, hself, hfind, hcid]

/-- C9 (evaluation at a failing input): in a table that satisfies the level
invariant, with top-level categories 1 and 3 and category 2 a child of 1,
`UpdateCategory` moving category 1 under category 3 succeeds and stores level 2
for category 1, but leaves its child 2 at level 2: the level invariant no
longer holds. -/
theorem UpdateCategory_breaks_level_invariant :
    LevelInvariant exampleTable.rows
      ∧ CategoryService.UpdateCategory exampleTable (categoryAt 1 3 1)
          = .ok ({ rows := [categoryAt 1 3 2, categoryAt 2 1 2, categoryAt 3 0 1],
                   autoIncrement := 4 },
                 categoryAt 1 3 2)
      ∧ levelOK [categoryAt 1 3 2, categoryAt 2 1 2, categoryAt 3 0 1]
          (categoryAt 2 1 2) = false
      ∧ ¬ LevelInvariant [categoryAt 1 3 2, categoryAt 2 1 2, categoryAt 3 0 1] := by
  refine ⟨by unfold LevelInvariant; decide, rfl, by decide, ?_⟩
  intro h
  exact absurd (h (categoryAt 2 1 2) (by decide)) (by decide)

/-- C10 (evaluation at a failing input): in a table whose parent links form a
forest, with category 2 a child of the top-level category 1, `UpdateCategory`
moving category 1 under its own child 2 succeeds; afterwards category 1 is the
parent of its parent, so it descends from itself and the parent links are no
longer a forest. -/
theorem UpdateCategory_creates_cycle :
    IsForest exampleTable.rows
      ∧ CategoryService.UpdateCategory exampleTable (categoryAt 1 2 1)
          = .ok ({ rows := [categoryAt 1 2 3, categoryAt 2 1 2, categoryAt 3 0 1],
                   autoIncrement := 4 },
                 categoryAt 1 2 3)
      ∧ DescendsFrom [categoryAt 1 2 3, categoryAt 2 1 2, categoryAt 3 0 1]
          (categoryAt 1 2 3) (categoryAt 1 2 3)
      ∧ ¬ IsForest [categoryAt 1 2 3, categoryAt 2 1 2, categoryAt 3 0 1] := by
  refine ⟨by unfold IsForest; decide, rfl, ?_, ?_⟩
  · exact DescendsFrom.step (p := categoryAt 2 1 2) (by decide)
      ⟨by decide, by decide⟩ (DescendsFrom.child (by decide) ⟨by decide, by decide⟩)
  · intro h
    exact absurd (h (categoryAt 1 2 3) (by decide)) (by decide)

/-! ### Category deletion -/

/-- Function `Delete` refuses exactly the blocked deletions. -/
theorem CategoryRepository.Delete_of_blocked (s : Store) (id : Nat)
    (h : DeleteBlocked s id) :
    CategoryRepository.Delete s id = (s, some CategoryError.duplicateKey) := by
  unfold CategoryRepository.Delete
  rcases h with ⟨c, hc, hcp⟩ | ⟨p, hp, hpc⟩
  · have hpos : 0 < (s.categories.rows.filter (fun c => decide (c.ParentID = id))).length :=
      List.length_pos_of_mem (List.mem_filter.mpr ⟨hc, by simpa using hcp⟩)
    simp [hpos]
  · have hpos : 0 < (s.products.filter (fun p => decide (p.CategoryID = id))).length :=
      List.length_pos_of_mem (List.mem_filter.mpr ⟨hp, by simpa using hpc⟩)
    simp only [gt_iff_lt, hpos, if_true]
    split <;> rfl

/-- Function `Delete` carries out the deletions that are not blocked. -/
theorem CategoryRepository.Delete_of_not_blocked (s : Store) (id : Nat)
    (h : ¬ DeleteBlocked s id) :
    CategoryRepository.Delete s id
      = ({ s with categories :=
            { s.categories with
              rows := s.categories.rows.filter (fun c => !decide (c.ID = id)) } }, none) := by
  unfold CategoryRepository.Delete
  have h1 : (s.categories.rows.filter (fun c => decide (c.ParentID = id))) = [] := by
    rw [List.filter_eq_nil_iff]
    intro c hc hcp
    exact h (Or.inl ⟨c, hc, by simpa using hcp⟩)
  have h2 : (s.products.filter (fun p => decide (p.CategoryID = id))) = [] := by
    rw [List.filter_eq_nil_iff]
    intro p hp hpc
    exact h (Or.inr ⟨p, hp, by simpa using hpc⟩)
  simp [h1, h2]

/-- C11: for every category id, `CategoryRepository.Delete` and
`CategoryService.DeleteCategory` fail and leave the category and product tables
unchanged whenever some category has `ParentID = id` or some product has
`CategoryID = id`; when neither exists `Delete` removes the rows with that id
and nothing else (and so does `DeleteCategory` for a category that exists), so
a category is removed only when neither exists. -/
theorem Delete_blocked_or_removes (s : Store) (id : Nat) :
    (DeleteBlocked s id →
        (CategoryRepository.Delete s id).1 = s
          ∧ (CategoryRepository.Delete s id).2 ≠ none
          ∧ (CategoryService.DeleteCategory s id).1 = s
          ∧ (CategoryService.DeleteCategory s id).2 ≠ none)
      ∧ (¬ DeleteBlocked s id →
          (CategoryRepository.Delete s id).2 = none
            ∧ (CategoryRepository.Delete s id).1.products = s.products
            ∧ (CategoryRepository.Delete s id).1.categories.rows
                = s.categories.rows.filter (fun c => !decide (c.ID = id))
            ∧ ((∃ c ∈ s.categories.rows, c.ID = id) →
                CategoryService.DeleteCategory s id = CategoryRepository.Delete s id))
      ∧ ((CategoryRepository.Delete s id).1 ≠ s → ¬ DeleteBlocked s id)
      ∧ ((CategoryService.DeleteCategory s id).1 ≠ s → ¬ DeleteBlocked s id) := by
  have hblocked : DeleteBlocked s id →
      (CategoryRepository.Delete s id).1 = s
        ∧ (CategoryRepository.Delete s id).2 ≠ none
        ∧ (CategoryService.DeleteCategory s id).1 = s
        ∧ (CategoryService.DeleteCategory s id).2 ≠ none := by
    intro h
    have hd := CategoryRepository.Delete_of_blocked s id h
    refine ⟨by rw [hd], by rw [hd]; simp, ?_, ?_⟩
    · unfold CategoryService.DeleteCategory
      cases CategoryRepository.GetByID s.categories id with
      | none => rfl
      | some c => simp only [hd]
    · unfold CategoryService.DeleteCategory
      cases CategoryRepository.GetByID s.categories id with
      | none => simp
      | some c => simp [hd]
  refine ⟨hblocked, ?_, ?_, ?_⟩
  · intro h
    have hd := CategoryRepository.Delete_of_not_blocked s id h
    refine ⟨by rw [hd], by rw [hd], by rw [hd], ?_⟩
    rintro ⟨c, hc, hcid⟩
    unfold CategoryService.DeleteCategory
    cases hfind : CategoryRepository.GetByID s.categories id with
    | none =>
      unfold CategoryRepository.GetByID at hfind
      rw [List.find?_eq_none] at hfind
      exact absurd (by simpa using hcid) (hfind c hc)
    | some c0 => simp only [hd]
  · intro hne hb
    exact hne (hblocked hb).1
  · intro hne hb
    exact hne (hblocked hb).2.2.1

/-- Witness for C11: in the example store category 1 has the sub-category 2 and
category 3 holds a product, so neither can be deleted, while the deletion of
category 2 removes exactly that row. -/
theorem Delete_blocked_or_removes_witness :
    (CategoryService.DeleteCategory exampleStore 1).1 = exampleStore
      ∧ (CategoryService.DeleteCategory exampleStore 3).1 = exampleStore
      ∧ (CategoryRepository.Delete exampleStore 2).1.categories.rows
          = [categoryAt 1 0 1, categoryAt 3 0 1] :=
  ⟨((Delete_blocked_or_removes exampleStore 1).1
      (Or.inl ⟨categoryAt 2 1 2, by decide, rfl⟩)).2.2.1,
   ((Delete_blocked_or_removes exampleStore 3).1
      (Or.inr ⟨mkProduct 1 3, by decide, rfl⟩)).2.2.1,
   (((Delete_blocked_or_removes exampleStore 2).2.1
      (by unfold DeleteBlocked; decide)).2.2.1).trans (by decide)⟩

/-! ### Authentication middleware -/

/-- Function `SplitN` of a header with the `Bearer` scheme gives the scheme and the token. -/
theorem SplitN2_bearer (t : String) : SplitN2 ("Bearer " ++ t) = ["Bearer", t] := by
  unfold SplitN2
  have : ("Bearer " ++ t).toList = 'B' :: 'e' :: 'a' :: 'r' :: 'e' :: 'r' :: ' ' :: t.toList := by
    simp [String.toList, String.data_append]
  rw [this]
  simp [List.span, List.span.loop]

/-- The two parts of a `span` make up the list. -/
theorem span_eq_append {α : Type} (p : α → Bool) (l pre post : List α)
    (h : l.span p = (pre, post)) : l = pre ++ post := by
  have := List.span_eq_take_drop p l
  rw [this] at h
  simp only [Prod.mk.injEq] at h
  obtain ⟨rfl, rfl⟩ := h
  exact (List.takeWhile_append_dropWhile p l).symm

/-- When `SplitN` gives two parts, the text is the first part, a space and the
second part. -/
theorem SplitN2_eq_pair (h a b : String) (hs : SplitN2 h = [a, b]) :
    h = a ++ " " ++ b := by
  unfold SplitN2 at hs
  cases hsp : h.toList.span (fun ch => ch != ' ') with
  | mk pre rest =>
    rw [hsp] at hs
    cases rest with
    | nil => simp at hs
    | cons x post =>
      simp only [List.cons.injEq, and_true] at hs
      obtain ⟨rfl, rfl⟩ := hs
      have hl := span_eq_append _ _ _ _ hsp
      have hx : x = ' ' := by
        have h2 := List.span_eq_take_drop (fun ch => ch != ' ') h.toList
        rw [hsp] at h2
        simp only [Prod.mk.injEq] at h2
        have h3 := List.head?_dropWhile_not (fun ch => ch != ' ') h.toList
        rw [← h2.2] at h3
        simpa using h3
      subst hx
      apply String.ext
      simp [String.toList] at hl
      simp [String.data_append, hl]

/-- A header with the `Bearer` scheme is not empty. -/
theorem bearer_ne_empty (t : String) : "Bearer " ++ t ≠ "" := by
  intro h
  have := congrArg String.length h
  simp [String.length_append] at this
  have h7 : "Bearer ".length = 7 := by decide
  omega

/-- Function `JWTAuth` hands a request with a valid bearer token on, with the user of the
token in the context. -/
theorem JWTAuth_of_valid (ValidateToken : String → Except String JWTClaims)
    (next : Context → Context) (c : Context) (t : String) (claims : JWTClaims)
    (hh : c.GetHeader "Authorization" = "Bearer " ++ t)
    (hv : ValidateToken t = .ok claims) :
    JWTAuth ValidateToken next c = next (withUser c claims) := by
  unfold JWTAuth
  simp only [hh, bearer_ne_empty, if_false, SplitN2_bearer, if_true, hv]
  rfl

/-- Function `JWTAuth` rejects every other request with status 401, without calling the
next handler. -/
theorem JWTAuth_of_invalid (ValidateToken : String → Except String JWTClaims)
    (next : Context → Context) (c : Context)
    (hno : ¬ ∃ t claims, c.GetHeader "Authorization" = "Bearer " ++ t
      ∧ ValidateToken t = .ok claims) :
    ∃ message, JWTAuth ValidateToken next c = (c.JSON 401 (rejection 401 message)).Abort := by
  unfold JWTAuth
  by_cases hempty : c.GetHeader "Authorization" = ""
  · refine ⟨"Authorization header is required", ?_⟩
    simp only [hempty, if_true]
  · simp only [hempty, if_false]
    cases hsp : SplitN2 (c.GetHeader "Authorization") with
    | nil => exact ⟨_, rfl⟩
    | cons a rest =>
      cases rest with
      | nil => exact ⟨_, rfl⟩
      | cons b rest2 =>
        cases rest2 with
        | cons x y => exact ⟨_, rfl⟩
        | nil =>
          simp only []
          by_cases hb : a = "Bearer"
          · simp only [hb, if_true]
            cases hv : ValidateToken b with
            | error err => exact ⟨_, rfl⟩
            | ok claims =>
              exfalso
              apply hno
              refine ⟨b, claims, ?_, hv⟩
              rw [SplitN2_eq_pair _ _ _ hsp, hb]
              rfl
          · simp only [hb, if_false]
            exact ⟨_, rfl⟩

/-- Function `OptionalAuth` hands a request with a valid bearer token on, with the user of
the token in the context. -/
theorem OptionalAuth_of_valid (ValidateToken : String → Except String JWTClaims)
    (next : Context → Context) (c : Context) (t : String) (claims : JWTClaims)
    (hh : c.GetHeader "Authorization" = "Bearer " ++ t)
    (hv : ValidateToken t = .ok claims) :
    OptionalAuth ValidateToken next c = next (withUser c claims) := by
  unfold OptionalAuth
  simp only [hh, bearer_ne_empty, if_false, SplitN2_bearer, hv]
  simp [withUser]

/-- Function `OptionalAuth` hands every other request on unchanged. -/
theorem OptionalAuth_of_invalid (ValidateToken : String → Except String JWTClaims)
    (next : Context → Context) (c : Context)
    (hno : ¬ ∃ t claims, c.GetHeader "Authorization" = "Bearer " ++ t
      ∧ ValidateToken t = .ok claims) :
    OptionalAuth ValidateToken next c = next c := by
  unfold OptionalAuth
  by_cases hempty : c.GetHeader "Authorization" = ""
  · simp only [hempty, if_true]
  · simp only [hempty, if_false]
    cases hsp : SplitN2 (c.GetHeader "Authorization") with
    | nil => rfl
    | cons a rest =>
      cases rest with
      | nil => rfl
      | cons b rest2 =>
        cases rest2 with
        | cons x y => rfl
        | nil =>
          simp only []
          by_cases hb : a = "Bearer"
          · simp only [hb, ne_eq, not_true_eq_false, if_false]
            cases hv : ValidateToken b with
            | error err => rfl
            | ok claims =>
              exfalso
              apply hno
              refine ⟨b, claims, ?_, hv⟩
              rw [SplitN2_eq_pair _ _ _ hsp, hb]
              rfl
          · simp only [ne_eq, hb, not_false_eq_true, if_true]

/-- The three keys of the user are found in the context that carries the user. -/
theorem withUser_Get (c : Context) (claims : JWTClaims) :
    (withUser c claims).Get "user_id" = some (Any.uint64 claims.UserID)
      ∧ (withUser c claims).Get "username" = some (Any.string claims.Username)
      ∧ (withUser c claims).Get "role" = some (Any.string claims.Role) := by
  refine ⟨?_, ?_, ?_⟩ <;>
    simp [withUser, Context.Get, Context.Set, List.lookup]

/-- C12: for every `Authorization` header value, `JWTAuth` passes the request to
the next handler if and only if the header is `Bearer ` followed by a token for
which `ValidateToken` succeeds; in every other case it writes status 401 with
body code 401, aborts the chain without calling the next handler, and leaves
the keys of the context as they were. -/
theorem JWTAuth_admits_iff (ValidateToken : String → Except String JWTClaims)
    (next : Context → Context) (c : Context) :
    (∀ t claims, c.GetHeader "Authorization" = "Bearer " ++ t →
        ValidateToken t = .ok claims →
        JWTAuth ValidateToken next c = next (withUser c claims))
      ∧ ((¬ ∃ t claims, c.GetHeader "Authorization" = "Bearer " ++ t
            ∧ ValidateToken t = .ok claims) →
          ∃ message,
            JWTAuth ValidateToken next c = (c.JSON 401 (rejection 401 message)).Abort
              ∧ (JWTAuth ValidateToken next c).Written
                  = c.Written ++ [{ Status := 401, Body := rejection 401 message }]
              ∧ (rejection 401 message).code = some (Any.int 401)
              ∧ (JWTAuth ValidateToken next c).IsAborted = true
              ∧ (JWTAuth ValidateToken next c).Keys = c.Keys) := by
  refine ⟨fun t claims hh hv => JWTAuth_of_valid _ _ _ _ _ hh hv, fun hno => ?_⟩
  obtain ⟨message, hm⟩ := JWTAuth_of_invalid ValidateToken next c hno
  refine ⟨message, hm, ?_, rfl, ?_, ?_⟩
  · rw [hm]; rfl
  · rw [hm]; rfl
  · rw [hm]; rfl

/-- Witness for C12: with the sample validator, a request with the header
`Bearer alice-token` reaches the final handler, which finds user 7, and a
request without the header is answered 401 by `JWTAuth` alone. -/
theorem JWTAuth_admits_iff_witness :
    JWTAuth sampleValidate (whoami id)
        (Context.new (mkRequest "GET" "/api/users/profile" "Bearer alice-token"))
      = whoami id (withUser
          (Context.new (mkRequest "GET" "/api/users/profile" "Bearer alice-token"))
          (mkClaims 7 "alice" "user"))
      ∧ ∃ message, JWTAuth sampleValidate (whoami id)
          (Context.new (mkRequest "GET" "/api/users/profile" ""))
        = ((Context.new (mkRequest "GET" "/api/users/profile" "")).JSON 401
            (rejection 401 message)).Abort :=
  ⟨(JWTAuth_admits_iff sampleValidate (whoami id)
      (Context.new (mkRequest "GET" "/api/users/profile" "Bearer alice-token"))).1
      "alice-token" (mkClaims 7 "alice" "user") (by decide) rfl,
   ((JWTAuth_admits_iff sampleValidate (whoami id)
      (Context.new (mkRequest "GET" "/api/users/profile" ""))).2
      (fun ⟨t, _, hh, _⟩ => bearer_ne_empty t hh.symm)).imp (fun _ h => h.1)⟩

/-- C13: whenever `JWTAuth` admits a request whose token validates to the claims
`claims`, the context handed on holds `user_id = claims.UserID`,
`username = claims.Username` and `role = claims.Role`, and `GetCurrentUser` on
it returns exactly `(claims.UserID, claims.Username, claims.Role, true)`; on a
context where any of the three keys is missing `GetCurrentUser` returns
`(0, "", "", false)`. -/
theorem JWTAuth_sets_current_user (ValidateToken : String → Except String JWTClaims)
    (next : Context → Context) (c : Context) (t : String) (claims : JWTClaims)
    (hh : c.GetHeader "Authorization" = "Bearer " ++ t)
    (hv : ValidateToken t = .ok claims) :
    JWTAuth ValidateToken next c = next (withUser c claims)
      ∧ (withUser c claims).Get "user_id" = some (Any.uint64 claims.UserID)
      ∧ (withUser c claims).Get "username" = some (Any.string claims.Username)
      ∧ (withUser c claims).Get "role" = some (Any.string claims.Role)
      ∧ GetCurrentUser (withUser c claims)
          = (claims.UserID, claims.Username, claims.Role, true)
      ∧ (∀ c2 : Context,
          (c2.Get "user_id" = none ∨ c2.Get "username" = none ∨ c2.Get "role" = none) →
          GetCurrentUser c2 = (0, "", "", false)) := by
  obtain ⟨h1, h2, h3⟩ := withUser_Get c claims
  refine ⟨JWTAuth_of_valid _ _ _ _ _ hh hv, h1, h2, h3, ?_, ?_⟩
  · simp [GetCurrentUser, h1, h2, h3, Any.asUint64, Any.asString]
  · intro c2 hmiss
    unfold GetCurrentUser
    rcases hmiss with h | h | h
    · simp [h]
    · cases hu : c2.Get "user_id" <;> simp [h]
    · cases hu : c2.Get "user_id" <;> cases hn : c2.Get "username" <;> simp [h]

/-- Witness for C13: after `JWTAuth` has admitted `Bearer alice-token`,
`GetCurrentUser` returns user 7 `alice` of role `user`. -/
theorem JWTAuth_sets_current_user_witness :
    GetCurrentUser (withUser
        (Context.new (mkRequest "GET" "/api/users/profile" "Bearer alice-token"))
        (mkClaims 7 "alice" "user"))
      = (7, "alice", "user", true) :=
  (JWTAuth_sets_current_user sampleValidate id
    (Context.new (mkRequest "GET" "/api/users/profile" "Bearer alice-token"))
    "alice-token" (mkClaims 7 "alice" "user") (by decide) rfl).2.2.2.2.1

/-- C16: for every `Authorization` header value, `OptionalAuth` never aborts and
never writes a response: its result is that of the next handler, called once,
on a context with the same index and the same written responses; the user
keys are set in that context when the header is `Bearer ` followed by a token
that validates, and only then. -/
theorem OptionalAuth_always_continues (ValidateToken : String → Except String JWTClaims)
    (next : Context → Context) (c : Context) :
    (∃ c2, OptionalAuth ValidateToken next c = next c2
        ∧ c2.index = c.index ∧ c2.Written = c.Written ∧ c2.Request = c.Request
        ∧ (c2 = c ∨ ∃ t claims, c.GetHeader "Authorization" = "Bearer " ++ t
            ∧ ValidateToken t = .ok claims ∧ c2 = withUser c claims))
      ∧ (∀ t claims, c.GetHeader "Authorization" = "Bearer " ++ t →
          ValidateToken t = .ok claims →
          OptionalAuth ValidateToken next c = next (withUser c claims))
      ∧ ((¬ ∃ t claims, c.GetHeader "Authorization" = "Bearer " ++ t
            ∧ ValidateToken t = .ok claims) →
          OptionalAuth ValidateToken next c = next c) := by
  refine ⟨?_, fun t claims hh hv => OptionalAuth_of_valid _ _ _ _ _ hh hv,
    fun hno => OptionalAuth_of_invalid _ _ _ hno⟩
  by_cases hex : ∃ t claims, c.GetHeader "Authorization" = "Bearer " ++ t
      ∧ ValidateToken t = .ok claims
  · obtain ⟨t, claims, hh, hv⟩ := hex
    exact ⟨withUser c claims, OptionalAuth_of_valid _ _ _ _ _ hh hv, rfl, rfl, rfl,
      Or.inr ⟨t, claims, hh, hv, rfl⟩⟩
  · exact ⟨c, OptionalAuth_of_invalid _ _ _ hex, rfl, rfl, rfl, Or.inl rfl⟩

/-- Witness for C16: `OptionalAuth` hands the request with the header
`Bearer alice-token` on with user 7 and the request without the header on
unchanged; served behind `OptionalAuth`, the final handler answers exactly
once in both cases. -/
theorem OptionalAuth_always_continues_witness :
    OptionalAuth sampleValidate (whoami id)
        (Context.new (mkRequest "GET" "/api/products" "Bearer alice-token"))
      = whoami id (withUser (Context.new (mkRequest "GET" "/api/products" "Bearer alice-token"))
          (mkClaims 7 "alice" "user"))
      ∧ OptionalAuth sampleValidate (whoami id)
          (Context.new (mkRequest "GET" "/api/products" ""))
        = whoami id (Context.new (mkRequest "GET" "/api/products" ""))
      ∧ (ServeHTTP [OptionalAuth sampleValidate, whoami]
          (mkRequest "GET" "/api/products" "Bearer alice-token")).Written
        = [{ Status := 200, Body := Body.map [("user_id", Any.uint64 7)] }]
      ∧ (ServeHTTP [OptionalAuth sampleValidate, whoami]
          (mkRequest "GET" "/api/products" "")).Written
        = [{ Status := 200, Body := Body.map [("user_id", Any.nil)] }] :=
  ⟨(OptionalAuth_always_continues sampleValidate (whoami id)
      (Context.new (mkRequest "GET" "/api/products" "Bearer alice-token"))).2.1
      "alice-token" (mkClaims 7 "alice" "user") (by decide) rfl,
   (OptionalAuth_always_continues sampleValidate (whoami id)
      (Context.new (mkRequest "GET" "/api/products" ""))).2.2
      (fun ⟨t, _, hh, _⟩ => bearer_ne_empty t hh.symm),
   by decide, by decide⟩

/-! ### Routes -/

/-- Every admin-only route of `SetupRoutes` has the handlers of the engine,
then `RequireAdmin`, then one more handler (its controller): `JWTAuth` is not
in the chain before `RequireAdmin`. -/
theorem adminOnly_handlers :
    ∀ route ∈ SetupRoutes, AdminOnly route = true →
      ∃ last, route.Handlers = engineHandlers ++ [Handler.RequireAdmin, last] := by
  have key : ∀ route ∈ SetupRoutes, AdminOnly route = true →
      route.Handlers = engineHandlers
        ++ [Handler.RequireAdmin, route.Handlers.getLast?.getD Handler.CORS] := by
    decide
  exact fun route hmem hadmin => ⟨_, key route hmem hadmin⟩

/-- On a chain made of the handlers of the engine, `RequireAdmin` and one more
handler, every request is answered 401 by `RequireAdmin`, whatever its
`Authorization` header, as long as `CORS` passes the request on: nothing has
put a user into the context, and the last handler does not run. -/
theorem adminChain_unauthenticated (env : Env) (hcors : ∀ next c, env.CORS next c = next c)
    (last : Handler) (r : Request) :
    ServeHTTP ((engineHandlers ++ [Handler.RequireAdmin, last]).map (Handler.func env)) r
      = { Request := r, Keys := [("request_id", Any.string env.requestID)],
          index := abortIndex + 7,
          Written := [{ Status := 401, Body := rejection 401 "User not authenticated" }] } := by
  simp [ServeHTTP, engineHandlers, runHandlers, Handler.func, hcors, Logger, Recovery,
    RequestID, RequireAdmin, GetCurrentUser, Context.new, Context.Set, Context.Get,
    Context.JSON, Context.Abort, abortIndex, List.lookup]

/-- C14 (evaluation at a failing input): `POST /api/products` with the valid
token of the user `alice`, whose role is `user`, is answered 401
`User not authenticated` and not 403: the chain of the route has no `JWTAuth`,
so `RequireAdmin` finds no user in the context. The same holds for each of the
eight admin-only routes. The controller does not run. Behind `JWTAuth`, the
same `RequireAdmin` answers 403 to this request. -/
theorem adminRoute_nonadmin_token_gets_401 :
    sampleValidate "alice-token" = .ok (mkClaims 7 "alice" "user")
      ∧ (Serve sampleEnv
          { Method := "POST", Path := "/api/products",
            Handlers := engineHandlers
              ++ [Handler.RequireAdmin, Handler.Controller "CreateProduct"] }
          (mkRequest "POST" "/api/products" "Bearer alice-token")).Written
        = [{ Status := 401, Body := rejection 401 "User not authenticated" }]
      ∧ { Method := "POST", Path := "/api/products",
          Handlers := engineHandlers
            ++ [Handler.RequireAdmin, Handler.Controller "CreateProduct"] } ∈ SetupRoutes
      ∧ (SetupRoutes.filter AdminOnly).map (fun route =>
          (Serve sampleEnv route
            (mkRequest route.Method route.Path "Bearer alice-token")).Written.map
              (fun w => w.Status))
        = [[401], [401], [401], [401], [401], [401], [401], [401]]
      ∧ (ServeHTTP [JWTAuth sampleValidate, RequireAdmin, namedController "CreateProduct"]
          (mkRequest "POST" "/api/products" "Bearer alice-token")).Written
        = [{ Status := 403, Body := rejection 403 "Admin privileges required" }] := by
  refine ⟨rfl, ?_, ?_, ?_, ?_⟩ <;> decide

/-- C15 (evaluation at a failing input): `POST /api/categories` with the valid
token of the user `root`, whose role is `admin`, is answered 401
`User not authenticated` and the controller `CreateCategory` does not run; so
it is on each of the eight admin-only routes. Behind `JWTAuth`, the same
`RequireAdmin` admits this request and the controller answers. -/
theorem adminRoute_admin_token_gets_401 :
    sampleValidate "root-token" = .ok (mkClaims 1 "root" "admin")
      ∧ (Serve sampleEnv
          { Method := "POST", Path := "/api/categories",
            Handlers := engineHandlers
              ++ [Handler.RequireAdmin, Handler.Controller "CreateCategory"] }
          (mkRequest "POST" "/api/categories" "Bearer root-token")).Written
        = [{ Status := 401, Body := rejection 401 "User not authenticated" }]
      ∧ { Method := "POST", Path := "/api/categories",
          Handlers := engineHandlers
            ++ [Handler.RequireAdmin, Handler.Controller "CreateCategory"] } ∈ SetupRoutes
      ∧ (SetupRoutes.filter AdminOnly).map (fun route =>
          (Serve sampleEnv route
            (mkRequest route.Method route.Path "Bearer root-token")).Written)
        = List.replicate 8
            [{ Status := 401, Body := rejection 401 "User not authenticated" }]
      ∧ (ServeHTTP [JWTAuth sampleValidate, RequireAdmin, namedController "CreateCategory"]
          (mkRequest "POST" "/api/categories" "Bearer root-token")).Written
        = [{ Status := 200, Body := Body.map [("controller", Any.string "CreateCategory")] }] := by
  refine ⟨rfl, ?_, ?_, ?_, ?_⟩ <;> decide

/-! ### Response envelope -/

/-- The response written last by `c.JSON`. -/
theorem Context.lastWritten_JSON (c : Context) (status : Nat) (body : Body) :
    (c.JSON status body).lastWritten = some { Status := status, Body := body } := by
  simp [Context.lastWritten, Context.JSON]

/-- C19 (refuted as stated): the error helpers do not send the body code as HTTP
status. `ParamError`, `Unauthorized`, `Forbidden`, `NotFound`,
`TooManyRequests` and `ServerError` write the body codes 400, 401, 403, 404,
429 and 500, each with HTTP status 200. -/
theorem error_helpers_write_status_200 :
    ((utils.ParamError freshContext "bad").Written.map (fun w => (w.Status, w.Body.code)))
        = [(200, some (Any.int 400))]
      ∧ ((utils.Unauthorized freshContext).Written.map (fun w => (w.Status, w.Body.code)))
        = [(200, some (Any.int 401))]
      ∧ ((utils.Forbidden freshContext).Written.map (fun w => (w.Status, w.Body.code)))
        = [(200, some (Any.int 403))]
      ∧ ((utils.NotFound freshContext "none").Written.map (fun w => (w.Status, w.Body.code)))
        = [(200, some (Any.int 404))]
      ∧ ((utils.TooManyRequests freshContext).Written.map (fun w => (w.Status, w.Body.code)))
        = [(200, some (Any.int 429))]
      ∧ ((utils.ServerError freshContext).Written.map (fun w => (w.Status, w.Body.code)))
        = [(200, some (Any.int 500))] := by
  decide

/-- C19 (amended): every response helper of the envelope writes one response
whose body is the envelope `{code, message, data}`. `Success` writes HTTP
status 200 with body code 200 and `Created` writes 201 with body code 201;
`Error` writes HTTP status 200 with the body code it is given, and so do the
helpers built on it: `ParamError` and `BadRequest` (body code 400),
`Unauthorized` (401), `Forbidden` (403), `NotFound` (404), `ServerError` (500)
and `TooManyRequests` (429); `ValidateError` writes HTTP status 200 with body
code 400. -/
theorem response_helpers (c : Context) (data : Data) (code : Int) (message : String)
    (errors : List String) :
    (utils.Success c data).lastWritten.map Written.summary
        = some (200, some (Any.int 200), ["code", "message", "data"])
      ∧ (utils.Created c data).lastWritten.map Written.summary
        = some (201, some (Any.int 201), ["code", "message", "data"])
      ∧ (utils.Error c code message).lastWritten.map Written.summary
        = some (200, some (Any.int code), ["code", "message", "data"])
      ∧ (utils.ParamError c message).lastWritten.map Written.summary
        = some (200, some (Any.int 400), ["code", "message", "data"])
      ∧ (utils.BadRequest c message).lastWritten.map Written.summary
        = some (200, some (Any.int 400), ["code", "message", "data"])
      ∧ (utils.Unauthorized c).lastWritten.map Written.summary
        = some (200, some (Any.int 401), ["code", "message", "data"])
      ∧ (utils.Forbidden c).lastWritten.map Written.summary
        = some (200, some (Any.int 403), ["code", "message", "data"])
      ∧ (utils.NotFound c message).lastWritten.map Written.summary
        = some (200, some (Any.int 404), ["code", "message", "data"])
      ∧ (utils.ServerError c).lastWritten.map Written.summary
        = some (200, some (Any.int 500), ["code", "message", "data"])
      ∧ (utils.TooManyRequests c).lastWritten.map Written.summary
        = some (200, some (Any.int 429), ["code", "message", "data"])
      ∧ (utils.ValidateError c errors).lastWritten.map Written.summary
        = some (200, some (Any.int 400), ["code", "message", "data"])
      ∧ (∀ c2 ∈ [utils.Success c data, utils.Created c data, utils.Error c code message,
            utils.ParamError c message, utils.BadRequest c message, utils.Unauthorized c,
            utils.Forbidden c, utils.NotFound c message, utils.ServerError c,
            utils.TooManyRequests c, utils.ValidateError c errors],
          c2.Written.length = c.Written.length + 1 ∧ c2.Keys = c.Keys
            ∧ c2.index = c.index) := by
  refine ⟨?_, ?_, ?_, ?_, ?_, ?_, ?_, ?_, ?_, ?_, ?_, ?_⟩
  all_goals first
    | (simp only [utils.Success, utils.Created, utils.Error, utils.ParamError,
         utils.BadRequest, utils.Unauthorized, utils.Forbidden, utils.NotFound,
         utils.ServerError, utils.TooManyRequests, utils.ValidateError,
         Context.lastWritten_JSON, Option.map_some']
       rfl)
    | (intro c2 hc2
       simp only [List.mem_cons, List.mem_singleton, List.not_mem_nil, or_false] at hc2
       rcases hc2 with rfl | rfl | rfl | rfl | rfl | rfl | rfl | rfl | rfl | rfl | rfl <;>
         simp [utils.Success, utils.Created, utils.Error, utils.ParamError, utils.BadRequest,
           utils.Unauthorized, utils.Forbidden, utils.NotFound, utils.ServerError,
           utils.TooManyRequests, utils.ValidateError, Context.JSON])

/-! ### Token service -/

/-- What `GenerateToken` returns: an HS256 token under the configured secret
whose expiry is the clock reading plus the TTL, truncated to a whole second. -/
theorem utils.GenerateToken_eq (cfg : JWTConfig) (now issuedNow : Time)
    (userID : Nat) (username role : String) :
    utils.GenerateToken cfg now issuedNow userID username role
      = .ok (TokenString.signed SigningMethod.HS256
          { UserID := userID, Username := username, Role := role,
            Registered :=
              { ExpiresAt := some (jwt.NewNumericDate
                  (now + wrapInt64 (wrapInt64 cfg.ExpireHours * hour))),
                IssuedAt := some (jwt.NewNumericDate issuedNow),
                Issuer := cfg.Issuer, Subject := username,
                Audience := [], NotBefore := none, ID := "" } }
          cfg.Secret) := rfl

/-- Function `ParseToken` on a token signed with an HMAC method under the configured
secret, without a not-before date: it succeeds with the claims of the token
before the expiry. -/
theorem utils.ParseToken_before_expiry (cfg : JWTConfig) (later exp : Time)
    (method : SigningMethod) (claims : JWTClaims) (hm : method.isHMAC = true)
    (hexp : claims.Registered.ExpiresAt = some exp)
    (hnbf : claims.Registered.NotBefore = none) (hlt : later < exp) :
    utils.ParseToken cfg later (TokenString.signed method claims cfg.Secret) = .ok claims := by
  have hb : Time.Before later exp = true := by simpa [Time.Before] using hlt
  simp [utils.ParseToken, jwt.ParseWithClaims, jwt.validateClaims, hm, hexp, hnbf, hb]

/-- Function `ParseToken` on a token signed with an HMAC method under the configured
secret fails with the cause `token is expired` from the expiry on. -/
theorem utils.ParseToken_expired (cfg : JWTConfig) (later exp : Time)
    (method : SigningMethod) (claims : JWTClaims) (hm : method.isHMAC = true)
    (hexp : claims.Registered.ExpiresAt = some exp) (hle : exp ≤ later) :
    ∃ notValidYet, utils.ParseToken cfg later (TokenString.signed method claims cfg.Secret)
      = .error (TokenError.parseFailed (JwtError.invalidClaims true notValidYet)) := by
  have hb : Time.Before later exp = false := by
    have hn : ¬ later < exp := not_lt.mpr hle
    simpa [Time.Before] using hn
  cases hnbf : claims.Registered.NotBefore with
  | none =>
    exact ⟨false, by
      simp [utils.ParseToken, jwt.ParseWithClaims, jwt.validateClaims, hm, hexp, hnbf, hb]⟩
  | some nbf =>
    exact ⟨Time.Before later nbf, by
      simp [utils.ParseToken, jwt.ParseWithClaims, jwt.validateClaims, hm, hexp, hnbf, hb]⟩

/-- Truncation to a whole second takes less than a second away, and a TTL is at
least an hour. -/
theorem truncated_expiry_after (n x : Int) (h0 : 0 < x) :
    n < (n + x * 3600000000000) - (n + x * 3600000000000) % 1000000000 := by
  omega

/-- C17: for every user id, username and role and every configuration with a
positive TTL, `GenerateToken` returns a token on which `ParseToken` succeeds at
every instant before the expiry of the token, with claims of exactly that user
id, username and role; the expiry is the clock reading plus the TTL, truncated
to a whole second, so that for a TTL whose nanoseconds fit 64 bits the token
is valid when it is issued. `ParseToken` on a token made under the configured
secret whose expiry is not later than the current time fails with the cause
`token is expired`. -/
theorem ParseToken_GenerateToken (cfg : JWTConfig) (now issuedNow : Time)
    (userID : Nat) (username role : String) (hTTL : 0 < cfg.ExpireHours) :
    ∃ tokenString exp,
      utils.GenerateToken cfg now issuedNow userID username role = .ok tokenString
        ∧ exp = jwt.NewNumericDate (now + wrapInt64 (wrapInt64 cfg.ExpireHours * hour))
        ∧ (∀ later, later < exp →
            ∃ claims, utils.ParseToken cfg later tokenString = .ok claims
              ∧ claims.UserID = userID ∧ claims.Username = username ∧ claims.Role = role
              ∧ claims.Registered.ExpiresAt = some exp)
        ∧ (cfg.ExpireHours ≤ 2562047 → now < exp)
        ∧ (∀ later, exp ≤ later →
            utils.ParseToken cfg later tokenString
              = .error (TokenError.parseFailed (JwtError.invalidClaims true false)))
        ∧ (∀ (method : SigningMethod) (claims : JWTClaims) (exp2 later : Time),
            method.isHMAC = true → claims.Registered.ExpiresAt = some exp2 → exp2 ≤ later →
            ∃ notValidYet,
              utils.ParseToken cfg later (TokenString.signed method claims cfg.Secret)
                = .error (TokenError.parseFailed
                    (JwtError.invalidClaims true notValidYet))) := by
  refine ⟨_, _, utils.GenerateToken_eq cfg now issuedNow userID username role, rfl,
    ?_, ?_, ?_, ?_⟩
  · intro later hlt
    exact ⟨_, utils.ParseToken_before_expiry cfg later _ _ _ rfl rfl rfl hlt,
      rfl, rfl, rfl, rfl⟩
  · intro hmax
    have h0 : (0 : Int) < cfg.ExpireHours := hTTL
    have h1 : wrapInt64 cfg.ExpireHours = cfg.ExpireHours :=
      wrapInt64_of_range _ (by omega) (by omega)
    have h2 : wrapInt64 (cfg.ExpireHours * hour) = cfg.ExpireHours * hour :=
      wrapInt64_of_range _ (by unfold hour; omega) (by unfold hour; omega)
    rw [h1, h2]
    unfold jwt.NewNumericDate hour
    exact truncated_expiry_after now cfg.ExpireHours h0
  · intro later hle
    have hb : Time.Before later (jwt.NewNumericDate
        (now + wrapInt64 (wrapInt64 cfg.ExpireHours * hour))) = false := by
      have hn : ¬ later < jwt.NewNumericDate
          (now + wrapInt64 (wrapInt64 cfg.ExpireHours * hour)) := not_lt.mpr hle
      simpa [Time.Before] using hn
    simp [utils.ParseToken, jwt.ParseWithClaims, jwt.validateClaims, SigningMethod.isHMAC, hb]
  · intro method claims exp2 later hm hexp hle
    exact utils.ParseToken_expired cfg later exp2 method claims hm hexp hle

/-- Witness for C17: under the default configuration (TTL 24 hours) the token
issued at noon of 2024-06-01 for the user 7 `alice` of role `user` parses to
that user one second before noon of the next day, and is expired at noon of
the next day. -/
theorem ParseToken_GenerateToken_witness :
    utils.GenerateToken defaultJWT noon noon 7 "alice" "user" = .ok aliceToken
      ∧ utils.ParseToken defaultJWT (Date 2024 6 2 11 59 59 0) aliceToken
          = .ok aliceClaims
      ∧ utils.ParseToken defaultJWT (Date 2024 6 2 12 0 0 0) aliceToken
          = .error (TokenError.parseFailed (JwtError.invalidClaims true false))
      ∧ ∃ tokenString exp,
          utils.GenerateToken defaultJWT noon noon 7 "alice" "user" = .ok tokenString
            ∧ exp = jwt.NewNumericDate (noon + wrapInt64 (wrapInt64 24 * hour)) :=
  ⟨rfl, rfl, rfl,
   (ParseToken_GenerateToken defaultJWT noon noon 7 "alice" "user" (by decide)).imp
     (fun _ h => h.imp (fun _ h2 => ⟨h2.1, h2.2.1⟩))⟩

/-- C18 (refuted as stated): the expiry of a refreshed token is not the refresh
time plus the TTL when the refresh time is not a whole second. Refreshing the
token of `alice` half a second after noon of 2024-06-01 under the default
configuration (TTL 24 hours) gives a token that expires at noon of 2024-06-02
sharp, half a second before the refresh time plus 24 hours. And with a TTL of
2562048 hours, whose nanoseconds exceed 63 bits, the token refreshed at noon of
2024-06-01 has an expiry in the year 1732. -/
theorem RefreshToken_expiry_is_truncated :
    utils.RefreshToken defaultJWT (Date 2024 6 1 12 0 0 500000000)
        (Date 2024 6 1 12 0 0 500000000) (Date 2024 6 1 12 0 0 500000000) aliceToken
      = .ok (TokenString.signed SigningMethod.HS256
          { aliceClaims with
            Registered := { aliceClaims.Registered with
              ExpiresAt := some (Date 2024 6 2 12 0 0 0),
              IssuedAt := some (Date 2024 6 1 12 0 0 0) } }
          defaultJWT.Secret)
      ∧ Date 2024 6 2 12 0 0 0 ≠ Date 2024 6 1 12 0 0 500000000 + 24 * hour
      ∧ Date 2024 6 2 12 0 0 0 + 500000000 = Date 2024 6 1 12 0 0 500000000 + 24 * hour
      ∧ utils.RefreshToken { defaultJWT with ExpireHours := 2562048 } noon noon noon aliceToken
        = .ok (TokenString.signed SigningMethod.HS256
            { aliceClaims with
              Registered := { aliceClaims.Registered with
                ExpiresAt := some (Date 1732 2 21 12 25 26 0), IssuedAt := some noon } }
            defaultJWT.Secret)
      ∧ Date 1732 2 21 12 25 26 0 < noon :=
  ⟨rfl, by decide, by decide, rfl, by decide⟩

/-- C18 (amended): for every token string, `RefreshToken` fails exactly when
`ParseToken` fails, and with the same error; otherwise it returns a token on
which `ParseToken` succeeds at every instant before its expiry, with the same
user id, username and role as the old token, and whose expiry is the refresh
time plus the configured TTL hours (as a 64-bit count of nanoseconds),
truncated to a whole second. -/
theorem RefreshToken_spec (cfg : JWTConfig) (now refreshNow issuedNow : Time)
    (tokenString : TokenString) :
    (∀ err, utils.RefreshToken cfg now refreshNow issuedNow tokenString = .error err
        ↔ utils.ParseToken cfg now tokenString = .error err)
      ∧ (∀ claims, utils.ParseToken cfg now tokenString = .ok claims →
          ∃ newToken exp,
            utils.RefreshToken cfg now refreshNow issuedNow tokenString = .ok newToken
              ∧ exp = jwt.NewNumericDate
                  (refreshNow + wrapInt64 (wrapInt64 cfg.ExpireHours * hour))
              ∧ (∀ later, later < exp →
                  ∃ newClaims, utils.ParseToken cfg later newToken = .ok newClaims
                    ∧ newClaims.UserID = claims.UserID
                    ∧ newClaims.Username = claims.Username
                    ∧ newClaims.Role = claims.Role
                    ∧ newClaims.Registered.ExpiresAt = some exp)) := by
  constructor
  · intro err
    unfold utils.RefreshToken
    cases hp : utils.ParseToken cfg now tokenString with
    | error e => simp
    | ok claims => simp [utils.GenerateToken_eq]
  · intro claims hp
    have h1 : utils.RefreshToken cfg now refreshNow issuedNow tokenString
        = utils.GenerateToken cfg refreshNow issuedNow claims.UserID claims.Username
            claims.Role := by
      unfold utils.RefreshToken
      rw [hp]
    rw [utils.GenerateToken_eq] at h1
    exact ⟨_, _, h1, rfl, fun later hlt =>
      ⟨_, utils.ParseToken_before_expiry cfg later _ _ _ rfl rfl rfl hlt,
        rfl, rfl, rfl, rfl⟩⟩

/-- Witness for C18: the token of `alice` still parses at 13:00 of 2024-06-01, so
its refresh at that time succeeds, and a malformed token is refused by
`RefreshToken` with the error of `ParseToken`. -/
theorem RefreshToken_spec_witness :
    (∃ newToken exp,
        utils.RefreshToken defaultJWT (Date 2024 6 1 13 0 0 0) (Date 2024 6 1 13 0 0 0)
            (Date 2024 6 1 13 0 0 0) aliceToken = .ok newToken
          ∧ exp = jwt.NewNumericDate
              (Date 2024 6 1 13 0 0 0 + wrapInt64 (wrapInt64 defaultJWT.ExpireHours * hour)))
      ∧ utils.RefreshToken defaultJWT noon noon noon (TokenString.malformed "x.y")
          = .error (TokenError.parseFailed JwtError.malformed) :=
  ⟨((RefreshToken_spec defaultJWT (Date 2024 6 1 13 0 0 0) (Date 2024 6 1 13 0 0 0)
        (Date 2024 6 1 13 0 0 0) aliceToken).2 aliceClaims rfl).imp
      (fun _ h => h.imp (fun _ h2 => ⟨h2.1, h2.2.1⟩)),
   ((RefreshToken_spec defaultJWT noon noon noon (TokenString.malformed "x.y")).1
      (TokenError.parseFailed JwtError.malformed)).2 rfl⟩

/-! ### Addresses -/

/-- A successful `Create` appends the stored record, which has the user and the
default flag of the record passed in, to the table that `BeforeCreate` leaves. -/
theorem Address.Create_appends (a stored : Address) (t t2 : AddressTable)
    (h : a.Create t = .ok (t2, stored)) :
    t2.rows = (a.BeforeCreate t).rows ++ [stored]
      ∧ stored.UserID = a.UserID ∧ stored.IsDefault = a.IsDefault := by
  unfold Address.Create at h
  simp only [] at h
  split at h
  · simp only [Except.ok.injEq, Prod.mk.injEq] at h
    obtain ⟨rfl, rfl⟩ := h
    exact ⟨rfl, rfl, rfl⟩
  · split at h
    · simp at h
    · simp only [Except.ok.injEq, Prod.mk.injEq] at h
      obtain ⟨rfl, rfl⟩ := h
      exact ⟨rfl, rfl, rfl⟩

/-- After `BeforeCreate` for a default address, the user has no default address
among the stored ones. -/
theorem Address.BeforeCreate_defaultsOf (a : Address) (t : AddressTable)
    (hd : a.IsDefault = true) : defaultsOf (a.BeforeCreate t).rows a.UserID = [] := by
  unfold defaultsOf Address.BeforeCreate
  simp only [hd, if_true]
  rw [List.filter_eq_nil_iff]
  intro r hr
  rw [List.mem_map] at hr
  obtain ⟨r0, _, rfl⟩ := hr
  by_cases hu : r0.UserID = a.UserID
  · simp [hu]
  · simp [hu]

/-- Function `BeforeCreate` leaves the addresses of every other user as they were. -/
theorem Address.BeforeCreate_addressesOf (a : Address) (t : AddressTable) (userID : Nat)
    (hne : userID ≠ a.UserID) :
    addressesOf (a.BeforeCreate t).rows userID = addressesOf t.rows userID := by
  unfold addressesOf Address.BeforeCreate
  simp only []
  split
  · simp only []
    induction t.rows with
    | nil => rfl
    | cons r rest ih =>
      simp only [List.map_cons, List.filter_cons]
      by_cases hu : r.UserID = a.UserID
      · have hau : a.UserID ≠ userID := Ne.symm hne
        simp [hu, hau, ih]
      · simp only [hu, if_false]
        rw [ih]
  · rfl

/-- C20: for every address table, creating an address with `IsDefault = true`
for the user `u` (`BeforeCreate` followed by the insertion) yields a table in
which `u` has exactly one default address, namely the new one, and the
addresses of every other user are unchanged; so a table in which each user has
at most one default address stays such a table. -/
theorem Address_Create_single_default (a stored : Address) (t t2 : AddressTable)
    (hd : a.IsDefault = true) (h : a.Create t = .ok (t2, stored)) :
    defaultsOf t2.rows a.UserID = [stored]
      ∧ stored ∈ t2.rows ∧ stored.UserID = a.UserID ∧ stored.IsDefault = true
      ∧ (∀ userID, userID ≠ a.UserID →
          addressesOf t2.rows userID = addressesOf t.rows userID)
      ∧ ((∀ userID, (defaultsOf t.rows userID).length ≤ 1) →
          ∀ userID, (defaultsOf t2.rows userID).length ≤ 1) := by
  obtain ⟨hrows, huser, hdef⟩ := Address.Create_appends a stored t t2 h
  have hsd : stored.IsDefault = true := by rw [hdef, hd]
  have h1 : defaultsOf t2.rows a.UserID = [stored] := by
    have hb := Address.BeforeCreate_defaultsOf a t hd
    unfold defaultsOf at hb ⊢
    rw [hrows, List.filter_append, hb]
    simp [huser, hsd]
  have h2 : ∀ userID, userID ≠ a.UserID →
      addressesOf t2.rows userID = addressesOf t.rows userID := by
    intro userID hne
    have hb := Address.BeforeCreate_addressesOf a t userID hne
    unfold addressesOf at hb ⊢
    rw [hrows, List.filter_append, hb]
    have : stored.UserID ≠ userID := by rw [huser]; exact Ne.symm hne
    simp [this]
  refine ⟨h1, by rw [hrows]; simp, huser, hsd, h2, ?_⟩
  intro hone userID
  by_cases hu : userID = a.UserID
  · rw [hu, h1]; simp
  · have hfd : ∀ rows : List Address, defaultsOf rows userID
        = (addressesOf rows userID).filter (fun r => r.IsDefault) := by
      intro rows
      unfold defaultsOf addressesOf
      rw [List.filter_filter]
      congr 1
      funext r
      exact Bool.and_comm _ _
    rw [hfd, h2 userID hu, ← hfd]
    exact hone userID

/-- Witness for C20: in the example table user 1 has the default address 1;
after the creation of a default address for user 1 the new address 4 is the
only default address of user 1, and the address of user 2 is as before. -/
theorem Address_Create_single_default_witness :
    defaultsOf
        [mkAddress 1 1 false, mkAddress 2 1 false, mkAddress 3 2 true, mkAddress 4 1 true] 1
      = [mkAddress 4 1 true]
      ∧ addressesOf
          [mkAddress 1 1 false, mkAddress 2 1 false, mkAddress 3 2 true, mkAddress 4 1 true] 2
        = addressesOf exampleAddresses.rows 2 :=
  have h := Address_Create_single_default (mkAddress 0 1 true) (mkAddress 4 1 true)
    exampleAddresses
    { rows := [mkAddress 1 1 false, mkAddress 2 1 false, mkAddress 3 2 true,
               mkAddress 4 1 true],
      autoIncrement := 5 } rfl rfl
  ⟨h.1, h.2.2.2.2.1 2 (by decide)⟩

/-! ### Product stock -/

/-- The negation of a Go `int` other than the smallest one is exact. -/
theorem wrapInt64_neg_of_gt_min (q : Int) (hlo : -(2 ^ 63) < q) (hhi : q < 2 ^ 63) :
    wrapInt64 (-q) = -q := by
  apply wrapInt64_of_range <;> omega

/-- For a quantity other than the smallest integer, `ProductService.UpdateStock` on
an existing product with a stock that is not negative either reports
insufficient stock or an out-of-range sum and leaves the table as it was, or
stores a stock `Stock + quantity` that is not negative. -/
theorem ProductService.UpdateStock_of_gt_min (products : List Product) (productID : Nat)
    (quantity : Int) (product : Product)
    (hget : ProductRepository.GetByID products productID = some product)
    (hstock : 0 ≤ product.Stock) (hlo : -(2 ^ 63) < quantity) (hhi : quantity < 2 ^ 63) :
    ProductService.UpdateStock products productID quantity
        = (products, some StockError.insufficientStock)
      ∨ ProductService.UpdateStock products productID quantity
        = (products, some StockError.outOfRange)
      ∨ ((ProductService.UpdateStock products productID quantity).2 = none
        ∧ ProductRepository.GetByID
            (ProductService.UpdateStock products productID quantity).1 productID
          = some { product with Stock := product.Stock + quantity }
        ∧ 0 ≤ product.Stock + quantity) := by
  unfold ProductService.UpdateStock
  rw [hget, wrapInt64_neg_of_gt_min quantity hlo hhi]
  simp only []
  split
  · exact Or.inl rfl
  · rename_i hguard
    unfold ProductRepository.UpdateStock
    simp only []
    split
    · refine Or.inr (Or.inr ⟨rfl, ?_, ?_⟩)
      · unfold ProductRepository.GetByID at hget ⊢
        simp only []
        clear * - hget
        induction products with
        | nil => simp at hget
        | cons p rest ih =>
          by_cases hp : p.ID = productID
          · have : p = product := by
              simpa [List.find?_cons, hp] using hget
            subst this
            simp [List.find?_cons, hp]
          · have hrest : List.find? (fun p => decide (p.ID = productID)) rest = some product := by
              simpa [List.find?_cons, hp] using hget
            simp [List.find?_cons, hp, ih hrest]
      · by_contra hneg
        exact hguard ⟨by omega, by omega⟩
    · exact Or.inr (Or.inl rfl)

/-- C21 (evaluation at the failing input): for the product 1 with stock 5 and
the quantity `-2^63`, the smallest `int`, the negation `-quantity` wraps to
`-2^63` itself, the test `product.Stock < -quantity` is false, and
`ProductService.UpdateStock` returns no error and stores the negative stock
`5 - 2^63`. -/
theorem UpdateStock_min_int_makes_stock_negative :
    wrapInt64 (-minInt) = minInt
      ∧ ProductService.UpdateStock [productWithStock 1 5] 1 minInt
        = ([productWithStock 1 (5 - 2 ^ 63)], none)
      ∧ (productWithStock 1 (5 - 2 ^ 63)).Stock < 0
      ∧ -(2 ^ 63) ≤ (productWithStock 1 (5 - 2 ^ 63)).Stock := by
  refine ⟨by decide, ?_, by decide, by decide⟩
  decide

/-! ### Rate limiter -/

/-- The handler of `RateLimiter` rejects a request exactly when the count of its
client, over all requests served so far whenever they arrived, has reached
100 (for a count that is far from the end of the range of `int`). -/
theorem RateLimiter_rejects_iff (ClientIP : Context → String) (requests : Requests)
    (next : Context → Context) (c : Context)
    (h0 : 0 ≤ requests (ClientIP c)) (hmax : requests (ClientIP c) < 2 ^ 62) :
    (100 ≤ requests (ClientIP c) →
      (RateLimiter ClientIP requests next c).2
        = (c.JSON 429 (rejection 429 "请求过于频繁，请稍后再试")).Abort)
      ∧ (requests (ClientIP c) < 100 →
        (RateLimiter ClientIP requests next c).2 = next c)
      ∧ (RateLimiter ClientIP requests next c).1 (ClientIP c) = requests (ClientIP c) + 1
      ∧ ∀ ip, ip ≠ ClientIP c → (RateLimiter ClientIP requests next c).1 ip = requests ip := by
  have hw : wrapInt64 (requests (ClientIP c) + 1) = requests (ClientIP c) + 1 := by
    apply wrapInt64_of_range <;> omega
  refine ⟨?_, ?_, ?_, ?_⟩
  · intro h
    simp only [RateLimiter, Requests.incr, if_true, hw]
    rw [if_pos (by omega)]
  · intro h
    simp only [RateLimiter, Requests.incr, if_true, hw]
    rw [if_neg (by omega)]
  · simp only [RateLimiter, Requests.incr, if_true, hw]
    split <;> simp [Requests.incr, hw]
  · intro ip hip
    simp only [RateLimiter, Requests.incr, if_true, hw]
    split <;> simp [Requests.incr, hip]

/-- C22 (evaluation at the failing input): the client `10.0.0.1` sends 101
requests at noon, the last of which is rejected. Two hours later none of its
requests lies within the current minute, yet its next request is rejected with
status 429 again, because the count is never reset; the request of the client
`10.0.0.2` is admitted. -/
theorem RateLimiter_never_readmits :
    arrivalsWithinMinute headerClientIP (burstTrace.take 101) "10.0.0.1" (noon + 2 * hour) = 0
      ∧ (RateLimiter.serve headerClientIP answerOK Requests.empty burstTrace).2.map
          Context.status
        = List.replicate 100 (some 200) ++ [some 429, some 429, some 200] := by
  set_option maxRecDepth 100000 in
  refine ⟨by decide, by decide⟩

/-! ### Phone validation -/

/-- What `validateChinesePhone` does check: a text that it accepts has 11 bytes,
starts with `1` and begins with one of the carrier prefixes. -/
theorem validateChinesePhone_true (phone : String) (h : validateChinesePhone phone = true) :
    phone.utf8ByteSize = 11 ∧ phone.toList.head? = some '1'
      ∧ ∃ pre ∈ carrierPrefixes, HasPrefix phone pre = true := by
  unfold validateChinesePhone at h
  by_cases hlen : phone.utf8ByteSize = 11
  · by_cases hhead : phone.toList.head? = some '1'
    · simp only [hlen, hhead, ne_eq, not_true_eq_false, if_false] at h
      exact ⟨hlen, hhead, by simpa [List.any_eq_true] using h⟩
    · rw [if_neg (by simp [hlen]), if_pos hhead] at h
      exact absurd h (by simp)
  · rw [if_pos hlen] at h
    exact absurd h (by simp)

/-- C23 (evaluation at the failing input): `validateChinesePhone` accepts the text
`138abcdefgh`, which has 11 bytes and the carrier prefix `138` but eight
characters that are not digits; the characters after the prefix are never
looked at. -/
theorem validateChinesePhone_accepts_letters :
    validateChinesePhone "138abcdefgh" = true ∧ allDigits "138abcdefgh" = false := by
  refine ⟨by decide, by decide⟩

/-! ### Offset of a page -/

/-- The pair returned by `GetPagination` has a page of at least 1 and a page size
between 1 and 100. -/
theorem GetPagination_bounds (c : Query) :
    1 ≤ (GetPagination c).1 ∧ 1 ≤ (GetPagination c).2 ∧ (GetPagination c).2 ≤ 100 := by
  have hval : GetPagination c =
      (if Atoi (DefaultQuery c "page" "1") < 1 then 1
        else Atoi (DefaultQuery c "page" "1"),
       if Atoi (DefaultQuery c "page_size" "10") < 1 ∨
            Atoi (DefaultQuery c "page_size" "10") > 100 then 10
        else Atoi (DefaultQuery c "page_size" "10")) := rfl
  refine ⟨?_, ?_, ?_⟩
  · rw [hval]; dsimp only; split <;> omega
  · rw [hval]; dsimp only; split <;> omega
  · rw [hval]; dsimp only; split <;> omega

/-- C24 (counterexample): for the query `page=92233720368547760&page_size=100`
the pair returned by `GetPagination` is `(92233720368547760, 100)`, the product
`(page - 1) * page_size` exceeds the range of `int`, and `GetOffset` returns
`-9223372036854775716`, which differs from the product, is negative and is not
a multiple of the page size. -/
theorem GetOffset_overflows :
    GetPagination hugePageQuery = (92233720368547760, 100)
      ∧ GetOffset 92233720368547760 100 = -9223372036854775716
      ∧ GetOffset 92233720368547760 100 ≠ (92233720368547760 - 1) * 100
      ∧ GetOffset 92233720368547760 100 < 0
      ∧ ¬ ((100 : Int) ∣ GetOffset 92233720368547760 100) := by
  refine ⟨by decide, by decide, by decide, by decide, by decide⟩

/-- C24 (amended): whenever the product `(page - 1) * page_size` is in the range
of `int`, `GetOffset` returns it; and for every pair returned by `GetPagination`
whose page is at most 92233720368547759 the offset is that product, is not
negative and is a multiple of the page size. -/
theorem GetOffset_spec (c : Query) (page pageSize : Int)
    (h : GetPagination c = (page, pageSize)) (hpage : page ≤ 92233720368547759) :
    (∀ p s : Int, -(2 ^ 63) ≤ (p - 1) * s → (p - 1) * s < 2 ^ 63 →
        GetOffset p s = (p - 1) * s)
      ∧ GetOffset page pageSize = (page - 1) * pageSize
      ∧ 0 ≤ GetOffset page pageSize
      ∧ pageSize ∣ GetOffset page pageSize := by
  have hall : ∀ p s : Int, -(2 ^ 63) ≤ (p - 1) * s → (p - 1) * s < 2 ^ 63 →
      GetOffset p s = (p - 1) * s := fun p s hlo hhi => wrapInt64_of_range _ hlo hhi
  obtain ⟨h1, h2, h3⟩ := GetPagination_bounds c
  rw [h] at h1 h2 h3
  simp only at h1 h2 h3
  have hnonneg : 0 ≤ (page - 1) * pageSize := Int.mul_nonneg (by omega) (by omega)
  have hle : (page - 1) * pageSize ≤ 92233720368547758 * 100 :=
    Int.mul_le_mul (by omega) h3 (by omega) (by omega)
  have heq : GetOffset page pageSize = (page - 1) * pageSize :=
    hall page pageSize (by omega) (by omega)
  exact ⟨hall, heq, by rw [heq]; exact hnonneg, by rw [heq]; exact Dvd.intro_left _ rfl⟩

/-- Witness for C24: the query `page=3&page_size=20` has the offset 40. -/
theorem GetOffset_spec_witness :
    GetPagination (fun key => if key = "page" then some "3"
        else if key = "page_size" then some "20" else none) = (3, 20)
      ∧ GetOffset 3 20 = (3 - 1) * 20 ∧ GetOffset 3 20 = 40
      ∧ (20 : Int) ∣ GetOffset 3 20 :=
  have h := GetOffset_spec (fun key => if key = "page" then some "3"
      else if key = "page_size" then some "20" else none) 3 20 (by decide) (by decide)
  ⟨by decide, h.2.1, by decide, h.2.2.2⟩

/-! ### Category tree: what the result is -/

/-- C25: whenever `buildTree(list, p)` returns, its result is the sibling group of
`p` (the sub-list of the categories whose `ParentID` is `p`, in their original
relative order): it is a sub-list of the list and holds exactly the members
whose `ParentID` is `p`. What the recursive calls return is discarded, so every
category that `GetTree` returns is a root-level category. -/
theorem buildTree_eq_siblingsOf (fuel : Nat) (categories : List Category) (p : Nat)
    (tree : List Category) (h : buildTree fuel categories p = some tree) :
    tree = siblingsOf categories p
      ∧ tree.Sublist categories
      ∧ (∀ c, c ∈ tree ↔ c ∈ categories ∧ c.ParentID = p)
      ∧ ∀ (t : CategoryTable) (roots : List Category),
          CategoryRepository.GetTree fuel t = some roots →
            roots = siblingsOf (t.rows.insertionSort sortIDLe) 0
              ∧ ∀ c ∈ roots, c.ParentID = 0 := by
  have htree : tree = siblingsOf categories p := buildTree_eq_filter fuel categories p tree h
  refine ⟨htree, ?_, ?_, ?_⟩
  · rw [htree]
    exact List.filter_sublist _
  · intro c
    rw [htree]
    simp [siblingsOf, List.mem_filter]
  · intro t roots hroots
    have hr : roots = siblingsOf (t.rows.insertionSort sortIDLe) 0 :=
      buildTree_eq_filter fuel _ 0 roots hroots
    refine ⟨hr, ?_⟩
    intro c hc
    rw [hr] at hc
    simpa using (List.mem_filter.mp hc).2

/-- Witness for C25: on the example list, `buildTree(list, 1)` returns the
categories 2 and 3, in this order. -/
theorem buildTree_eq_siblingsOf_witness :
    buildTree 3 exampleCategories 1 = some [mkCategory 2 1, mkCategory 3 1]
      ∧ [mkCategory 2 1, mkCategory 3 1] = siblingsOf exampleCategories 1
      ∧ CategoryRepository.GetTree 3 exampleTable = some [categoryAt 1 0 1, categoryAt 3 0 1] :=
  ⟨by decide,
   (buildTree_eq_siblingsOf 3 exampleCategories 1 [mkCategory 2 1, mkCategory 3 1]
     (by decide)).1,
   by decide⟩

/-! ### Category tree: termination -/

/-- The loop of `buildTree` does not return when a recursive call that it has
to make does not return. -/
theorem buildTreeLoop_none (recurse : Nat → Option (List Category)) (parentID : Nat)
    (l acc : List Category)
    (h : ∃ c ∈ l, c.ParentID = parentID ∧ recurse c.ID = none) :
    buildTreeLoop recurse parentID l acc = none := by
  induction l generalizing acc with
  | nil =>
    obtain ⟨c, hc, _⟩ := h
    simp at hc
  | cons d rest ih =>
    obtain ⟨c, hc, hparent, hnone⟩ := h
    unfold buildTreeLoop
    rcases List.mem_cons.mp hc with hcd | hrest
    · subst hcd
      rw [if_pos hparent, hnone]
    · have hih := fun acc => ih acc ⟨c, hrest, hparent, hnone⟩
      by_cases hd : d.ParentID = parentID
      · rw [if_pos hd]
        cases recurse d.ID with
        | none => rfl
        | some children => exact hih _
      · rw [if_neg hd]
        exact hih _

/-- C26: for a list whose `ID`s are pairwise distinct and non-zero,
`buildTree(list, 0)` returns within a recursion depth of one more than the
length of the list, whatever the parent links are (cycles among categories
that the root does not reach included); for a list that contains a category with
`ID = 0` and `ParentID = 0` no recursion depth is enough: the call does not
return. -/
theorem buildTree_termination (categories : List Category) :
    ((categories.map (fun c => c.ID)).Nodup → (∀ c ∈ categories, c.ID ≠ 0) →
        ∀ fuel, categories.length + 1 ≤ fuel →
          buildTree fuel categories 0 = some (siblingsOf categories 0))
      ∧ ((∃ c ∈ categories, c.ID = 0 ∧ c.ParentID = 0) →
        ∀ fuel, buildTree fuel categories 0 = none) := by
  refine ⟨?_, ?_⟩
  · intro hnodup hnonzero fuel hfuel
    exact buildTree_terminates categories hnodup hnonzero fuel hfuel
  · rintro ⟨c, hc, hid, hparent⟩ fuel
    induction fuel with
    | zero => rfl
    | succ n ih =>
      simp only [buildTree]
      exact buildTreeLoop_none _ _ _ _ ⟨c, hc, hparent, by rw [hid]; exact ih⟩

/-- Witness for C26: the list in which the categories 2 and 3 form a cycle has
three distinct non-zero ids, and `buildTree` returns its root at depth 4; on the
list of one category with `ID = 0` and `ParentID = 0` the depth 1000 is reached. -/
theorem buildTree_termination_witness :
    buildTree 4 cyclicCategories 0 = some [mkCategory 1 0]
      ∧ buildTree 1000 [mkCategory 0 0] 0 = none :=
  ⟨(buildTree_termination cyclicCategories).1 (by decide) (by decide) 4 (by decide),
   (buildTree_termination [mkCategory 0 0]).2 ⟨mkCategory 0 0, by simp, rfl, rfl⟩ 1000⟩

/-! ### Profile handlers -/

/-- The getter `GetUint` returns `0` for a key that holds a `uint64`, whatever its
value. -/
theorem Context.GetUint_of_uint64 (c : Context) (key : String) (u : Nat)
    (h : c.Get key = some (Any.uint64 u)) : c.GetUint key = 0 := by
  simp [Context.GetUint, h, Any.asUint]

/-- On a context whose key `user_id` holds a `uint64`, as `JWTAuth` leaves it, each
of the three profile handlers answers with the envelope of `utils.Unauthorized`
and leaves the table of users as it was. -/
theorem controller.profile_handlers_of_uint64 (env : AuthEnv) (db : UserTable)
    (c : Context) (u : Nat) (h : c.Get "user_id" = some (Any.uint64 u)) :
    controller.GetUserInfo env db c = (db, utils.Unauthorized c)
      ∧ controller.UpdateUserInfo env db c = (db, utils.Unauthorized c)
      ∧ controller.UpdatePassword env db c = (db, utils.Unauthorized c) := by
  have h0 := Context.GetUint_of_uint64 c "user_id" u h
  refine ⟨?_, ?_, ?_⟩
  · simp [controller.GetUserInfo, h0]
  · simp [controller.UpdateUserInfo, h0]
  · simp [controller.UpdatePassword, h0]

/-- Behind `JWTAuth`, a request with a valid bearer token is answered by each
profile handler with the envelope of `utils.Unauthorized`, whatever the user id
of the claims. -/
theorem JWTAuth_profile_unauthorized (ValidateToken : String → Except String JWTClaims)
    (env : AuthEnv) (db : UserTable) (c : Context) (tokenString : String)
    (claims : JWTClaims)
    (hheader : c.GetHeader "Authorization" = "Bearer " ++ tokenString)
    (hvalid : ValidateToken tokenString = .ok claims) :
    JWTAuth ValidateToken (fun c1 => (controller.GetUserInfo env db c1).2) c
        = utils.Unauthorized (withUser c claims)
      ∧ JWTAuth ValidateToken (fun c1 => (controller.UpdateUserInfo env db c1).2) c
        = utils.Unauthorized (withUser c claims)
      ∧ JWTAuth ValidateToken (fun c1 => (controller.UpdatePassword env db c1).2) c
        = utils.Unauthorized (withUser c claims) := by
  have hget := (withUser_Get c claims).1
  have hall := controller.profile_handlers_of_uint64 env db (withUser c claims)
    claims.UserID hget
  refine ⟨?_, ?_, ?_⟩
  · rw [JWTAuth_of_valid ValidateToken _ c tokenString claims hheader hvalid, hall.1]
  · rw [JWTAuth_of_valid ValidateToken _ c tokenString claims hheader hvalid, hall.2.1]
  · rw [JWTAuth_of_valid ValidateToken _ c tokenString claims hheader hvalid, hall.2.2]

/-- C27 (evaluation at the failing input): the three routes of the group
`/api/users` run `JWTAuth` and then `GetUserInfo`, `UpdateUserInfo` and
`UpdatePassword`. For a request with the valid token of the user 7 `alice`, who
is in the table of users, `JWTAuth` stores the `uint64` value 7 under `user_id`, the
handler reads the key with `GetUint`, gets `0`, and answers with the envelope of
code 401 of `utils.Unauthorized`; no user is looked up. -/
theorem profile_routes_answer_unauthorized :
    profileRoutes.map (fun r => (r.Method, r.Path, r.Handlers.getLast?))
        = [("GET", "/api/users/profile", some (Handler.Controller "GetUserInfo")),
           ("PUT", "/api/users/profile", some (Handler.Controller "UpdateUserInfo")),
           ("PUT", "/api/users/password", some (Handler.Controller "UpdatePassword"))]
      ∧ sampleUsers.rows.find? (fun u => decide (u.ID = 7)) = some alice
      ∧ profileRoutes.map (fun r =>
          ((Serve (accountEnv sampleAuthEnv sampleUsers) r
              (mkRequest r.Method r.Path "Bearer alice-token")).Get "user_id",
           (Serve (accountEnv sampleAuthEnv sampleUsers) r
              (mkRequest r.Method r.Path "Bearer alice-token")).GetUint "user_id",
           (Serve (accountEnv sampleAuthEnv sampleUsers) r
              (mkRequest r.Method r.Path "Bearer alice-token")).Written))
        = List.replicate 3
            (some (Any.uint64 7), 0,
             [{ Status := 200,
                Body := Body.response { Code := 401, Message := "未授权", Data := Data.nil } }]) := by
  set_option maxRecDepth 8000 in
  refine ⟨by decide, by decide, by decide⟩

/-! ### Roles of the tokens that the API issues -/

/-- A response written by `utils.Error` carries no token. -/
theorem issuedToken_Error (c : Context) (code : Int) (message : String) :
    (utils.Error c code message).issuedToken = none := by
  simp [Context.issuedToken, utils.Error, Context.lastWritten_JSON]

/-- The token carried by a response whose data is a record. -/
theorem issuedToken_JSON_record (c : Context) (status : Nat) (code : Int) (message : String)
    (fields : List (String × Value)) :
    (c.JSON status
        (Body.response { Code := code, Message := message, Data := Data.record fields })).issuedToken
      = match fields.lookup "token" with
        | some (Value.scalar (Any.token t)) => some t
        | _ => none := by
  simp [Context.issuedToken, Context.lastWritten_JSON]

/-- When `ParseToken` succeeds, the token is signed under the configured secret
and the claims returned are its claims. -/
theorem utils.ParseToken_ok_signed (cfg : JWTConfig) (now : Time) (tokenString : TokenString)
    (claims : JWTClaims) (h : utils.ParseToken cfg now tokenString = .ok claims) :
    ∃ method, tokenString = TokenString.signed method claims cfg.Secret := by
  cases tokenString with
  | malformed text => simp [utils.ParseToken, jwt.ParseWithClaims] at h
  | signed method tokenClaims key =>
    refine ⟨method, ?_⟩
    unfold utils.ParseToken jwt.ParseWithClaims at h
    by_cases hm : method.isHMAC = true
    · by_cases hk : cfg.Secret = key
      · subst hk
        simp only [hm, if_true, Bool.true_and, decide_True] at h
        cases hv : jwt.validateClaims tokenClaims now with
        | error err => simp [hv] at h
        | ok u =>
          simp [hv] at h
          rw [h]
      · simp [hm, hk] at h
    · simp [hm] at h

/-- A token carried by a response of `Login` is signed under the configured secret
and has the role `user`. -/
theorem controller.Login_issuedToken (env : AuthEnv) (db : UserTable) (c : Context)
    (t : TokenString) (h : (controller.Login env db c).2.issuedToken = some t) :
    ∃ claims, t = TokenString.signed SigningMethod.HS256 claims env.cfg.Secret
      ∧ claims.Role = "user" := by
  unfold controller.Login at h
  split at h
  · simp [utils.ParamError, issuedToken_Error] at h
  · split at h
    · split at h <;> simp [utils.ParamError, utils.ServerError, issuedToken_Error] at h
    · split at h
      · simp [utils.ParamError, issuedToken_Error] at h
      · split at h
        · simp [utils.ParamError, issuedToken_Error] at h
        · rw [utils.GenerateToken_eq] at h
          simp only [utils.Success, controller.sessionData, issuedToken_JSON_record,
            List.lookup, beq_self_eq_true] at h
          exact ⟨_, (Option.some.inj h).symm, rfl⟩

/-- A token carried by a response of `Register` is signed under the configured
secret and has the role `user`. -/
theorem controller.Register_issuedToken (env : AuthEnv) (db : UserTable) (c : Context)
    (t : TokenString) (h : (controller.Register env db c).2.issuedToken = some t) :
    ∃ claims, t = TokenString.signed SigningMethod.HS256 claims env.cfg.Secret
      ∧ claims.Role = "user" := by
  unfold controller.Register at h
  split at h
  · simp [utils.ParamError, issuedToken_Error] at h
  · split at h
    · simp [utils.ParamError, issuedToken_Error] at h
    · split at h
      · simp [utils.ParamError, issuedToken_Error] at h
      · split at h
        · simp [utils.ParamError, issuedToken_Error] at h
        · simp only [] at h
          split at h
          · simp [utils.ServerError, issuedToken_Error] at h
          · rw [utils.GenerateToken_eq] at h
            simp only [utils.Created, controller.sessionData, issuedToken_JSON_record,
              List.lookup, beq_self_eq_true] at h
            exact ⟨_, (Option.some.inj h).symm, rfl⟩

/-- A token carried by a response of `RefreshToken` is signed under the configured
secret and has the user id, the username and the role of the claims that
`ParseToken` read from the presented token. -/
theorem controller.RefreshToken_issuedToken (env : AuthEnv) (db : UserTable) (c : Context)
    (t : TokenString) (h : (controller.RefreshToken env db c).2.issuedToken = some t) :
    ∃ old claims,
      utils.ParseToken env.cfg (env.clock 0) (presentedToken env.decode c) = .ok old
      ∧ t = TokenString.signed SigningMethod.HS256 claims env.cfg.Secret
      ∧ claims.Role = old.Role ∧ claims.UserID = old.UserID
      ∧ claims.Username = old.Username := by
  unfold controller.RefreshToken at h
  simp only [] at h
  split at h
  · simp [utils.Unauthorized, issuedToken_Error] at h
  · split at h
    · simp [utils.Unauthorized, issuedToken_Error] at h
    · rename_i old hold
      rw [utils.GenerateToken_eq] at h
      simp only [utils.Success, issuedToken_JSON_record, List.lookup, beq_self_eq_true] at h
      exact ⟨old, _, hold, (Option.some.inj h).symm, rfl, rfl, rfl⟩

/-- Every token obtainable through the API is signed under the configured secret
with the method HS256 and has the role `user`. -/
theorem Issued.role_user {cfg : JWTConfig} {decode : String → TokenString} {t : TokenString}
    (h : Issued cfg decode t) :
    ∃ claims, t = TokenString.signed SigningMethod.HS256 claims cfg.Secret
      ∧ claims.Role = "user" := by
  induction h with
  | login env db c t hcfg _ ht =>
    subst hcfg
    exact controller.Login_issuedToken env db c t ht
  | register env db c t hcfg _ ht =>
    subst hcfg
    exact controller.Register_issuedToken env db c t ht
  | refresh env db c t hcfg hdecode _ ht ih =>
    subst hcfg hdecode
    obtain ⟨old, claims, hparse, hsigned, hrole, _, _⟩ :=
      controller.RefreshToken_issuedToken env db c t ht
    obtain ⟨method, hpresented⟩ := utils.ParseToken_ok_signed _ _ _ _ hparse
    obtain ⟨oldClaims, hold, holdRole⟩ := ih
    rw [hold] at hpresented
    have hsame : oldClaims = old := by
      injection hpresented with _ hclaims _
    exact ⟨claims, hsigned, by rw [hrole, ← hsame, holdRole]⟩
  | refreshForged env db c t hcfg hdecode hforged ht =>
    subst hcfg hdecode
    obtain ⟨old, claims, hparse, _, _, _, _⟩ :=
      controller.RefreshToken_issuedToken env db c t ht
    obtain ⟨method, hpresented⟩ := utils.ParseToken_ok_signed _ _ _ _ hparse
    exact absurd hpresented (hforged method old)

/-- C28: a token carried by a response of `Login` or of `Register` has the role
`user`, whatever the request and the table of users; a token carried by a
response of `RefreshToken` has the role (and the user id and username) of the
claims of the presented token; hence every token obtainable through the API,
as long as the secret of the server is only used by the server, has the role
`user`, and none has the role `admin`. -/
theorem api_tokens_carry_role_user (env : AuthEnv) (db : UserTable) (c : Context) :
    (∀ t, (controller.Login env db c).2.issuedToken = some t →
        ∃ claims, t = TokenString.signed SigningMethod.HS256 claims env.cfg.Secret
          ∧ claims.Role = "user")
      ∧ (∀ t, (controller.Register env db c).2.issuedToken = some t →
        ∃ claims, t = TokenString.signed SigningMethod.HS256 claims env.cfg.Secret
          ∧ claims.Role = "user")
      ∧ (∀ t, (controller.RefreshToken env db c).2.issuedToken = some t →
        ∃ old claims,
          utils.ParseToken env.cfg (env.clock 0) (presentedToken env.decode c) = .ok old
          ∧ t = TokenString.signed SigningMethod.HS256 claims env.cfg.Secret
          ∧ claims.Role = old.Role)
      ∧ (∀ t, Issued env.cfg env.decode t →
        ∃ claims, t = TokenString.signed SigningMethod.HS256 claims env.cfg.Secret
          ∧ claims.Role = "user" ∧ claims.Role ≠ "admin") := by
  refine ⟨controller.Login_issuedToken env db c, controller.Register_issuedToken env db c,
    ?_, ?_⟩
  · intro t ht
    obtain ⟨old, claims, hparse, hsigned, hrole, _, _⟩ :=
      controller.RefreshToken_issuedToken env db c t ht
    exact ⟨old, claims, hparse, hsigned, hrole⟩
  · intro t ht
    obtain ⟨claims, hsigned, hrole⟩ := Issued.role_user ht
    exact ⟨claims, hsigned, hrole, by rw [hrole]; decide⟩

/-- Witness for C28: in the sample environment the login of `alice` issues at noon
the token `aliceToken`, whose role is `user`; the refresh request that presents
this token issues a token of role `user` again; and the token is obtainable
through the API. -/
theorem api_tokens_carry_role_user_witness :
    (controller.Login sampleAuthEnv sampleUsers loginContext).2.issuedToken = some aliceToken
      ∧ (controller.RefreshToken sampleAuthEnv sampleUsers refreshContext).2.issuedToken
          = some aliceToken
      ∧ (∃ claims, aliceToken
            = TokenString.signed SigningMethod.HS256 claims sampleAuthEnv.cfg.Secret
          ∧ claims.Role = "user")
      ∧ (∃ old claims,
          utils.ParseToken sampleAuthEnv.cfg (sampleAuthEnv.clock 0)
              (presentedToken sampleAuthEnv.decode refreshContext) = .ok old
          ∧ aliceToken = TokenString.signed SigningMethod.HS256 claims sampleAuthEnv.cfg.Secret
          ∧ claims.Role = old.Role)
      ∧ (∃ claims, aliceToken
            = TokenString.signed SigningMethod.HS256 claims sampleAuthEnv.cfg.Secret
          ∧ claims.Role = "user" ∧ claims.Role ≠ "admin") := by
  have hlogin : (controller.Login sampleAuthEnv sampleUsers loginContext).2.issuedToken
      = some aliceToken := by
    set_option maxRecDepth 8000 in
    decide
  have hrefresh :
      (controller.RefreshToken sampleAuthEnv sampleUsers refreshContext).2.issuedToken
        = some aliceToken := by
    set_option maxRecDepth 8000 in
    decide
  exact ⟨hlogin, hrefresh,
    (api_tokens_carry_role_user sampleAuthEnv sampleUsers loginContext).1 aliceToken hlogin,
    (api_tokens_carry_role_user sampleAuthEnv sampleUsers refreshContext).2.2.1 aliceToken
      hrefresh,
    (api_tokens_carry_role_user sampleAuthEnv sampleUsers loginContext).2.2.2 aliceToken
      (Issued.refresh sampleAuthEnv sampleUsers refreshContext aliceToken rfl rfl
        (Issued.login sampleAuthEnv sampleUsers loginContext _ rfl rfl hlogin) hrefresh)⟩

/-! ### Bounds of the discount -/

/-- The function `Coupon.GetDiscountAmount` is `GetDiscountAmountOver` with the
arithmetic of `float64`. -/
theorem Coupon.GetDiscountAmount_eq_over (parse : String → Option Time) (now : Time)
    (c : Coupon) (totalAmount : F64) :
    c.GetDiscountAmount parse now totalAmount
      = GetDiscountAmountOver float64 (c.CheckIsValid parse now) c.Type_ c.Value c.MinAmount
          totalAmount := rfl

/-- C29 (counterexample): a valid fixed-amount coupon of value 50 without minimum
amount gives, for the order total 10, the discount 50, which exceeds the total,
so that the amount left to pay is negative: in `float64` and in exact
arithmetic alike. -/
theorem GetDiscountAmount_exceeds_total :
    Coupon.GetDiscountAmount timeParse noon (sampleCoupon 1 (F64.ofNat 50) F64.zero)
        (F64.ofNat 10) = F64.ofNat 50
      ∧ F64.lt (F64.ofNat 10) (F64.ofNat 50) = true
      ∧ F64.lt (F64.sub (F64.ofNat 10) (F64.ofNat 50)) F64.zero = true
      ∧ GetDiscountAmountOver exact true 1 50 0 10 = 50
      ∧ ¬ (GetDiscountAmountOver exact true 1 50 0 10 ≤ 10)
      ∧ (10 : ℚ) - GetDiscountAmountOver exact true 1 50 0 10 < 0 := by
  have hexact : GetDiscountAmountOver exact true 1 50 0 10 = 50 := by
    simp [GetDiscountAmountOver, exact]
  refine ⟨?_, ?_, ?_, hexact, ?_, ?_⟩
  · set_option maxRecDepth 4000 in
    set_option exponentiation.threshold 4096 in
    decide
  · set_option maxRecDepth 4000 in
    set_option exponentiation.threshold 4096 in
    decide
  · set_option maxRecDepth 4000 in
    set_option exponentiation.threshold 4096 in
    decide
  · rw [hexact]; norm_num
  · rw [hexact]; norm_num

/-- C29 (amended): over exact arithmetic, for every coupon with `Value ≥ 0`
(whatever its `MinAmount`) and every order total `≥ 0`, the discount `d` is not
negative; it is at most the total for every coupon that is not of the
fixed-amount type, and for a fixed-amount coupon whose value is at most the
total; whenever it is at most the total the amount left to pay is not
negative; and a valid fixed-amount coupon gives its value for every total that
reaches the minimum amount. -/
theorem GetDiscountAmount_exact_bounds (valid : Bool) (type : Int)
    (value minAmount totalAmount : ℚ)
    (hvalue : 0 ≤ value) (htotal : 0 ≤ totalAmount) :
    0 ≤ GetDiscountAmountOver exact valid type value minAmount totalAmount
      ∧ ((type ≠ 1 ∨ value ≤ totalAmount) →
          GetDiscountAmountOver exact valid type value minAmount totalAmount ≤ totalAmount)
      ∧ (GetDiscountAmountOver exact valid type value minAmount totalAmount ≤ totalAmount →
          0 ≤ totalAmount - GetDiscountAmountOver exact valid type value minAmount totalAmount)
      ∧ (type = 1 → valid = true → minAmount ≤ totalAmount →
          GetDiscountAmountOver exact valid type value minAmount totalAmount = value) := by
  have hd : GetDiscountAmountOver exact valid type value minAmount totalAmount
      = if valid = false then 0
        else if totalAmount < minAmount then 0
        else if type = 1 then value
        else if type = 2 then
          if 1 ≤ value ∨ value ≤ 0 then 0 else totalAmount * (1 - value)
        else 0 := by
    simp [GetDiscountAmountOver, exact]
  rw [hd]
  refine ⟨?_, ?_, ?_, ?_⟩
  · split_ifs <;> first | exact le_refl _ | exact hvalue | skip
    rename_i h
    push_neg at h
    exact mul_nonneg htotal (by linarith [h.1])
  · intro hcase
    split_ifs with h1 h2 h3 h4 h5 <;> first | exact htotal | skip
    · rcases hcase with hc | hc
      · exact absurd h3 hc
      · exact hc
    · push_neg at h5
      nlinarith [h5.1, h5.2]
  · intro hle
    linarith
  · intro htype hv hge
    rw [if_neg (by simp [hv]), if_neg (not_lt.mpr hge), if_pos htype]

/-- Witness for C29: over exact arithmetic a valid percentage coupon of rate 4/5
gives the discount 20 for the total 100, and a valid fixed-amount coupon of
value 15 gives the discount 15; both are between 0 and the total. -/
theorem GetDiscountAmount_exact_bounds_witness :
    (0 ≤ GetDiscountAmountOver exact true 2 (4 / 5) 0 100
        ∧ GetDiscountAmountOver exact true 2 (4 / 5) 0 100 ≤ 100)
      ∧ GetDiscountAmountOver exact true 2 (4 / 5) 0 100 = 20
      ∧ GetDiscountAmountOver exact true 1 15 0 100 = 15 :=
  have h := GetDiscountAmount_exact_bounds true 2 (4 / 5) 0 100 (by norm_num) (by norm_num)
  have h1 := GetDiscountAmount_exact_bounds true 1 15 0 100 (by norm_num) (by norm_num)
  ⟨⟨h.1, h.2.1 (Or.inl (by decide))⟩, by simp [GetDiscountAmountOver, exact]; norm_num,
   h1.2.2.2 rfl rfl (by norm_num)⟩

/-! ### Product list -/

/-- A query that `bindProductQuery` accepts has a page that is `0` or at least 1 and
a page size that is `0` or between 1 and 100. -/
theorem controller.bindProductQuery_bounds (q : Query) (query : controller.ProductQuery)
    (h : controller.bindProductQuery q = some query) :
    (query.Page = 0 ∨ 1 ≤ query.Page)
      ∧ (query.PageSize = 0 ∨ (1 ≤ query.PageSize ∧ query.PageSize ≤ 100)) := by
  unfold controller.bindProductQuery at h
  simp only [Option.bind_eq_bind, Option.bind_eq_some] at h
  obtain ⟨page, _, pageSize, _, categoryID, _, isHot, _, isNew, _, h⟩ := h
  by_cases hp : page ≠ 0 ∧ page < 1
  · simp [hp] at h
  · by_cases hs : pageSize ≠ 0 ∧ (pageSize < 1 ∨ 100 < pageSize)
    · simp [hp, hs] at h
    · by_cases hsort : (q "sort").getD "" ≠ ""
          ∧ (q "sort").getD "" ∉ ["sales", "price_desc", "price_asc"]
      · simp [hp, hs, hsort] at h
      · simp only [hp, hs, hsort, if_false] at h
        simp only [pure, Option.some_bind, Option.some.injEq] at h
        subst h
        simp only
        constructor
        · by_cases h0 : page = 0
          · exact Or.inl h0
          · right
            by_contra hlt
            exact hp ⟨h0, by omega⟩
        · by_cases h0 : pageSize = 0
          · exact Or.inl h0
          · right
            by_contra hlt
            exact hs ⟨h0, by omega⟩

/-- The response of `GetProducts` for the query string without parameters holds
the page 0 and the page size 0, the zero values of the query that the controller
bound, while the service and the repository work with the page 1 and the page
size 10 that they wrote into `productQuery`. -/
theorem controller.GetProducts_echoes_zero :
    (controller.GetProducts sampleSQL [] emptyQuery freshContext).echoedPage
        = some (Value.scalar (Any.int 0), Value.scalar (Any.int 0))
      ∧ (controller.bindProductQuery emptyQuery).map (fun query =>
          ((ProductService.GetProducts sampleSQL [] query.toModel).query.Page,
           (ProductService.GetProducts sampleSQL [] query.toModel).query.PageSize,
           (ProductService.GetProducts sampleSQL [] query.toModel).offset))
        = some (1, 10, 0) := by
  refine ⟨by decide, by decide⟩

/-- C30 (counterexample): the query `page=92233720368547760&page_size=100` binds,
the response holds this page and this page size, which are the values that the
repository uses, and the offset computed from them is `-9223372036854775716`,
a negative number. -/
theorem GetProducts_offset_negative :
    (controller.GetProducts sampleSQL [] hugePageQuery freshContext).echoedPage
        = some (Value.scalar (Any.int 92233720368547760), Value.scalar (Any.int 100))
      ∧ (controller.bindProductQuery hugePageQuery).map (fun query =>
          ((ProductService.GetProducts sampleSQL [] query.toModel).query.Page,
           (ProductService.GetProducts sampleSQL [] query.toModel).query.PageSize,
           (ProductService.GetProducts sampleSQL [] query.toModel).offset))
        = some (92233720368547760, 100, -9223372036854775716)
      ∧ (-9223372036854775716 : Int) < 0 := by
  refine ⟨by decide, by decide, by decide⟩

/-- C30 (amended): for every query string that binds to a page of at least 1 and a
page size of at least 1, the response of `GetProducts` holds the page and the
page size that the service and the repository use; the offset is computed from
them in 64 bit arithmetic, the page holds at most `page_size` products, and for a
page of at most 92233720368547759 the offset is `(page - 1) * page_size` and is not
negative. -/
theorem GetProducts_echoes_used_page (sql : SQL) (products : List Product) (q : Query)
    (c : Context) (query : controller.ProductQuery)
    (hbind : controller.bindProductQuery q = some query)
    (hpage : 1 ≤ query.Page) (hsize : 1 ≤ query.PageSize) :
    (controller.GetProducts sql products q c).echoedPage
        = some (Value.scalar
                  (Any.int (ProductService.GetProducts sql products query.toModel).query.Page),
                Value.scalar
                  (Any.int (ProductService.GetProducts sql products query.toModel).query.PageSize))
      ∧ (ProductService.GetProducts sql products query.toModel).query.Page = query.Page
      ∧ (ProductService.GetProducts sql products query.toModel).query.PageSize = query.PageSize
      ∧ (ProductService.GetProducts sql products query.toModel).offset
          = wrapInt64 ((query.Page - 1) * query.PageSize)
      ∧ (ProductService.GetProducts sql products query.toModel).products.length
          ≤ query.PageSize.toNat
      ∧ (query.Page ≤ 92233720368547759 →
          (ProductService.GetProducts sql products query.toModel).offset
              = (query.Page - 1) * query.PageSize
            ∧ 0 ≤ (ProductService.GetProducts sql products query.toModel).offset) := by
  have hp : ¬ query.Page ≤ 0 := by omega
  have hs : ¬ query.PageSize ≤ 0 := by omega
  have hqp : (ProductService.GetProducts sql products query.toModel).query.Page = query.Page := by
    simp [ProductService.GetProducts, ProductRepository.GetProducts,
      controller.ProductQuery.toModel, hp, hs]
  have hqs : (ProductService.GetProducts sql products query.toModel).query.PageSize
      = query.PageSize := by
    simp [ProductService.GetProducts, ProductRepository.GetProducts,
      controller.ProductQuery.toModel, hp, hs]
  have hoff : (ProductService.GetProducts sql products query.toModel).offset
      = wrapInt64 ((query.Page - 1) * query.PageSize) := by
    simp [ProductService.GetProducts, ProductRepository.GetProducts,
      controller.ProductQuery.toModel, hp, hs]
  have hlen : (ProductService.GetProducts sql products query.toModel).products.length
      ≤ query.PageSize.toNat := by
    simp only [ProductService.GetProducts, ProductRepository.GetProducts,
      controller.ProductQuery.toModel, hp, hs, if_false]
    exact List.length_take_le _ _
  have hsize100 : query.PageSize ≤ 100 := by
    rcases (controller.bindProductQuery_bounds q query hbind).2 with h0 | h1
    · omega
    · exact h1.2
  refine ⟨?_, hqp, hqs, hoff, hlen, ?_⟩
  · rw [hqp, hqs]
    simp [controller.GetProducts, hbind, utils.Success, Context.echoedPage,
      Context.lastWritten_JSON, List.lookup]
  · intro hmax
    have hnonneg : 0 ≤ (query.Page - 1) * query.PageSize :=
      Int.mul_nonneg (by omega) (by omega)
    have hle : (query.Page - 1) * query.PageSize ≤ 92233720368547758 * 100 :=
      Int.mul_le_mul (by omega) hsize100 (by omega) (by omega)
    have heq : wrapInt64 ((query.Page - 1) * query.PageSize)
        = (query.Page - 1) * query.PageSize :=
      wrapInt64_of_range _ (by omega) (by omega)
    rw [hoff, heq]
    exact ⟨rfl, hnonneg⟩

/-- Witness for C30: the query `page=3&page_size=20` binds to the page 3 and the
page size 20; the response holds these values and the offset is 40. -/
theorem GetProducts_echoes_used_page_witness :
    (controller.GetProducts sampleSQL [] thirdPageQuery freshContext).echoedPage
        = some (Value.scalar (Any.int 3), Value.scalar (Any.int 20))
      ∧ (ProductService.GetProducts sampleSQL []
          (controller.ProductQuery.toModel
            { Page := 3, PageSize := 20, CategoryID := 0, Keyword := "", Sort_ := "",
              IsHot := false, IsNew := false })).offset = (3 - 1) * 20 :=
  have h := GetProducts_echoes_used_page sampleSQL [] thirdPageQuery freshContext
    { Page := 3, PageSize := 20, CategoryID := 0, Keyword := "", Sort_ := "",
      IsHot := false, IsNew := false } (by decide) (by decide) (by decide)
  ⟨h.1, (h.2.2.2.2.2 (by decide)).1⟩

end OnlineMall
